import Mathlib

/-!
# The decoder thread of MPD (`src/decoder_thread.c`)

A shallow embedding of `decoder_try_decode`, `decoder_run` and `decoder_task`.

* The process-wide control block `dc` is a record passed from state to state.
* Everything the code calls outside of the file (the song mapper, the input
  stream, the plugin registry, the plugins themselves, the music pipe, the
  notify objects) is either a field of the environment `Env` or a small model
  whose doc comment says where it comes from.
* Every external call and every write to `dc` is logged, in program order, in
  the trace of the `World`; every value `dc` takes is kept in its history.
* The controller thread is a field of `Env`: what it has written to
  `dc.command`, if anything, before each read of that field by the engine.
* The suffix loops walk the finite list of matches of the suffix, which the
  code computes once, and are total.  The MIME loop looks up the MIME type the
  stream reports in each round, as line 108 does, and is bounded by the length
  of the registry.  The readiness wait, which may go on for ever, takes fuel,
  one unit a round, and `decoder_run` returns `Except.error Fault.out_of_fuel`
  when it runs out.
-/

namespace Mpd

/-! ## Data model -/

/-- Modelled from the spec: the lifecycle state `Stopped | Starting | Decoding`
(`enum decoder_state` of `decoder_control.h`, which is not under `src/`). -/
inductive decoder_state where
  | DECODE_STATE_STOP
  | DECODE_STATE_START
  | DECODE_STATE_DECODE
  deriving DecidableEq, Repr

/-- Modelled from the spec: the command `None | Start | Stop | Seek`
(`enum decoder_command` of `decoder_control.h`, which is not under `src/`). -/
inductive decoder_command where
  | DECODE_COMMAND_NONE
  | DECODE_COMMAND_START
  | DECODE_COMMAND_STOP
  | DECODE_COMMAND_SEEK
  deriving DecidableEq, Repr

/-- Modelled from the spec: the values `dc.error` can hold.  `decoder_thread.c`
writes `DECODE_ERROR_FILE` and `DECODE_ERROR_UNKTYPE`; `DECODE_ERROR_NOERROR`
stands for "no error" (`last_error` unset).  The declaration
(`decoder_control.h`) is not under `src/`. -/
inductive decoder_error where
  | DECODE_ERROR_NOERROR
  | DECODE_ERROR_UNKTYPE
  | DECODE_ERROR_FILE
  deriving DecidableEq, Repr

open decoder_state decoder_command decoder_error

/-- A track descriptor (`struct song`); the decoder thread only hands it to
`song_is_file`, `map_song_fs` and `song_get_url`. -/
structure song where
  id : Nat
  deriving DecidableEq, Repr

/-- The fields of the global `dc` (`struct decoder_control`) that
`decoder_thread.c` reads or writes. -/
structure decoder_control where
  state : decoder_state
  command : decoder_command
  error : decoder_error
  current_song : Option song
  next_song : Option song
  deriving DecidableEq, Repr

/-- Modelled from the spec: the Input Source (`struct input_stream` of
`input_stream.h`, not under `src/`): readiness, the reported MIME type and the
read position. -/
structure input_stream where
  ready : Bool
  mime : Option String
  offset : Nat
  deriving DecidableEq, Repr

/-- Modelled from the spec: `input_stream_seek(is, offset, SEEK_SET)` moves the
read position to `offset` (the transport is not under `src/`). -/
def input_stream_seek (is : input_stream) (offset : Nat) : input_stream :=
  { is with offset := offset }

/-- The per-session `struct decoder` that `decoder_run` initialises and hands to
the decode entry of a plugin. -/
structure decoder where
  seeking : Bool
  stream_tag_sent : Bool
  deriving DecidableEq, Repr

/-- What a decode entry of a plugin leaves behind: its boolean return value and
the `dc.state` / `dc.command` that it, through the decoder API, and the
controller have left in the control block while it ran. -/
structure decode_result where
  ret : Bool
  state : decoder_state
  command : decoder_command
  deriving DecidableEq, Repr

/-- A decoder plugin (`struct decoder_plugin`): its name, the suffixes and MIME
types it is registered for, and its three optional entry points (`none` is the
`NULL` function pointer). -/
structure decoder_plugin where
  name : String
  suffixes : List String
  mime_types : List String
  try_decode : Option (input_stream → Bool × input_stream)
  stream_decode : Option (decoder → input_stream → decoder_control → decode_result)
  file_decode : Option (decoder → String → decoder_control → decode_result)

/-- Everything `decoder_thread.c` consumes from outside: the song mapper, the
suffix parser, the input-stream transport, the plugin registry (in registration
order), and the controller thread, which may have written a command before the
`n`-th time the engine reads `dc.command` (`none`: it has not). -/
structure Env where
  song_is_file : song → Bool
  map_song_fs : song → Option String
  song_get_url : song → Option String
  getSuffix : String → Option String
  input_stream_open : String → Option input_stream
  input_stream_buffer : input_stream → Int × input_stream
  decoder_plugins : List decoder_plugin
  controller : Nat → Option decoder_command

/-- Modelled from the spec: the plugins of the registry that are registered for
MIME type `mime`, in registry order; none for a `NULL` MIME type
(`decoder_list.c` is not under `src/`). -/
def mime_matches (reg : List decoder_plugin) (mime : Option String) : List decoder_plugin :=
  match mime with
  | none => []
  | some m => reg.filter (fun p => decide (m ∈ p.mime_types))

/-- Modelled from the spec: the plugins of the registry that are registered for
the suffix `suffix`, in registry order; none for a `NULL` suffix
(`decoder_list.c` is not under `src/`). -/
def suffix_matches (reg : List decoder_plugin) (suffix : Option String) : List decoder_plugin :=
  match suffix with
  | none => []
  | some s => reg.filter (fun p => decide (s ∈ p.suffixes))

/-- Modelled from the spec: `decoder_plugin_from_mime_type(mime, next)`, the
lookup by MIME type, "ordered, repeatable": the `next`-th match, `NULL` past the
last one. -/
def decoder_plugin_from_mime_type (reg : List decoder_plugin) (mime : Option String)
    (next : Nat) : Option decoder_plugin :=
  (mime_matches reg mime)[next]?

/-- Modelled from the spec: `decoder_plugin_from_suffix(suffix, next)`, the
lookup by suffix, "ordered, repeatable": the `next`-th match, `NULL` past the
last one. -/
def decoder_plugin_from_suffix (reg : List decoder_plugin) (suffix : Option String)
    (next : Nat) : Option decoder_plugin :=
  (suffix_matches reg suffix)[next]?

/-- Modelled from the spec: `decoder_plugin_from_name(name)`, the lookup "by
exact name (singular)". -/
def decoder_plugin_from_name (reg : List decoder_plugin) (name : String) : Option decoder_plugin :=
  reg.find? (fun p => decide (p.name = name))

/-! ## Observable events and the world -/

/-- One entry of the trace: a write to `dc` or a call that leaves the file,
with the value it returned where the code looks at it. -/
inductive Event where
  | set_error (e : decoder_error)
  | set_current_song (s : Option song)
  | set_state (s : decoder_state)
  | set_command (c : decoder_command)
  | controller_command (c : decoder_command)
  | notify_signal_pc
  | notify_wait_dc
  | input_stream_open (uri : String) (ok : Bool)
  | input_stream_buffer (ret : Int)
  | input_stream_seek
  | input_stream_close
  | lookup_mime (next : Nat)
  | lookup_suffix (next : Nat)
  | lookup_name (name : String)
  | try_decode (plugin : String) (ret : Bool)
  | stream_decode (plugin : String) (ret : Bool)
  | file_decode (plugin : String) (ret : Bool)
  | music_pipe_flush
  deriving DecidableEq, Repr

/-- The state the embedding threads through the code: the control block, the
trace of events so far, every value the control block has taken (one entry per
write), and the number of reads of `dc.command` made so far. -/
structure World where
  dc : decoder_control
  trace : List Event
  history : List decoder_control
  tick : Nat
  deriving DecidableEq, Repr

/-- Log an external call. -/
def World.emit (w : World) (e : Event) : World :=
  { w with trace := w.trace ++ [e] }

/-- Write to the control block, logging the write and the new value. -/
def World.write (w : World) (e : Event) (f : decoder_control → decoder_control) : World :=
  { w with dc := f w.dc, trace := w.trace ++ [e], history := w.history ++ [f w.dc] }

/-- The statement `dc.error = e`. -/
def set_error (e : decoder_error) (w : World) : World :=
  w.write (.set_error e) (fun d => { d with error := e })

/-- The statement `dc.state = s`. -/
def set_state (s : decoder_state) (w : World) : World :=
  w.write (.set_state s) (fun d => { d with state := s })

/-- The statement `dc.command = c`. -/
def set_command (c : decoder_command) (w : World) : World :=
  w.write (.set_command c) (fun d => { d with command := c })

/-- The statement `dc.current_song = dc.next_song`. -/
def set_current_song (w : World) : World :=
  w.write (.set_current_song w.dc.next_song) (fun d => { d with current_song := d.next_song })

/-- A read of `dc.command` by the engine: the controller may have written a
command since the previous read. -/
def read_command (env : Env) (w : World) : World :=
  match env.controller w.tick with
  | none => { w with tick := w.tick + 1 }
  | some c =>
    { w.write (.controller_command c) (fun d => { d with command := c }) with
      tick := w.tick + 1 }

/-- The abnormal ends of the embedding: a dereference of a `NULL` song, a call
through a `NULL` function pointer, a failed `assert`, and the readiness wait
not finishing within the fuel (also the MIME loop going beyond its bound, which
`mime_loop_total` excludes). -/
inductive Fault where
  | null_song
  | null_function
  | assertion_failed
  | out_of_fuel
  deriving DecidableEq, Repr

/-! ## `decoder_try_decode` (lines 31-46) -/

/-- The boolean `decoder_try_decode` returns: `true` without a probe, else the
result of the probe. -/
def probe_passes (plugin : decoder_plugin) (is : input_stream) : Bool :=
  match plugin.try_decode with
  | none => true
  | some f => (f is).1

/-- The input stream as `decoder_try_decode` leaves it: untouched without a
probe, else rewound to offset 0 after the probe. -/
def probe_rewind (plugin : decoder_plugin) (is : input_stream) : input_stream :=
  match plugin.try_decode with
  | none => is
  | some f => input_stream_seek (f is).2 0

/-- The function `decoder_try_decode`. -/
def decoder_try_decode (plugin : decoder_plugin) (is : input_stream) (w : World) :
    Bool × input_stream × World :=
  match plugin.try_decode with
  | none => (true, is, w)
  | some f =>
    let r := f is
    let w := w.emit (.try_decode plugin.name r.1)
    let is := input_stream_seek r.2 0
    let w := w.emit .input_stream_seek
    (r.1, is, w)

/-! ## `decoder_run` (lines 48-172) -/

/-- The readiness wait, lines 84-96: `none` when the function has returned from
inside the loop, `some is` when the stream is ready.  One unit of fuel per
iteration. -/
def wait_ready (env : Env) : Nat → input_stream → World → Except Fault (Option input_stream × World)
  | fuel, is, w =>
    if is.ready then .ok (some is, w)
    else
      match fuel with
      | 0 => .error .out_of_fuel
      | fuel + 1 =>
        let w := read_command env w
        if w.dc.command ≠ DECODE_COMMAND_NONE then
          .ok (none, w.emit .input_stream_close)
        else
          let r := env.input_stream_buffer is
          let w := w.emit (.input_stream_buffer r.1)
          if r.1 < 0 then
            .ok (none, set_error DECODE_ERROR_FILE (w.emit .input_stream_close))
          else wait_ready env fuel r.2 w

/-- Where lines 50-101 of `decoder_run` leave the session: the function has
returned, or plugin selection starts with the song, its URI and the open,
ready input stream. -/
inductive Opened where
  | returned (w : World)
  | selecting (s : song) (uri : String) (is : input_stream) (w : World)
  deriving DecidableEq, Repr

/-- Lines 50-101 of `decoder_run`: resolve the URI, publish the current song,
open the input stream, announce the start, wait for readiness, honour a
pending stop. -/
def decoder_run_open (env : Env) (fuel : Nat) (w : World) : Except Fault Opened :=
  match w.dc.next_song with
  | none => .error .null_song
  | some s =>
    let uri := if env.song_is_file s then env.map_song_fs s else env.song_get_url s
    match uri with
    | none => .ok (.returned (set_error DECODE_ERROR_FILE w))
    | some uri =>
      let w := set_current_song w
      match env.input_stream_open uri with
      | none =>
        .ok (.returned (set_error DECODE_ERROR_FILE (w.emit (.input_stream_open uri false))))
      | some is =>
        let w := w.emit (.input_stream_open uri true)
        let w := set_state DECODE_STATE_START w
        let w := set_command DECODE_COMMAND_NONE w
        let w := w.emit .notify_signal_pc
        match wait_ready env fuel is w with
        | .error e => .error e
        | .ok (none, w) => .ok (.returned w)
        | .ok (some is, w) =>
          let w := read_command env w
          if w.dc.command = DECODE_COMMAND_STOP then
            .ok (.returned (w.emit .input_stream_close))
          else .ok (.selecting s uri is w)

/-- The local variables of `decoder_run` after plugin selection (line 160):
`plugin`, `ret`, `close_instream`, and the world. -/
structure Selected where
  plugin : Option decoder_plugin
  ret : Bool
  close_instream : Bool
  w : World

/-- Run a decode entry: log the call with its return value and take over the
`dc.state` / `dc.command` it leaves. -/
def run_decode (e : Bool → Event) (r : decode_result) (w : World) : World :=
  w.write (e r.ret) (fun d => { d with state := r.state, command := r.command })

/-- The local variables of `decoder_run` after one of the loops of the stream
branch: `plugin`, `ret`, the input stream, and the world. -/
structure Looped where
  plugin : Option decoder_plugin
  ret : Bool
  is : input_stream
  w : World

/-- The suffix loop of the stream branch, lines 121-129, over the plugins
`decoder_plugin_from_suffix(s, next++)` returns for `next = 0, 1, ...`, the
suffix `s` being computed once, at line 119: the list is what the lookup still
has to return, `lookup next` the event of the call with index `next`.
`plugin` is `none` when the lookup ran out. -/
def stream_loop (lookup : Nat → Event) (dec : decoder) :
    List decoder_plugin → Nat → input_stream → World → Looped
  | [], next, is, w => ⟨none, false, is, w.emit (lookup next)⟩
  | plugin :: rest, next, is, w =>
    let w := w.emit (lookup next)
    match plugin.stream_decode with
    | none => stream_loop lookup dec rest (next + 1) is w
    | some stream_decode =>
      let t := decoder_try_decode plugin is w
      if !t.1 then stream_loop lookup dec rest (next + 1) t.2.1 t.2.2
      else
        let r := stream_decode dec t.2.1 t.2.2.dc
        ⟨some plugin, r.ret, t.2.1, run_decode (.stream_decode plugin.name) r t.2.2⟩

/-- The MIME loop of the stream branch, lines 108-115: every round calls
`decoder_plugin_from_mime_type(input_stream.mime, next++)` with the MIME type
the input stream reports at that moment, after the probes and rewinds of the
earlier rounds.  A lookup with index `next` returns `NULL` once `next` has
reached the length of the registry, so that length bounds the number of rounds
that find a plugin; `rounds` is what is left of the bound, and a plugin found
beyond it would be `Fault.out_of_fuel`, which does not happen when `rounds`
starts at the length of the registry (`mime_loop_total`).  `plugin` is `none`
when the lookup returned `NULL`. -/
def mime_loop (reg : List decoder_plugin) (dec : decoder) :
    Nat → Nat → input_stream → World → Except Fault Looped
  | 0, next, is, w =>
    match decoder_plugin_from_mime_type reg is.mime next with
    | none => .ok ⟨none, false, is, w.emit (.lookup_mime next)⟩
    | some _ => .error .out_of_fuel
  | rounds + 1, next, is, w =>
    let w := w.emit (.lookup_mime next)
    match decoder_plugin_from_mime_type reg is.mime next with
    | none => .ok ⟨none, false, is, w⟩
    | some plugin =>
      match plugin.stream_decode with
      | none => mime_loop reg dec rounds (next + 1) is w
      | some stream_decode =>
        let t := decoder_try_decode plugin is w
        if !t.1 then mime_loop reg dec rounds (next + 1) t.2.1 t.2.2
        else
          let r := stream_decode dec t.2.1 t.2.2.dc
          .ok ⟨some plugin, r.ret, t.2.1, run_decode (.stream_decode plugin.name) r t.2.2⟩

/-- The loop of the file branch, lines 145-159, over the plugins
`decoder_plugin_from_suffix(s, next++)` returns for `next = 0, 1, ...`.  The
result is `plugin`, `ret`, `close_instream`. -/
def file_loop (dec : decoder) (uri : String) :
    List decoder_plugin → Nat → input_stream → World → Selected
  | [], next, _, w => ⟨none, false, true, w.emit (.lookup_suffix next)⟩
  | plugin :: rest, next, is, w =>
    let w := w.emit (.lookup_suffix next)
    let t := decoder_try_decode plugin is w
    if !t.1 then file_loop dec uri rest (next + 1) t.2.1 t.2.2
    else
      match plugin.file_decode with
      | some file_decode =>
        let w := t.2.2.emit .input_stream_close
        let r := file_decode dec uri w.dc
        ⟨some plugin, r.ret, false, run_decode (.file_decode plugin.name) r w⟩
      | none =>
        match plugin.stream_decode with
        | some stream_decode =>
          let r := stream_decode dec t.2.1 t.2.2.dc
          ⟨some plugin, r.ret, true, run_decode (.stream_decode plugin.name) r t.2.2⟩
        | none => file_loop dec uri rest (next + 1) t.2.1 t.2.2

/-- Plugin selection and decode, lines 103-160 of `decoder_run`. -/
def decoder_select (env : Env) (s : song) (uri : String) (is : input_stream) (w : World) :
    Except Fault Selected :=
  let dec : decoder := { seeking := false, stream_tag_sent := false }
  if !env.song_is_file s then
    -- first we try mime types:
    match mime_loop env.decoder_plugins dec env.decoder_plugins.length 0 is w with
    | .error e => .error e
    | .ok m =>
      match m.plugin with
      | some plugin => .ok ⟨some plugin, m.ret, true, m.w⟩
      | none =>
        -- if that fails, try suffix matching the URL:
        let x := stream_loop .lookup_suffix dec
          (suffix_matches env.decoder_plugins (env.getSuffix uri)) 0 m.is m.w
        match x.plugin with
        | some plugin => .ok ⟨some plugin, x.ret, true, x.w⟩
        | none =>
          -- fallback to mp3:
          let w := x.w.emit (.lookup_name "mp3")
          match decoder_plugin_from_name env.decoder_plugins "mp3" with
          | none => .ok ⟨none, false, true, w⟩
          | some plugin =>
            match plugin.stream_decode with
            | none => .error .null_function
            | some stream_decode =>
              let r := stream_decode dec x.is w.dc
              .ok ⟨some plugin, r.ret, true, run_decode (.stream_decode plugin.name) r w⟩
  else
    .ok (file_loop dec uri (suffix_matches env.decoder_plugins (env.getSuffix uri)) 0 is w)

/-- Lines 162-171 of `decoder_run`: flush the pipe, classify the error, close
the input stream unless the file decoder took it over. -/
def decoder_run_finish (sel : Selected) : World :=
  let w := sel.w.emit .music_pipe_flush
  let w :=
    if !sel.ret then
      set_error (if sel.plugin.isNone then DECODE_ERROR_UNKTYPE else DECODE_ERROR_FILE) w
    else w
  if sel.close_instream then w.emit .input_stream_close else w

/-- The function `decoder_run`. -/
def decoder_run (env : Env) (fuel : Nat) (w : World) : Except Fault World :=
  match decoder_run_open env fuel w with
  | .error e => .error e
  | .ok (.returned w) => .ok w
  | .ok (.selecting s uri is w) =>
    match decoder_select env s uri is w with
    | .error e => .error e
    | .ok sel => .ok (decoder_run_finish sel)

/-! ## `decoder_task` (lines 174-201) -/

/-- One iteration of the `while (1)` loop of `decoder_task`. -/
def decoder_task_iteration (env : Env) (fuel : Nat) (w : World) : Except Fault World :=
  if w.dc.state ≠ DECODE_STATE_STOP then .error .assertion_failed
  else
    let w := read_command env w
    match w.dc.command with
    | DECODE_COMMAND_START | DECODE_COMMAND_SEEK =>
      match decoder_run env fuel w with
      | .error e => .error e
      | .ok w =>
        let w := set_state DECODE_STATE_STOP w
        let w := set_command DECODE_COMMAND_NONE w
        .ok (w.emit .notify_signal_pc)
    | DECODE_COMMAND_STOP =>
      let w := set_command DECODE_COMMAND_NONE w
      .ok (w.emit .notify_signal_pc)
    | DECODE_COMMAND_NONE => .ok (w.emit .notify_wait_dc)

/-- The first `n` iterations of the loop of `decoder_task`. -/
def decoder_task (env : Env) (fuel : Nat) : Nat → World → Except Fault World
  | 0, w => .ok w
  | n + 1, w =>
    match decoder_task_iteration env fuel w with
    | .error e => .error e
    | .ok w => decoder_task env fuel n w

/-! ## Vocabulary of the statements -/

/-- The events of the search for a plugin: the registry lookups, the probes and
the rewinds after them. -/
def Event.is_search : Event → Bool
  | .lookup_mime _ => true
  | .lookup_suffix _ => true
  | .lookup_name _ => true
  | .try_decode _ _ => true
  | .input_stream_seek => true
  | _ => false

/-- The calls of a decode entry, `stream_decode` or `file_decode`. -/
def Event.is_decode : Event → Bool
  | .stream_decode _ _ => true
  | .file_decode _ _ => true
  | _ => false

/-- The registry lookups. -/
def Event.is_lookup : Event → Bool
  | .lookup_mime _ => true
  | .lookup_suffix _ => true
  | .lookup_name _ => true
  | _ => false

/-- The calls of a probe, `try_decode`. -/
def Event.is_probe : Event → Bool
  | .try_decode _ _ => true
  | _ => false

/-- The events logged between the world `w` and the later world `w2`. -/
def events_since (w w2 : World) : List Event :=
  w2.trace.drop w.trace.length

/-- The stream loops take the plugin: it has a stream-decode entry and passes
`decoder_try_decode`. -/
def stream_accepts (p : decoder_plugin) (is : input_stream) : Bool :=
  p.stream_decode.isSome && probe_passes p is

/-- The input stream as a stream loop leaves it after looking at the plugin: a
plugin without stream-decode entry is not probed. -/
def stream_skip (p : decoder_plugin) (is : input_stream) : input_stream :=
  if p.stream_decode.isSome then probe_rewind p is else is

/-- The stream loop turns down every plugin of the list, each one looked at
with the input stream as the earlier ones left it. -/
def stream_rejects_all : List decoder_plugin → input_stream → Bool
  | [], _ => true
  | q :: qs, is => !stream_accepts q is && stream_rejects_all qs (stream_skip q is)

/-- The input stream after a stream loop has looked at every plugin of the
list. -/
def stream_after : List decoder_plugin → input_stream → input_stream
  | [], is => is
  | q :: qs, is => stream_after qs (stream_skip q is)

/-- The file loop takes the plugin: it passes `decoder_try_decode` and has a
file-decode or a stream-decode entry. -/
def file_accepts (p : decoder_plugin) (is : input_stream) : Bool :=
  probe_passes p is && (p.file_decode.isSome || p.stream_decode.isSome)

/-- The file loop turns down every plugin of the list, each one probed with the
input stream as the earlier probes left it. -/
def file_rejects_all : List decoder_plugin → input_stream → Bool
  | [], _ => true
  | q :: qs, is => !file_accepts q is && file_rejects_all qs (probe_rewind q is)

/-- The input stream after the file loop has probed every plugin of the list. -/
def file_after : List decoder_plugin → input_stream → input_stream
  | [], is => is
  | q :: qs, is => file_after qs (probe_rewind q is)

/-- The events `decoder_try_decode` logs. -/
def probe_events (p : decoder_plugin) (is : input_stream) : List Event :=
  match p.try_decode with
  | none => []
  | some f => [.try_decode p.name (f is).1, .input_stream_seek]

/-- The calls of `input_stream_close`. -/
def Event.is_close : Event → Bool
  | .input_stream_close => true
  | _ => false

/-- What plugin selection logs apart from the search: nothing without a
plugin, the stream-decode call, or the close and the file-decode call. -/
def decode_events (sel : Selected) : List Event :=
  match sel.plugin with
  | none => []
  | some p =>
    if sel.close_instream then [Event.stream_decode p.name sel.ret]
    else [Event.input_stream_close, Event.file_decode p.name sel.ret]

/-- The default backend, if a plugin is registered under the name `mp3`, has a
stream-decode entry. -/
def default_backend_ok (reg : List decoder_plugin) : Bool :=
  match decoder_plugin_from_name reg "mp3" with
  | none => true
  | some p => p.stream_decode.isSome

/-- The events lines 50-101 of `decoder_run` can log: writes to the control
block, the wake-up of the player, and open, buffer and close of the input
stream. -/
def Event.is_opening : Event → Bool
  | .set_error _ => true
  | .set_current_song _ => true
  | .set_state _ => true
  | .set_command _ => true
  | .controller_command _ => true
  | .notify_signal_pc => true
  | .input_stream_open _ _ => true
  | .input_stream_buffer _ => true
  | .input_stream_close => true
  | _ => false

/-- The world in which lines 50-101 of `decoder_run` leave the session. -/
def Opened.world : Opened → World
  | .returned w => w
  | .selecting _ _ _ w => w

/-- The events of a readiness wait that ends with the stream ready: commands
written by the controller and buffer calls. -/
def Event.is_wait : Event → Bool
  | .controller_command _ => true
  | .input_stream_buffer _ => true
  | _ => false

/-- The events that are neither part of the search for a plugin nor of the
readiness wait. -/
def Event.is_essential (e : Event) : Bool :=
  !e.is_search && !e.is_wait

/-- The input stream after `k` calls of `input_stream_buffer`. -/
def buffered (env : Env) : input_stream → Nat → input_stream
  | is, 0 => is
  | is, k + 1 => buffered env (env.input_stream_buffer is).2 k

/-- The events of `k` calls of `input_stream_buffer`. -/
def buffer_events (env : Env) : input_stream → Nat → List Event
  | _, 0 => []
  | is, k + 1 =>
    Event.input_stream_buffer (env.input_stream_buffer is).1 ::
      buffer_events env (env.input_stream_buffer is).2 k

/-- The world after `k` reads of `dc.command` that found nothing new, with the
events `t` logged meanwhile. -/
def World.waited (w : World) (t : List Event) (k : Nat) : World :=
  { w with trace := w.trace ++ t, tick := w.tick + k }

/-- Between the world `w` and the later world `w2` no write has touched
`current_song` or `next_song`: every value the control block has taken since
`w`, and the final one, carries the songs of `w`. -/
def Steady (w w2 : World) : Prop :=
  w2.dc.current_song = w.dc.current_song ∧ w2.dc.next_song = w.dc.next_song ∧
  ∃ h, w2.history = w.history ++ h ∧
    ∀ d ∈ h, d.current_song = w.dc.current_song ∧ d.next_song = w.dc.next_song

/-- What a stream loop logs apart from the search: nothing without a plugin,
else the stream-decode call. -/
def loop_decode_events (l : Looped) : List Event :=
  match l.plugin with
  | none => []
  | some p => [Event.stream_decode p.name l.ret]

/-- The world with the events `t` logged. -/
def World.logged (w : World) (t : List Event) : World :=
  { w with trace := w.trace ++ t }

/-- The input stream after the MIME loop, started with lookup index `next` on
the stream `is`, has turned down the plugins of its first `k` lookups, each
lookup made with the MIME type the stream reports at that moment; `none` when
one of these lookups returns `NULL` or a plugin the loop takes. -/
def mime_rejects (reg : List decoder_plugin) : Nat → Nat → input_stream → Option input_stream
  | 0, _, is => some is
  | k + 1, next, is =>
    match decoder_plugin_from_mime_type reg is.mime next with
    | none => none
    | some q =>
      if stream_accepts q is then none
      else mime_rejects reg k (next + 1) (stream_skip q is)

/-- The events of these `k` rounds of the MIME loop: each lookup, followed by
the probe and the rewind when the plugin it returned has a stream-decode entry
and a probe. -/
def mime_skip_events (reg : List decoder_plugin) : Nat → Nat → input_stream → List Event
  | 0, _, _ => []
  | k + 1, next, is =>
    match decoder_plugin_from_mime_type reg is.mime next with
    | none => []
    | some q =>
      Event.lookup_mime next ::
        ((if q.stream_decode.isSome then probe_events q is else []) ++
          mime_skip_events reg k (next + 1) (stream_skip q is))

/-- The plugins the MIME lookup returns in these `k` rounds of the MIME loop,
each with the stream as it is when the lookup returns the plugin. -/
def mime_returned (reg : List decoder_plugin) :
    Nat → Nat → input_stream → List (decoder_plugin × input_stream)
  | 0, _, _ => []
  | k + 1, next, is =>
    match decoder_plugin_from_mime_type reg is.mime next with
    | none => []
    | some q => (q, is) :: mime_returned reg k (next + 1) (stream_skip q is)

/-- The probe calls of a stream loop on the plugins `ps`, each given with the
stream it is offered: the plugins without stream-decode entry are not
probed. -/
def stream_probe_calls (ps : List (decoder_plugin × input_stream)) : List Event :=
  (ps.filter (fun x => x.1.stream_decode.isSome)).flatMap
    (fun x => (probe_events x.1 x.2).filter Event.is_probe)

/-! ## Example plugins, environments and worlds -/

/-- A stream plugin registered for the suffix `ogg`, without probe; its
stream-decode entry succeeds. -/
def plugin_ogg : decoder_plugin :=
  { name := "ogg", suffixes := ["ogg"], mime_types := [], try_decode := none,
    stream_decode := some (fun _ _ d => ⟨true, DECODE_STATE_DECODE, d.command⟩),
    file_decode := none }

/-- A plugin registered for the MIME type `audio/x`, with a probe that reads
four bytes and accepts; its stream-decode entry fails. -/
def plugin_x : decoder_plugin :=
  { name := "x", suffixes := [], mime_types := ["audio/x"],
    try_decode := some (fun i => (true, { i with offset := 4 })),
    stream_decode := some (fun _ _ d => ⟨false, DECODE_STATE_DECODE, d.command⟩),
    file_decode := none }

/-- A plugin registered for the MIME type `audio/x` whose probe reads six bytes
and rejects; it has a stream-decode entry. -/
def plugin_wav : decoder_plugin :=
  { name := "wav", suffixes := [], mime_types := ["audio/x"],
    try_decode := some (fun i => (false, { i with offset := 6 })),
    stream_decode := some (fun _ _ d => ⟨true, DECODE_STATE_DECODE, d.command⟩),
    file_decode := none }

/-- A remote stream `http://h/a.ogg` of MIME type `audio/x` that is ready after
one buffer call; `plugin_ogg` is registered before `plugin_wav` and `plugin_x`;
the controller stays silent. -/
def env_stream : Env :=
  { song_is_file := fun _ => false
    map_song_fs := fun _ => none
    song_get_url := fun _ => some "http://h/a.ogg"
    getSuffix := fun _ => some "ogg"
    input_stream_open := fun _ => some ⟨false, some "audio/x", 0⟩
    input_stream_buffer := fun i => (1, { i with ready := true })
    decoder_plugins := [plugin_ogg, plugin_wav, plugin_x]
    controller := fun _ => none }

/-- The control block as the controller leaves it for a start request: stopped,
command `START`, no error, no current song, song 1 queued. -/
def dc_start : decoder_control :=
  { state := DECODE_STATE_STOP, command := DECODE_COMMAND_START,
    error := DECODE_ERROR_NOERROR, current_song := none, next_song := some ⟨1⟩ }

/-- A fresh world around `dc_start`. -/
def world_start : World :=
  { dc := dc_start, trace := [], history := [], tick := 0 }

/-- The world of `env_stream` at plugin selection. -/
def world_stream_selecting : World :=
  { dc := { dc_start with state := DECODE_STATE_START, command := DECODE_COMMAND_NONE,
                          current_song := some ⟨1⟩ }
    trace := [.set_current_song (some ⟨1⟩), .input_stream_open "http://h/a.ogg" true,
      .set_state DECODE_STATE_START, .set_command DECODE_COMMAND_NONE, .notify_signal_pc,
      .input_stream_buffer 1]
    history := [{ dc_start with current_song := some ⟨1⟩ },
      { dc_start with current_song := some ⟨1⟩, state := DECODE_STATE_START },
      { dc_start with current_song := some ⟨1⟩, state := DECODE_STATE_START,
                      command := DECODE_COMMAND_NONE }]
    tick := 2 }
/-- The events lines 162-171 of `decoder_run` log. -/
def finish_events (sel : Selected) : List Event :=
  [Event.music_pipe_flush] ++
    ((if sel.ret then [] else
        [Event.set_error (if sel.plugin.isNone then DECODE_ERROR_UNKTYPE else DECODE_ERROR_FILE)])
      ++ (if sel.close_instream then [Event.input_stream_close] else []))

/-- The default backend: registered under the name `mp3`, with a probe that
rejects; its stream-decode entry fails. -/
def plugin_mp3 : decoder_plugin :=
  { name := "mp3", suffixes := ["mp3"], mime_types := ["audio/mpeg"],
    try_decode := some (fun i => (false, { i with offset := 2 })),
    stream_decode := some (fun _ _ d => ⟨false, DECODE_STATE_DECODE, d.command⟩),
    file_decode := none }

/-- A remote stream `http://h/live` without MIME type and without suffix, ready
as soon as it is opened, over the registry `reg`; the controller stays
silent. -/
def env_unknown (reg : List decoder_plugin) : Env :=
  { song_is_file := fun _ => false
    map_song_fs := fun _ => none
    song_get_url := fun _ => some "http://h/live"
    getSuffix := fun _ => none
    input_stream_open := fun _ => some ⟨true, none, 0⟩
    input_stream_buffer := fun i => (0, i)
    decoder_plugins := reg
    controller := fun _ => none }

/-- The world of `env_unknown` at plugin selection. -/
def world_unknown_selecting : World :=
  { dc := { dc_start with state := DECODE_STATE_START, command := DECODE_COMMAND_NONE,
                          current_song := some ⟨1⟩ }
    trace := [.set_current_song (some ⟨1⟩), .input_stream_open "http://h/live" true,
      .set_state DECODE_STATE_START, .set_command DECODE_COMMAND_NONE, .notify_signal_pc]
    history := [{ dc_start with current_song := some ⟨1⟩ },
      { dc_start with current_song := some ⟨1⟩, state := DECODE_STATE_START },
      { dc_start with current_song := some ⟨1⟩, state := DECODE_STATE_START,
                      command := DECODE_COMMAND_NONE }]
    tick := 1 }

/-- A plugin registered for the suffix `ogg` whose probe reads eight bytes and
accepts; it has both a file-decode and a stream-decode entry, and both
succeed. -/
def plugin_vorbis : decoder_plugin :=
  { name := "vorbis", suffixes := ["ogg"], mime_types := ["application/ogg"],
    try_decode := some (fun i => (true, { i with offset := 8 })),
    stream_decode := some (fun _ _ d => ⟨true, DECODE_STATE_DECODE, d.command⟩),
    file_decode := some (fun _ _ d => ⟨true, DECODE_STATE_DECODE, d.command⟩) }

/-- A plugin registered for the suffix `ogg` whose probe reads four bytes and
rejects; it has a file-decode entry. -/
def plugin_oggflac : decoder_plugin :=
  { name := "oggflac", suffixes := ["ogg"], mime_types := [],
    try_decode := some (fun i => (false, { i with offset := 4 })),
    stream_decode := none,
    file_decode := some (fun _ _ d => ⟨true, DECODE_STATE_DECODE, d.command⟩) }

/-- A local file `/music/a.ogg`, ready as soon as it is opened, over the
registry `reg`; the controller stays silent. -/
def env_file (reg : List decoder_plugin) : Env :=
  { song_is_file := fun _ => true
    map_song_fs := fun _ => some "/music/a.ogg"
    song_get_url := fun _ => none
    getSuffix := fun _ => some "ogg"
    input_stream_open := fun _ => some ⟨true, none, 0⟩
    input_stream_buffer := fun i => (0, i)
    decoder_plugins := reg
    controller := fun _ => none }

/-- The world of `env_file` at plugin selection. -/
def world_file_selecting : World :=
  { dc := { dc_start with state := DECODE_STATE_START, command := DECODE_COMMAND_NONE,
                          current_song := some ⟨1⟩ }
    trace := [.set_current_song (some ⟨1⟩), .input_stream_open "/music/a.ogg" true,
      .set_state DECODE_STATE_START, .set_command DECODE_COMMAND_NONE, .notify_signal_pc]
    history := [{ dc_start with current_song := some ⟨1⟩ },
      { dc_start with current_song := some ⟨1⟩, state := DECODE_STATE_START },
      { dc_start with current_song := some ⟨1⟩, state := DECODE_STATE_START,
                      command := DECODE_COMMAND_NONE }]
    tick := 1 }

/-- A remote stream whose input stream cannot be opened. -/
def env_closed : Env :=
  { song_is_file := fun _ => false
    map_song_fs := fun _ => none
    song_get_url := fun _ => some "http://h/gone"
    getSuffix := fun _ => none
    input_stream_open := fun _ => none
    input_stream_buffer := fun i => (0, i)
    decoder_plugins := [plugin_mp3]
    controller := fun _ => none }

/-- A song whose locator cannot be resolved: neither a file path nor a URL. -/
def env_unresolved : Env :=
  { song_is_file := fun _ => false
    map_song_fs := fun _ => none
    song_get_url := fun _ => none
    getSuffix := fun _ => none
    input_stream_open := fun _ => none
    input_stream_buffer := fun i => (0, i)
    decoder_plugins := [plugin_mp3]
    controller := fun _ => none }

/-- The control block stopped with a stop request pending. -/
def dc_stop_pending : decoder_control :=
  { state := DECODE_STATE_STOP, command := DECODE_COMMAND_STOP,
    error := DECODE_ERROR_UNKTYPE, current_song := some ⟨1⟩, next_song := some ⟨2⟩ }

/-- A fresh world around `dc_stop_pending`. -/
def world_stop_pending : World :=
  { dc := dc_stop_pending, trace := [], history := [], tick := 0 }

/-- A remote stream that becomes ready with the third buffer call; the
controller writes `STOP` before the engine reads the command for the second
time. -/
def env_slow : Env :=
  { song_is_file := fun _ => false
    map_song_fs := fun _ => none
    song_get_url := fun _ => some "http://h/slow"
    getSuffix := fun _ => none
    input_stream_open := fun _ => some ⟨false, none, 0⟩
    input_stream_buffer := fun i => (1, { i with offset := i.offset + 1, ready := 2 ≤ i.offset })
    decoder_plugins := [plugin_mp3]
    controller := fun n => if n = 1 then some DECODE_COMMAND_STOP else none }

/-- A remote stream whose first buffer call reports a read error; the
controller stays silent. -/
def env_broken : Env :=
  { song_is_file := fun _ => false
    map_song_fs := fun _ => none
    song_get_url := fun _ => some "http://h/broken"
    getSuffix := fun _ => none
    input_stream_open := fun _ => some ⟨false, none, 0⟩
    input_stream_buffer := fun i => (-1, i)
    decoder_plugins := [plugin_mp3]
    controller := fun _ => none }

/-- A remote stream that becomes ready with the third buffer call; the
controller writes `SEEK` before the engine reads the command for the second
time. -/
def env_seek : Env :=
  { song_is_file := fun _ => false
    map_song_fs := fun _ => none
    song_get_url := fun _ => some "http://h/slow"
    getSuffix := fun _ => none
    input_stream_open := fun _ => some ⟨false, none, 0⟩
    input_stream_buffer := fun i => (1, { i with offset := i.offset + 1, ready := 2 ≤ i.offset })
    decoder_plugins := [plugin_mp3]
    controller := fun n => if n = 1 then some DECODE_COMMAND_SEEK else none }

/-- A remote stream `http://h/b.ogg` of MIME type `audio/x`, ready as soon as
it is opened, over the registry `reg`; the controller stays silent. -/
def env_suffix (reg : List decoder_plugin) : Env :=
  { song_is_file := fun _ => false
    map_song_fs := fun _ => none
    song_get_url := fun _ => some "http://h/b.ogg"
    getSuffix := fun _ => some "ogg"
    input_stream_open := fun _ => some ⟨true, some "audio/x", 0⟩
    input_stream_buffer := fun i => (0, i)
    decoder_plugins := reg
    controller := fun _ => none }

/-- The world of `env_suffix` at plugin selection. -/
def world_suffix_selecting : World :=
  { dc := { dc_start with state := DECODE_STATE_START, command := DECODE_COMMAND_NONE,
                          current_song := some ⟨1⟩ }
    trace := [.set_current_song (some ⟨1⟩), .input_stream_open "http://h/b.ogg" true,
      .set_state DECODE_STATE_START, .set_command DECODE_COMMAND_NONE, .notify_signal_pc]
    history := [{ dc_start with current_song := some ⟨1⟩ },
      { dc_start with current_song := some ⟨1⟩, state := DECODE_STATE_START },
      { dc_start with current_song := some ⟨1⟩, state := DECODE_STATE_START,
                      command := DECODE_COMMAND_NONE }]
    tick := 1 }

/-- A plugin registered for the suffix `ogg` with a probe that reads four
bytes and accepts, and with a file-decode entry only, which succeeds. -/
def plugin_flac : decoder_plugin :=
  { name := "flac", suffixes := ["ogg"], mime_types := [],
    try_decode := some (fun i => (true, { i with offset := 4 })),
    stream_decode := none,
    file_decode := some (fun _ _ d => ⟨true, DECODE_STATE_DECODE, d.command⟩) }

/-- A start request on a control block that still holds the error of an
earlier, failed session. -/
def world_failed : World :=
  { dc := { dc_start with error := DECODE_ERROR_FILE }, trace := [], history := [], tick := 0 }

/-- A plugin registered under the name `mp3` that has no stream-decode
entry. -/
def plugin_mp3_file_only : decoder_plugin :=
  { name := "mp3", suffixes := ["mp3"], mime_types := ["audio/mpeg"],
    try_decode := none,
    stream_decode := none,
    file_decode := some (fun _ _ d => ⟨true, DECODE_STATE_DECODE, d.command⟩) }

/-- A plugin registered for the MIME type `audio/x` whose probe rejects and
leaves the stream reporting the MIME type `audio/z`; it has a stream-decode
entry. -/
def plugin_retype : decoder_plugin :=
  { name := "retype", suffixes := [], mime_types := ["audio/x"],
    try_decode := some (fun i => (false, { i with mime := some "audio/z", offset := 3 })),
    stream_decode := some (fun _ _ d => ⟨true, DECODE_STATE_DECODE, d.command⟩),
    file_decode := none }

/-- A plugin registered for the MIME type `audio/z`, without probe; its
stream-decode entry succeeds. -/
def plugin_z0 : decoder_plugin :=
  { name := "z0", suffixes := [], mime_types := ["audio/z"], try_decode := none,
    stream_decode := some (fun _ _ d => ⟨true, DECODE_STATE_DECODE, d.command⟩),
    file_decode := none }

/-- A second plugin registered for the MIME type `audio/z`, with a probe that
reads two bytes and accepts; its stream-decode entry succeeds. -/
def plugin_z : decoder_plugin :=
  { name := "z", suffixes := [], mime_types := ["audio/z"],
    try_decode := some (fun i => (true, { i with offset := 2 })),
    stream_decode := some (fun _ _ d => ⟨true, DECODE_STATE_DECODE, d.command⟩),
    file_decode := none }

/-! ## Basic facts -/

@[simp] theorem emit_trace (w : World) (e : Event) : (w.emit e).trace = w.trace ++ [e] := rfl
@[simp] theorem emit_dc (w : World) (e : Event) : (w.emit e).dc = w.dc := rfl
@[simp] theorem emit_history (w : World) (e : Event) : (w.emit e).history = w.history := rfl
@[simp] theorem emit_tick (w : World) (e : Event) : (w.emit e).tick = w.tick := rfl
@[simp] theorem write_trace (w : World) (e : Event) (f : decoder_control → decoder_control) :
    (w.write e f).trace = w.trace ++ [e] := rfl
@[simp] theorem write_dc (w : World) (e : Event) (f : decoder_control → decoder_control) :
    (w.write e f).dc = f w.dc := rfl
@[simp] theorem write_history (w : World) (e : Event) (f : decoder_control → decoder_control) :
    (w.write e f).history = w.history ++ [f w.dc] := rfl
@[simp] theorem write_tick (w : World) (e : Event) (f : decoder_control → decoder_control) :
    (w.write e f).tick = w.tick := rfl

theorem events_since_append (w w2 : World) (t : List Event) (h : w2.trace = w.trace ++ t) :
    events_since w w2 = t := by
  simp [events_since, h]

theorem decoder_try_decode_fst (p : decoder_plugin) (is : input_stream) (w : World) :
    (decoder_try_decode p is w).1 = probe_passes p is := by
  unfold decoder_try_decode probe_passes
  cases p.try_decode <;> rfl

theorem decoder_try_decode_stream (p : decoder_plugin) (is : input_stream) (w : World) :
    (decoder_try_decode p is w).2.1 = probe_rewind p is := by
  unfold decoder_try_decode probe_rewind
  cases p.try_decode <;> rfl

theorem decoder_try_decode_world (p : decoder_plugin) (is : input_stream) (w : World) :
    (decoder_try_decode p is w).2.2 = { w with trace := w.trace ++ probe_events p is } := by
  unfold decoder_try_decode probe_events
  cases p.try_decode <;> simp [World.emit]

theorem probe_events_search (p : decoder_plugin) (is : input_stream) :
    (probe_events p is).filter (fun e => !e.is_search) = [] := by
  unfold probe_events
  cases p.try_decode <;> simp [Event.is_search]

theorem probe_events_lookup (p : decoder_plugin) (is : input_stream) :
    (probe_events p is).filter Event.is_lookup = [] := by
  unfold probe_events
  cases p.try_decode <;> simp [Event.is_lookup]

theorem probe_events_all_search (p : decoder_plugin) (is : input_stream) :
    ∀ e ∈ probe_events p is, e.is_search = true ∧ ∀ name, e ≠ Event.lookup_name name := by
  unfold probe_events
  cases p.try_decode <;> simp [Event.is_search]

@[simp] theorem decoder_try_decode_trace (p : decoder_plugin) (is : input_stream) (w : World) :
    (decoder_try_decode p is w).2.2.trace = w.trace ++ probe_events p is := by
  simp [decoder_try_decode_world]

@[simp] theorem decoder_try_decode_dc (p : decoder_plugin) (is : input_stream) (w : World) :
    (decoder_try_decode p is w).2.2.dc = w.dc := by
  simp [decoder_try_decode_world]

@[simp] theorem decoder_try_decode_history (p : decoder_plugin) (is : input_stream) (w : World) :
    (decoder_try_decode p is w).2.2.history = w.history := by
  simp [decoder_try_decode_world]

@[simp] theorem decoder_try_decode_tick (p : decoder_plugin) (is : input_stream) (w : World) :
    (decoder_try_decode p is w).2.2.tick = w.tick := by
  simp [decoder_try_decode_world]

/-! ## The loops of the stream branch -/

theorem stream_loop_cons_none (lk : Nat → Event) (dec : decoder) (q : decoder_plugin)
    (qs : List decoder_plugin) (n : Nat) (is : input_stream) (w : World)
    (h : q.stream_decode = none) :
    stream_loop lk dec (q :: qs) n is w = stream_loop lk dec qs (n + 1) is (w.emit (lk n)) := by
  simp [stream_loop, h]

theorem stream_loop_cons_fail (lk : Nat → Event) (dec : decoder) (q : decoder_plugin)
    (qs : List decoder_plugin) (n : Nat) (is : input_stream) (w : World)
    (sd : decoder → input_stream → decoder_control → decode_result)
    (h : q.stream_decode = some sd) (hp : probe_passes q is = false) :
    stream_loop lk dec (q :: qs) n is w =
      stream_loop lk dec qs (n + 1) (probe_rewind q is)
        (decoder_try_decode q is (w.emit (lk n))).2.2 := by
  simp [stream_loop, h, decoder_try_decode_fst, decoder_try_decode_stream, hp]

theorem stream_loop_cons_hit (lk : Nat → Event) (dec : decoder) (q : decoder_plugin)
    (qs : List decoder_plugin) (n : Nat) (is : input_stream) (w : World)
    (sd : decoder → input_stream → decoder_control → decode_result)
    (h : q.stream_decode = some sd) (hp : probe_passes q is = true) :
    stream_loop lk dec (q :: qs) n is w =
      ⟨some q, (sd dec (probe_rewind q is) w.dc).ret, probe_rewind q is,
        run_decode (.stream_decode q.name) (sd dec (probe_rewind q is) w.dc)
          (decoder_try_decode q is (w.emit (lk n))).2.2⟩ := by
  simp [stream_loop, h, decoder_try_decode_fst, decoder_try_decode_stream, hp]

@[simp] theorem run_decode_trace (e : Bool → Event) (r : decode_result) (w : World) :
    (run_decode e r w).trace = w.trace ++ [e r.ret] := rfl

@[simp] theorem run_decode_tick (e : Bool → Event) (r : decode_result) (w : World) :
    (run_decode e r w).tick = w.tick := rfl

theorem stream_loop_summary (lk : Nat → Event) (hlk : ∀ n, (lk n).is_search = true)
    (dec : decoder) (ps : List decoder_plugin) :
    ∀ (n : Nat) (is : input_stream) (w : World),
      ∃ t, (stream_loop lk dec ps n is w).w.trace = w.trace ++ t ∧
        t.filter (fun e => !e.is_search) =
          (match (stream_loop lk dec ps n is w).plugin with
           | none => []
           | some p => [Event.stream_decode p.name (stream_loop lk dec ps n is w).ret]) ∧
        ((stream_loop lk dec ps n is w).plugin = none →
          (stream_loop lk dec ps n is w).ret = false ∧
          (stream_loop lk dec ps n is w).w.dc = w.dc ∧
          (stream_loop lk dec ps n is w).w.history = w.history) ∧
        (stream_loop lk dec ps n is w).w.tick = w.tick := by
  have hs : ∀ a b, (Event.stream_decode a b).is_search = false := fun _ _ => rfl
  induction ps with
  | nil =>
    intro n is w
    exact ⟨[lk n], by simp [stream_loop], by simp [stream_loop, hlk], by simp [stream_loop]⟩
  | cons q qs ih =>
    intro n is w
    cases hsd : q.stream_decode with
    | none =>
      rw [stream_loop_cons_none lk dec q qs n is w hsd]
      obtain ⟨t, h1, h2, h3, h4⟩ := ih (n + 1) is (w.emit (lk n))
      refine ⟨lk n :: t, ?_, ?_, ?_, ?_⟩
      · simp [h1]
      · simpa [hlk] using h2
      · simpa using h3
      · simpa using h4
    | some sd =>
      cases hpp : probe_passes q is with
      | false =>
        rw [stream_loop_cons_fail lk dec q qs n is w sd hsd hpp]
        obtain ⟨t, h1, h2, h3, h4⟩ := ih (n + 1) (probe_rewind q is)
          (decoder_try_decode q is (w.emit (lk n))).2.2
        refine ⟨lk n :: (probe_events q is ++ t), ?_, ?_, ?_, ?_⟩
        · simp [h1]
        · simpa [hlk, probe_events_search] using h2
        · simpa using h3
        · simpa using h4
      | true =>
        rw [stream_loop_cons_hit lk dec q qs n is w sd hsd hpp]
        refine ⟨lk n :: (probe_events q is ++
          [Event.stream_decode q.name (sd dec (probe_rewind q is) w.dc).ret]), ?_, ?_, ?_, ?_⟩
        · simp
        · simp [hlk, probe_events_search, hs]
        · simp
        · simp

theorem filter_of_not_search (f : Event → Bool) (hf : ∀ e, f e = true → e.is_search = false)
    (t : List Event) :
    t.filter f = (t.filter (fun e => !e.is_search)).filter f := by
  rw [List.filter_filter]
  apply List.filter_congr
  intro e _
  cases h : f e with
  | false => simp
  | true => simp [hf e h]

theorem is_decode_not_search (e : Event) (h : e.is_decode = true) : e.is_search = false := by
  cases e <;> simp_all [Event.is_decode, Event.is_search]

theorem stream_loop_first (lk : Nat → Event) (hlk : ∀ n, (lk n).is_lookup = true)
    (dec : decoder) (p : decoder_plugin) (post : List decoder_plugin)
    (sd : decoder → input_stream → decoder_control → decode_result)
    (hsd : p.stream_decode = some sd) (pre : List decoder_plugin) :
    ∀ (n : Nat) (is : input_stream) (w : World),
      stream_rejects_all pre is = true → probe_passes p (stream_after pre is) = true →
      (stream_loop lk dec (pre ++ p :: post) n is w).plugin = some p ∧
      (stream_loop lk dec (pre ++ p :: post) n is w).ret =
        (sd dec (probe_rewind p (stream_after pre is)) w.dc).ret ∧
      ∃ t, (stream_loop lk dec (pre ++ p :: post) n is w).w.trace = w.trace ++ t ∧
        t.filter Event.is_lookup = (List.range' n (pre.length + 1)).map lk := by
  have hs : ∀ a b, (Event.stream_decode a b).is_lookup = false := fun _ _ => rfl
  induction pre with
  | nil =>
    intro n is w _ hp
    simp only [stream_after] at hp
    simp only [List.nil_append, stream_after]
    rw [stream_loop_cons_hit lk dec p post n is w sd hsd hp]
    refine ⟨rfl, rfl, lk n :: (probe_events p is ++
      [Event.stream_decode p.name (sd dec (probe_rewind p is) w.dc).ret]), by simp, ?_⟩
    simp [hlk, probe_events_lookup, hs, List.range']
  | cons q qs ih =>
    intro n is w hrej hp
    simp only [stream_rejects_all, Bool.and_eq_true, Bool.not_eq_true', stream_after] at hrej hp
    simp only [List.cons_append, stream_after]
    cases hq : q.stream_decode with
    | none =>
      rw [stream_loop_cons_none lk dec q _ n is w hq]
      have hskip : stream_skip q is = is := by simp [stream_skip, hq]
      rw [hskip] at hrej hp ⊢
      obtain ⟨h1, h2, t, h3, h4⟩ := ih (n + 1) is (w.emit (lk n)) hrej.2 hp
      refine ⟨h1, by simpa using h2, lk n :: t, by simp [h3], ?_⟩
      simp [hlk, h4, List.range']
    | some sq =>
      have hskip : stream_skip q is = probe_rewind q is := by simp [stream_skip, hq]
      have hfail : probe_passes q is = false := by
        have := hrej.1
        simpa [stream_accepts, hq] using this
      rw [hskip] at hrej hp ⊢
      rw [stream_loop_cons_fail lk dec q _ n is w sq hq hfail]
      obtain ⟨h1, h2, t, h3, h4⟩ := ih (n + 1) (probe_rewind q is)
        (decoder_try_decode q is (w.emit (lk n))).2.2 hrej.2 hp
      refine ⟨h1, by simpa using h2, lk n :: (probe_events q is ++ t), by simp [h3], ?_⟩
      simp [hlk, h4, List.range', probe_events_lookup]

/-! ## The MIME loop of the stream branch -/

@[simp] theorem logged_trace (w : World) (t : List Event) :
    (w.logged t).trace = w.trace ++ t := rfl
@[simp] theorem logged_dc (w : World) (t : List Event) : (w.logged t).dc = w.dc := rfl
@[simp] theorem logged_history (w : World) (t : List Event) :
    (w.logged t).history = w.history := rfl
@[simp] theorem logged_tick (w : World) (t : List Event) : (w.logged t).tick = w.tick := rfl

theorem logged_logged (w : World) (a b : List Event) :
    (w.logged a).logged b = w.logged (a ++ b) := by
  simp [World.logged]

theorem emit_eq_logged (w : World) (e : Event) : w.emit e = w.logged [e] := rfl

theorem try_decode_logged (p : decoder_plugin) (is : input_stream) (w : World) :
    (decoder_try_decode p is w).2.2 = w.logged (probe_events p is) :=
  decoder_try_decode_world p is w

theorem mime_lookup_bound (reg : List decoder_plugin) (mime : Option String) (next : Nat)
    (h : reg.length ≤ next) : decoder_plugin_from_mime_type reg mime next = none := by
  unfold decoder_plugin_from_mime_type mime_matches
  cases mime with
  | none => simp
  | some m =>
    simp only [List.getElem?_eq_none_iff]
    exact Nat.le_trans (List.length_filter_le _ _) h

theorem mime_loop_null (reg : List decoder_plugin) (dec : decoder) (rounds next : Nat)
    (is : input_stream) (w : World)
    (h : decoder_plugin_from_mime_type reg is.mime next = none) :
    mime_loop reg dec rounds next is w =
      .ok ⟨none, false, is, w.emit (.lookup_mime next)⟩ := by
  cases rounds <;> simp [mime_loop, h]

theorem mime_loop_skip (reg : List decoder_plugin) (dec : decoder) (rounds next : Nat)
    (is : input_stream) (w : World) (q : decoder_plugin)
    (h : decoder_plugin_from_mime_type reg is.mime next = some q)
    (hsd : q.stream_decode = none) :
    mime_loop reg dec (rounds + 1) next is w =
      mime_loop reg dec rounds (next + 1) is (w.emit (.lookup_mime next)) := by
  simp [mime_loop, h, hsd]

theorem mime_loop_fail (reg : List decoder_plugin) (dec : decoder) (rounds next : Nat)
    (is : input_stream) (w : World) (q : decoder_plugin)
    (sd : decoder → input_stream → decoder_control → decode_result)
    (h : decoder_plugin_from_mime_type reg is.mime next = some q)
    (hsd : q.stream_decode = some sd) (hp : probe_passes q is = false) :
    mime_loop reg dec (rounds + 1) next is w =
      mime_loop reg dec rounds (next + 1) (probe_rewind q is)
        (decoder_try_decode q is (w.emit (.lookup_mime next))).2.2 := by
  simp [mime_loop, h, hsd, decoder_try_decode_fst, decoder_try_decode_stream, hp]

theorem mime_loop_hit (reg : List decoder_plugin) (dec : decoder) (rounds next : Nat)
    (is : input_stream) (w : World) (q : decoder_plugin)
    (sd : decoder → input_stream → decoder_control → decode_result)
    (h : decoder_plugin_from_mime_type reg is.mime next = some q)
    (hsd : q.stream_decode = some sd) (hp : probe_passes q is = true) :
    mime_loop reg dec (rounds + 1) next is w =
      .ok ⟨some q, (sd dec (probe_rewind q is) w.dc).ret, probe_rewind q is,
        run_decode (.stream_decode q.name) (sd dec (probe_rewind q is) w.dc)
          (decoder_try_decode q is (w.emit (.lookup_mime next))).2.2⟩ := by
  simp [mime_loop, h, hsd, decoder_try_decode_fst, decoder_try_decode_stream, hp]

/-- The MIME loop does not run out of its bound when the bound covers what is
left of the registry. -/
theorem mime_loop_total (reg : List decoder_plugin) (dec : decoder) (rounds : Nat) :
    ∀ (next : Nat) (is : input_stream) (w : World), reg.length ≤ rounds + next →
      ∃ l, mime_loop reg dec rounds next is w = .ok l := by
  induction rounds with
  | zero =>
    intro next is w h
    exact ⟨_, mime_loop_null reg dec 0 next is w
      (mime_lookup_bound reg is.mime next (by omega))⟩
  | succ r ih =>
    intro next is w h
    cases hl : decoder_plugin_from_mime_type reg is.mime next with
    | none => exact ⟨_, mime_loop_null reg dec _ next is w hl⟩
    | some q =>
      cases hsd : q.stream_decode with
      | none =>
        rw [mime_loop_skip reg dec r next is w q hl hsd]
        exact ih _ _ _ (by omega)
      | some sd =>
        cases hpp : probe_passes q is with
        | false =>
          rw [mime_loop_fail reg dec r next is w q sd hl hsd hpp]
          exact ih _ _ _ (by omega)
        | true => exact ⟨_, mime_loop_hit reg dec r next is w q sd hl hsd hpp⟩

theorem mime_loop_summary (reg : List decoder_plugin) (dec : decoder) (rounds : Nat) :
    ∀ (next : Nat) (is : input_stream) (w : World) (l : Looped),
      mime_loop reg dec rounds next is w = .ok l →
      ∃ t, l.w.trace = w.trace ++ t ∧
        t.filter (fun e => !e.is_search) =
          (match l.plugin with
           | none => []
           | some p => [Event.stream_decode p.name l.ret]) ∧
        (l.plugin = none → l.ret = false ∧ l.w.dc = w.dc ∧ l.w.history = w.history) ∧
        l.w.tick = w.tick := by
  have hlk : ∀ n, (Event.lookup_mime n).is_search = true := fun _ => rfl
  have hs : ∀ a b, (Event.stream_decode a b).is_search = false := fun _ _ => rfl
  have hnull : ∀ (rounds next : Nat) (is : input_stream) (w : World) (l : Looped),
      decoder_plugin_from_mime_type reg is.mime next = none →
      mime_loop reg dec rounds next is w = .ok l →
      ∃ t, l.w.trace = w.trace ++ t ∧
        t.filter (fun e => !e.is_search) =
          (match l.plugin with
           | none => []
           | some p => [Event.stream_decode p.name l.ret]) ∧
        (l.plugin = none → l.ret = false ∧ l.w.dc = w.dc ∧ l.w.history = w.history) ∧
        l.w.tick = w.tick := by
    intro rounds next is w l hl h
    rw [mime_loop_null reg dec rounds next is w hl] at h
    simp only [Except.ok.injEq] at h
    subst h
    exact ⟨[.lookup_mime next], by simp, by simp [hlk], by simp, by simp⟩
  induction rounds with
  | zero =>
    intro next is w l h
    cases hl : decoder_plugin_from_mime_type reg is.mime next with
    | none => exact hnull 0 next is w l hl h
    | some q => simp [mime_loop, hl] at h
  | succ r ih =>
    intro next is w l h
    cases hl : decoder_plugin_from_mime_type reg is.mime next with
    | none => exact hnull _ next is w l hl h
    | some q =>
      cases hsd : q.stream_decode with
      | none =>
        rw [mime_loop_skip reg dec r next is w q hl hsd] at h
        obtain ⟨t, h1, h2, h3, h4⟩ := ih _ _ _ l h
        refine ⟨.lookup_mime next :: t, by simp [h1], ?_, ?_, ?_⟩
        · simpa [hlk] using h2
        · simpa using h3
        · simpa using h4
      | some sd =>
        cases hpp : probe_passes q is with
        | false =>
          rw [mime_loop_fail reg dec r next is w q sd hl hsd hpp] at h
          obtain ⟨t, h1, h2, h3, h4⟩ := ih _ _ _ l h
          refine ⟨.lookup_mime next :: (probe_events q is ++ t), by simp [h1], ?_, ?_, ?_⟩
          · simpa [hlk, probe_events_search] using h2
          · simpa using h3
          · simpa using h4
        | true =>
          rw [mime_loop_hit reg dec r next is w q sd hl hsd hpp] at h
          simp only [Except.ok.injEq] at h
          subst h
          refine ⟨.lookup_mime next :: (probe_events q is ++
            [Event.stream_decode q.name (sd dec (probe_rewind q is) w.dc).ret]), ?_, ?_, ?_, ?_⟩
          · simp
          · simp [hlk, probe_events_search, hs]
          · simp
          · simp

theorem mime_skip_search (reg : List decoder_plugin) (k : Nat) :
    ∀ (next : Nat) (is : input_stream), ∀ e ∈ mime_skip_events reg k next is,
      e.is_search = true := by
  induction k with
  | zero =>
    intro next is e he
    simp [mime_skip_events] at he
  | succ k ih =>
    intro next is e he
    unfold mime_skip_events at he
    cases hl : decoder_plugin_from_mime_type reg is.mime next with
    | none => simp [hl] at he
    | some q =>
      simp only [hl, List.mem_cons, List.mem_append] at he
      rcases he with he | he | he
      · subst he; rfl
      · cases hq : q.stream_decode with
        | none => simp [hq] at he
        | some sd =>
          simp only [hq, Option.isSome_some, ↓reduceIte] at he
          exact (probe_events_all_search q is e he).1
      · exact ih _ _ e he

theorem mime_skip_lookups (reg : List decoder_plugin) (k : Nat) :
    ∀ (next : Nat) (is isk : input_stream), mime_rejects reg k next is = some isk →
      (mime_skip_events reg k next is).filter Event.is_lookup =
        (List.range' next k).map Event.lookup_mime := by
  have hlk : ∀ n, (Event.lookup_mime n).is_lookup = true := fun _ => rfl
  induction k with
  | zero =>
    intro next is isk _
    simp [mime_skip_events]
  | succ k ih =>
    intro next is isk h
    unfold mime_rejects at h
    unfold mime_skip_events
    cases hl : decoder_plugin_from_mime_type reg is.mime next with
    | none => simp [hl] at h
    | some q =>
      simp only [hl] at h ⊢
      cases ha : stream_accepts q is with
      | true => simp [ha] at h
      | false =>
        simp only [ha, Bool.false_eq_true, ↓reduceIte] at h
        have hp : (if q.stream_decode.isSome = true then probe_events q is else []).filter
            Event.is_lookup = [] := by
          split
          · exact probe_events_lookup q is
          · rfl
        simp [List.filter_cons, hlk, List.filter_append, hp, ih _ _ _ h, List.range']

theorem mime_rejects_bound (reg : List decoder_plugin) (k : Nat) :
    ∀ (next : Nat) (is isk : input_stream), mime_rejects reg k next is = some isk →
      k = 0 ∨ next + k ≤ reg.length := by
  induction k with
  | zero =>
    intro next is isk _
    exact Or.inl rfl
  | succ k ih =>
    intro next is isk h
    unfold mime_rejects at h
    cases hl : decoder_plugin_from_mime_type reg is.mime next with
    | none => simp [hl] at h
    | some q =>
      simp only [hl] at h
      cases ha : stream_accepts q is with
      | true => simp [ha] at h
      | false =>
        simp only [ha, Bool.false_eq_true, ↓reduceIte] at h
        right
        rcases ih _ _ _ h with h0 | h0
        · subst h0
          by_contra hc
          have := mime_lookup_bound reg is.mime next (by omega)
          rw [this] at hl
          simp at hl
        · omega

theorem mime_lookup_lt (reg : List decoder_plugin) (mime : Option String) (next : Nat)
    (p : decoder_plugin) (h : decoder_plugin_from_mime_type reg mime next = some p) :
    next < reg.length := by
  by_contra hc
  rw [mime_lookup_bound reg mime next (by omega)] at h
  simp at h

/-- The MIME loop that turns down `k` plugins and then gets `NULL`. -/
theorem mime_loop_exhausted (reg : List decoder_plugin) (dec : decoder) (k : Nat) :
    ∀ (rounds next : Nat) (is isk : input_stream) (w : World),
      mime_rejects reg k next is = some isk →
      decoder_plugin_from_mime_type reg isk.mime (next + k) = none →
      k ≤ rounds →
      mime_loop reg dec rounds next is w =
        .ok ⟨none, false, isk,
          w.logged (mime_skip_events reg k next is ++ [Event.lookup_mime (next + k)])⟩ := by
  induction k with
  | zero =>
    intro rounds next is isk w h hl _
    simp only [mime_rejects, Option.some.injEq] at h
    subst h
    rw [mime_loop_null reg dec rounds next is w hl]
    simp [mime_skip_events, emit_eq_logged]
  | succ k ih =>
    intro rounds next is isk w h hl hr
    obtain ⟨r, rfl⟩ : ∃ r, rounds = r + 1 := ⟨rounds - 1, by omega⟩
    unfold mime_rejects at h
    unfold mime_skip_events
    cases hq : decoder_plugin_from_mime_type reg is.mime next with
    | none => simp [hq] at h
    | some q =>
      simp only [hq] at h ⊢
      cases ha : stream_accepts q is with
      | true => simp [ha] at h
      | false =>
        simp only [ha, Bool.false_eq_true, ↓reduceIte] at h
        have hl2 : decoder_plugin_from_mime_type reg isk.mime (next + 1 + k) = none := by
          rw [show next + 1 + k = next + (k + 1) by omega]
          exact hl
        cases hsd : q.stream_decode with
        | none =>
          have hskip : stream_skip q is = is := by simp [stream_skip, hsd]
          rw [hskip] at h ⊢
          rw [mime_loop_skip reg dec r next is w q hq hsd,
            ih r (next + 1) is isk _ h hl2 (by omega), emit_eq_logged, logged_logged]
          simp [show next + 1 + k = next + (k + 1) by omega]
        | some sd =>
          have hskip : stream_skip q is = probe_rewind q is := by simp [stream_skip, hsd]
          have hfail : probe_passes q is = false := by
            simpa [stream_accepts, hsd] using ha
          rw [hskip] at h ⊢
          rw [mime_loop_fail reg dec r next is w q sd hq hsd hfail,
            ih r (next + 1) _ isk _ h hl2 (by omega), try_decode_logged, emit_eq_logged,
            logged_logged, logged_logged]
          simp [show next + 1 + k = next + (k + 1) by omega]

/-- The MIME loop that turns down `k` plugins and then takes `p`. -/
theorem mime_loop_first (reg : List decoder_plugin) (dec : decoder) (p : decoder_plugin)
    (sd : decoder → input_stream → decoder_control → decode_result)
    (hsd : p.stream_decode = some sd) (k : Nat) :
    ∀ (rounds next : Nat) (is isk : input_stream) (w : World),
      mime_rejects reg k next is = some isk →
      decoder_plugin_from_mime_type reg isk.mime (next + k) = some p →
      probe_passes p isk = true →
      k < rounds →
      mime_loop reg dec rounds next is w =
        .ok ⟨some p, (sd dec (probe_rewind p isk) w.dc).ret, probe_rewind p isk,
          run_decode (.stream_decode p.name) (sd dec (probe_rewind p isk) w.dc)
            (w.logged (mime_skip_events reg k next is ++
              Event.lookup_mime (next + k) :: probe_events p isk))⟩ := by
  induction k with
  | zero =>
    intro rounds next is isk w h hl hp hr
    obtain ⟨r, rfl⟩ : ∃ r, rounds = r + 1 := ⟨rounds - 1, by omega⟩
    simp only [mime_rejects, Option.some.injEq] at h
    subst h
    rw [mime_loop_hit reg dec r next is w p sd hl hsd hp, try_decode_logged, emit_eq_logged,
      logged_logged]
    simp [mime_skip_events]
  | succ k ih =>
    intro rounds next is isk w h hl hp hr
    obtain ⟨r, rfl⟩ : ∃ r, rounds = r + 1 := ⟨rounds - 1, by omega⟩
    unfold mime_rejects at h
    unfold mime_skip_events
    cases hq : decoder_plugin_from_mime_type reg is.mime next with
    | none => simp [hq] at h
    | some q =>
      simp only [hq] at h ⊢
      cases ha : stream_accepts q is with
      | true => simp [ha] at h
      | false =>
        simp only [ha, Bool.false_eq_true, ↓reduceIte] at h
        have hl2 : decoder_plugin_from_mime_type reg isk.mime (next + 1 + k) = some p := by
          rw [show next + 1 + k = next + (k + 1) by omega]
          exact hl
        cases hqsd : q.stream_decode with
        | none =>
          have hskip : stream_skip q is = is := by simp [stream_skip, hqsd]
          rw [hskip] at h ⊢
          rw [mime_loop_skip reg dec r next is w q hq hqsd,
            ih r (next + 1) is isk _ h hl2 hp (by omega), emit_eq_logged, logged_logged]
          simp [show next + 1 + k = next + (k + 1) by omega]
        | some sq =>
          have hskip : stream_skip q is = probe_rewind q is := by simp [stream_skip, hqsd]
          have hfail : probe_passes q is = false := by
            simpa [stream_accepts, hqsd] using ha
          rw [hskip] at h ⊢
          rw [mime_loop_fail reg dec r next is w q sq hq hqsd hfail,
            ih r (next + 1) _ isk _ h hl2 hp (by omega), try_decode_logged, emit_eq_logged,
            logged_logged, logged_logged]
          simp [show next + 1 + k = next + (k + 1) by omega]

/-- A MIME loop that ends without plugin has turned down some number of
plugins and then got `NULL`. -/
theorem mime_loop_none (reg : List decoder_plugin) (dec : decoder) (rounds : Nat) :
    ∀ (next : Nat) (is : input_stream) (w : World) (l : Looped),
      mime_loop reg dec rounds next is w = .ok l → l.plugin = none →
      ∃ k, k ≤ rounds ∧ mime_rejects reg k next is = some l.is ∧
        decoder_plugin_from_mime_type reg l.is.mime (next + k) = none := by
  induction rounds with
  | zero =>
    intro next is w l h _
    cases hl : decoder_plugin_from_mime_type reg is.mime next with
    | none =>
      rw [mime_loop_null reg dec 0 next is w hl] at h
      simp only [Except.ok.injEq] at h
      subst h
      exact ⟨0, by omega, rfl, hl⟩
    | some q => simp [mime_loop, hl] at h
  | succ r ih =>
    intro next is w l h hp
    cases hl : decoder_plugin_from_mime_type reg is.mime next with
    | none =>
      rw [mime_loop_null reg dec _ next is w hl] at h
      simp only [Except.ok.injEq] at h
      subst h
      exact ⟨0, by omega, rfl, hl⟩
    | some q =>
      cases hsd : q.stream_decode with
      | none =>
        rw [mime_loop_skip reg dec r next is w q hl hsd] at h
        obtain ⟨k, hk, h1, h2⟩ := ih _ _ _ l h hp
        refine ⟨k + 1, by omega, ?_, ?_⟩
        · simp [mime_rejects, hl, stream_accepts, stream_skip, hsd, h1]
        · rw [show next + (k + 1) = next + 1 + k by omega]
          exact h2
      | some sd =>
        cases hpp : probe_passes q is with
        | false =>
          rw [mime_loop_fail reg dec r next is w q sd hl hsd hpp] at h
          obtain ⟨k, hk, h1, h2⟩ := ih _ _ _ l h hp
          refine ⟨k + 1, by omega, ?_, ?_⟩
          · simp [mime_rejects, hl, stream_accepts, stream_skip, hsd, hpp, h1]
          · rw [show next + (k + 1) = next + 1 + k by omega]
            exact h2
        | true =>
          rw [mime_loop_hit reg dec r next is w q sd hl hsd hpp] at h
          simp only [Except.ok.injEq] at h
          subst h
          simp at hp

/-- A MIME loop that ends with the plugin `p` has turned down some number of
plugins and then got `p`, which has a stream-decode entry and passed its
probe. -/
theorem mime_loop_some (reg : List decoder_plugin) (dec : decoder) (rounds : Nat) :
    ∀ (next : Nat) (is : input_stream) (w : World) (l : Looped) (p : decoder_plugin),
      mime_loop reg dec rounds next is w = .ok l → l.plugin = some p →
      ∃ k isk sd, k < rounds ∧ mime_rejects reg k next is = some isk ∧
        decoder_plugin_from_mime_type reg isk.mime (next + k) = some p ∧
        p.stream_decode = some sd ∧ probe_passes p isk = true := by
  induction rounds with
  | zero =>
    intro next is w l p h hp
    cases hl : decoder_plugin_from_mime_type reg is.mime next with
    | none =>
      rw [mime_loop_null reg dec 0 next is w hl] at h
      simp only [Except.ok.injEq] at h
      subst h
      simp at hp
    | some q => simp [mime_loop, hl] at h
  | succ r ih =>
    intro next is w l p h hp
    cases hl : decoder_plugin_from_mime_type reg is.mime next with
    | none =>
      rw [mime_loop_null reg dec _ next is w hl] at h
      simp only [Except.ok.injEq] at h
      subst h
      simp at hp
    | some q =>
      cases hsd : q.stream_decode with
      | none =>
        rw [mime_loop_skip reg dec r next is w q hl hsd] at h
        obtain ⟨k, isk, sd, hk, h1, h2, h3, h4⟩ := ih _ _ _ l p h hp
        refine ⟨k + 1, isk, sd, by omega, ?_, ?_, h3, h4⟩
        · simp [mime_rejects, hl, stream_accepts, stream_skip, hsd, h1]
        · rw [show next + (k + 1) = next + 1 + k by omega]
          exact h2
      | some sd =>
        cases hpp : probe_passes q is with
        | false =>
          rw [mime_loop_fail reg dec r next is w q sd hl hsd hpp] at h
          obtain ⟨k, isk, sd2, hk, h1, h2, h3, h4⟩ := ih _ _ _ l p h hp
          refine ⟨k + 1, isk, sd2, by omega, ?_, ?_, h3, h4⟩
          · simp [mime_rejects, hl, stream_accepts, stream_skip, hsd, hpp, h1]
          · rw [show next + (k + 1) = next + 1 + k by omega]
            exact h2
        | true =>
          rw [mime_loop_hit reg dec r next is w q sd hl hsd hpp] at h
          simp only [Except.ok.injEq] at h
          subst h
          simp only [Option.some.injEq] at hp
          subst hp
          exact ⟨0, is, sd, by omega, rfl, hl, hsd, hpp⟩

/-- What the MIME loop leaves: the world of its start with searching events
logged, then, with a plugin, the stream-decode call of that plugin. -/
theorem mime_loop_cases (reg : List decoder_plugin) (dec : decoder) (rounds next : Nat)
    (is : input_stream) (w : World) (l : Looped)
    (h : mime_loop reg dec rounds next is w = .ok l) :
    ∃ ts, (∀ e ∈ ts, e.is_search = true) ∧
      ((l.plugin = none ∧ l.w = w.logged ts) ∨
       (∃ p r, l.plugin = some p ∧ l.ret = r.ret ∧
          l.w = run_decode (.stream_decode p.name) r (w.logged ts))) := by
  cases hp : l.plugin with
  | none =>
    obtain ⟨k, hk, h1, h2⟩ := mime_loop_none reg dec rounds next is w l h hp
    have h3 := mime_loop_exhausted reg dec k rounds next is l.is w h1 h2 hk
    rw [h] at h3
    simp only [Except.ok.injEq] at h3
    refine ⟨mime_skip_events reg k next is ++ [Event.lookup_mime (next + k)], ?_,
      Or.inl ⟨rfl, by rw [h3]⟩⟩
    intro e he
    rcases List.mem_append.1 he with he | he
    · exact mime_skip_search reg k next is e he
    · simp only [List.mem_singleton] at he
      subst he; rfl
  | some p =>
    obtain ⟨k, isk, sd, hk, h1, h2, h3, h4⟩ := mime_loop_some reg dec rounds next is w l p h hp
    have h5 := mime_loop_first reg dec p sd h3 k rounds next is isk w h1 h2 h4 hk
    rw [h] at h5
    simp only [Except.ok.injEq] at h5
    refine ⟨mime_skip_events reg k next is ++ Event.lookup_mime (next + k) :: probe_events p isk,
      ?_, Or.inr ⟨p, sd dec (probe_rewind p isk) w.dc, rfl, by rw [h5], by rw [h5]⟩⟩
    intro e he
    simp only [List.mem_append, List.mem_cons] at he
    rcases he with he | he | he
    · exact mime_skip_search reg k next is e he
    · subst he; rfl
    · exact (probe_events_all_search p isk e he).1

/-! ## C1: MIME matches come first -/

theorem finish_trace (sel : Selected) :
    (decoder_run_finish sel).trace = sel.w.trace ++ finish_events sel := by
  unfold decoder_run_finish finish_events
  cases sel.ret <;> cases sel.close_instream <;> simp [set_error]

theorem events_since_finish (w1 : World) (sel : Selected) (t : List Event)
    (h : sel.w.trace = w1.trace ++ t) :
    events_since w1 (decoder_run_finish sel) = t ++ finish_events sel := by
  apply events_since_append
  rw [finish_trace, h, List.append_assoc]

theorem filter_decode_of_search (t : List Event) (h : ∀ e ∈ t, e.is_search = true) :
    t.filter Event.is_decode = [] := by
  rw [List.filter_eq_nil_iff]
  intro e he
  cases e <;> simp_all [Event.is_decode, Event.is_search] <;>
    exact absurd (h _ he) (by simp [Event.is_search])

theorem probe_events_decode (p : decoder_plugin) (is : input_stream) :
    (probe_events p is).filter Event.is_decode = [] :=
  filter_decode_of_search _ (fun e he => (probe_events_all_search p is e he).1)

theorem mime_skip_probes (reg : List decoder_plugin) (k : Nat) :
    ∀ (next : Nat) (is : input_stream),
      (mime_skip_events reg k next is).filter Event.is_probe =
        stream_probe_calls (mime_returned reg k next is) := by
  have hlk : ∀ n, (Event.lookup_mime n).is_probe = false := fun _ => rfl
  induction k with
  | zero =>
    intro next is
    rfl
  | succ k ih =>
    intro next is
    unfold mime_skip_events mime_returned
    cases hl : decoder_plugin_from_mime_type reg is.mime next with
    | none => rfl
    | some q =>
      have h := ih (next + 1) (stream_skip q is)
      unfold stream_probe_calls at h ⊢
      cases hsd : q.stream_decode <;>
        simp [List.filter_cons, List.filter_append, hlk, hsd, h]

/-- C1: in a stream session that reaches plugin selection, when the MIME
lookup, made in each round with the MIME type the stream reports then, returns
`k` plugins that the loop turns down and then `p`, which has a stream-decode
entry and passes `decoder_try_decode` (so that `p` is the first such plugin in
MIME-lookup order), `decoder_run` returns and does, since selection started,
exactly this: the `k` turned-down rounds, the lookup that returns `p`, its
probe and rewind, the stream-decode entry of `p` on the rewound stream, the
flush, the error if the decode failed, the close. The only decode entry called
is that of `p`; the only lookups are the MIME lookups `0 .. k`, so that no
suffix lookup and no lookup of the default backend is made, whatever the
registry order; and the only probes are those of the plugins with a
stream-decode entry that the MIME lookups `0 .. k` returned, in the order of
the lookups, so that no plugin is probed or called for its suffix. -/
theorem C1_stream_mime_match_first (env : Env) (fuel : Nat) (w w1 : World) (s : song)
    (uri : String) (is isk : input_stream) (k : Nat) (p : decoder_plugin)
    (hreach : decoder_run_open env fuel w = .ok (.selecting s uri is w1))
    (hstream : env.song_is_file s = false)
    (hpre : mime_rejects env.decoder_plugins k 0 is = some isk)
    (hlook : decoder_plugin_from_mime_type env.decoder_plugins isk.mime k = some p)
    (hp : stream_accepts p isk = true) :
    ∃ w2 sd, decoder_run env fuel w = .ok w2 ∧ p.stream_decode = some sd ∧
      events_since w1 w2 =
        mime_skip_events env.decoder_plugins k 0 is ++
          Event.lookup_mime k :: probe_events p isk ++
        [Event.stream_decode p.name (sd ⟨false, false⟩ (probe_rewind p isk) w1.dc).ret,
          Event.music_pipe_flush] ++
        (if (sd ⟨false, false⟩ (probe_rewind p isk) w1.dc).ret then []
          else [Event.set_error DECODE_ERROR_FILE]) ++
        [Event.input_stream_close] ∧
      (events_since w1 w2).filter Event.is_decode =
        [Event.stream_decode p.name (sd ⟨false, false⟩ (probe_rewind p isk) w1.dc).ret] ∧
      (events_since w1 w2).filter Event.is_lookup =
        (List.range (k + 1)).map Event.lookup_mime ∧
      (events_since w1 w2).filter Event.is_probe =
        stream_probe_calls (mime_returned env.decoder_plugins k 0 is ++ [(p, isk)]) := by
  simp only [stream_accepts, Bool.and_eq_true, Option.isSome_iff_exists] at hp
  obtain ⟨⟨sd, hsd⟩, hpp⟩ := hp
  have hk : k < env.decoder_plugins.length := mime_lookup_lt _ _ _ _ hlook
  have hm := mime_loop_first env.decoder_plugins ⟨false, false⟩ p sd hsd k
    env.decoder_plugins.length 0 is isk w1 hpre (by simpa using hlook) hpp hk
  simp only [Nat.zero_add] at hm
  have hrun : decoder_run env fuel w = .ok (decoder_run_finish
      ⟨some p, (sd ⟨false, false⟩ (probe_rewind p isk) w1.dc).ret, true,
        run_decode (.stream_decode p.name) (sd ⟨false, false⟩ (probe_rewind p isk) w1.dc)
          (w1.logged (mime_skip_events env.decoder_plugins k 0 is ++
            Event.lookup_mime k :: probe_events p isk))⟩) := by
    simp only [decoder_run, hreach, decoder_select, hstream, hm]
    rfl
  have hev := events_since_finish w1
    ⟨some p, (sd ⟨false, false⟩ (probe_rewind p isk) w1.dc).ret, true,
      run_decode (.stream_decode p.name) (sd ⟨false, false⟩ (probe_rewind p isk) w1.dc)
        (w1.logged (mime_skip_events env.decoder_plugins k 0 is ++
          Event.lookup_mime k :: probe_events p isk))⟩
    (mime_skip_events env.decoder_plugins k 0 is ++
      Event.lookup_mime k :: probe_events p isk ++
      [Event.stream_decode p.name (sd ⟨false, false⟩ (probe_rewind p isk) w1.dc).ret])
    (by simp)
  have hsk := filter_decode_of_search _ (mime_skip_search env.decoder_plugins k 0 is)
  have hsl := mime_skip_lookups env.decoder_plugins k 0 is isk hpre
  have hpd := probe_events_decode p isk
  have hpl := probe_events_lookup p isk
  have e1 : (Event.lookup_mime k).is_decode = false := rfl
  have e2 : (Event.lookup_mime k).is_lookup = true := rfl
  have e3 : (Event.lookup_mime k).is_probe = false := rfl
  have d1 : ∀ a b, (Event.stream_decode a b).is_decode = true := fun _ _ => rfl
  have d2 : ∀ a b, (Event.stream_decode a b).is_lookup = false := fun _ _ => rfl
  have d3 : ∀ a b, (Event.stream_decode a b).is_probe = false := fun _ _ => rfl
  have f1 : Event.music_pipe_flush.is_decode = false := rfl
  have f2 : Event.music_pipe_flush.is_lookup = false := rfl
  have f3 : Event.music_pipe_flush.is_probe = false := rfl
  have c1 : Event.input_stream_close.is_decode = false := rfl
  have c2 : Event.input_stream_close.is_lookup = false := rfl
  have c3 : Event.input_stream_close.is_probe = false := rfl
  have g1 : ∀ x, (Event.set_error x).is_decode = false := fun _ => rfl
  have g2 : ∀ x, (Event.set_error x).is_lookup = false := fun _ => rfl
  have g3 : ∀ x, (Event.set_error x).is_probe = false := fun _ => rfl
  refine ⟨_, sd, hrun, hsd, ?_, ?_, ?_, ?_⟩
  · rw [hev]
    cases hr : (sd ⟨false, false⟩ (probe_rewind p isk) w1.dc).ret <;> simp [finish_events]
  · rw [hev]
    cases hr : (sd ⟨false, false⟩ (probe_rewind p isk) w1.dc).ret <;>
      simp [finish_events, List.filter_append, List.filter_cons, hsk, hpd, e1, d1, f1, c1, g1]
  · rw [hev]
    cases hr : (sd ⟨false, false⟩ (probe_rewind p isk) w1.dc).ret <;>
      simp [finish_events, List.filter_append, List.filter_cons, hsl, hpl, e2, d2, f2, c2, g2,
        List.range_eq_range', List.range'_concat]
  · have hsp := mime_skip_probes env.decoder_plugins k 0 is
    have hpc : stream_probe_calls (mime_returned env.decoder_plugins k 0 is ++ [(p, isk)]) =
        stream_probe_calls (mime_returned env.decoder_plugins k 0 is) ++
          (probe_events p isk).filter Event.is_probe := by
      simp [stream_probe_calls, List.filter_append, hsd]
    rw [hev, hpc, ← hsp]
    cases hr : (sd ⟨false, false⟩ (probe_rewind p isk) w1.dc).ret <;>
      simp [finish_events, List.filter_append, List.filter_cons, e3, d3, f3, c3, g3]

/-- C1 at `env_suffix`: the suffix `ogg` matches `plugin_ogg`, registered
first; the first MIME lookup, for `audio/x`, returns `plugin_retype`, whose
probe rejects and leaves the stream reporting `audio/z`; the second MIME
lookup, for `audio/z` with index 1, returns `plugin_z`, which is decoded. -/
theorem C1_stream_mime_match_first_witness :
    ∃ w2, decoder_run (env_suffix [plugin_ogg, plugin_retype, plugin_z0, plugin_z]) 5
        world_start = .ok w2 ∧
      events_since world_suffix_selecting w2 =
        [Event.lookup_mime 0, Event.try_decode "retype" false, Event.input_stream_seek,
          Event.lookup_mime 1, Event.try_decode "z" true, Event.input_stream_seek,
          Event.stream_decode "z" true, Event.music_pipe_flush, Event.input_stream_close] ∧
      (events_since world_suffix_selecting w2).filter Event.is_probe =
        [Event.try_decode "retype" false, Event.try_decode "z" true] :=
  (C1_stream_mime_match_first (env_suffix [plugin_ogg, plugin_retype, plugin_z0, plugin_z]) 5
    world_start world_suffix_selecting ⟨1⟩ "http://h/b.ogg" ⟨true, some "audio/x", 0⟩
    ⟨true, some "audio/z", 0⟩ 1 plugin_z rfl rfl rfl rfl rfl).elim
    (fun w2 h => h.elim (fun sd h2 => ⟨w2, h2.1, by rw [h2.2.2.1]; cases h2.2.1; rfl,
      by rw [h2.2.2.2.2.2]; rfl⟩))

/-! ## C2: the default backend -/

/-- C2 as stated fails: with no plugin named `mp3` in the registry (here only
`plugin_ogg`), a stream whose MIME type and suffix match nothing reaches plugin
selection, yet no decode entry is called at all; the session ends with
`DECODE_ERROR_UNKTYPE`. -/
theorem C2_default_backend_counterexample :
    (env_unknown [plugin_ogg]).song_is_file ⟨1⟩ = false ∧
    decoder_run_open (env_unknown [plugin_ogg]) 5 world_start =
      .ok (.selecting ⟨1⟩ "http://h/live" ⟨true, none, 0⟩ world_unknown_selecting) ∧
    mime_matches (env_unknown [plugin_ogg]).decoder_plugins none = [] ∧
    suffix_matches (env_unknown [plugin_ogg]).decoder_plugins
      ((env_unknown [plugin_ogg]).getSuffix "http://h/live") = [] ∧
    ∃ w2, decoder_run (env_unknown [plugin_ogg]) 5 world_start = .ok w2 ∧
      (events_since world_unknown_selecting w2).filter Event.is_decode = [] ∧
      w2.dc.error = DECODE_ERROR_UNKTYPE :=
  ⟨rfl, rfl, rfl, rfl, _, rfl, by decide, rfl⟩

/-- C2, amended: in a stream session that reaches plugin selection with a MIME
type and a suffix that match no plugin, `decoder_run` returns and, since
selection started, does exactly this: one MIME lookup, one suffix lookup, the
lookup of the name `mp3`, then, if a plugin of that name is registered and has
a stream-decode entry, one call of that entry (no probe, no other decode
entry), or, if no plugin of that name is registered, no decode call and
`DECODE_ERROR_UNKTYPE`; then flush, error classification and close. -/
theorem C2_default_backend (env : Env) (fuel : Nat) (w w1 : World) (s : song)
    (uri : String) (is : input_stream)
    (hreach : decoder_run_open env fuel w = .ok (.selecting s uri is w1))
    (hstream : env.song_is_file s = false)
    (hmime : mime_matches env.decoder_plugins is.mime = [])
    (hsuffix : suffix_matches env.decoder_plugins (env.getSuffix uri) = []) :
    (∀ p sd, decoder_plugin_from_name env.decoder_plugins "mp3" = some p →
      p.stream_decode = some sd →
      ∃ w2, decoder_run env fuel w = .ok w2 ∧
        events_since w1 w2 =
          [Event.lookup_mime 0, Event.lookup_suffix 0, Event.lookup_name "mp3",
            Event.stream_decode p.name (sd ⟨false, false⟩ is w1.dc).ret,
            Event.music_pipe_flush] ++
          (if (sd ⟨false, false⟩ is w1.dc).ret then []
            else [Event.set_error DECODE_ERROR_FILE]) ++
          [Event.input_stream_close]) ∧
    (decoder_plugin_from_name env.decoder_plugins "mp3" = none →
      ∃ w2, decoder_run env fuel w = .ok w2 ∧
        events_since w1 w2 =
          [Event.lookup_mime 0, Event.lookup_suffix 0, Event.lookup_name "mp3",
            Event.music_pipe_flush, Event.set_error DECODE_ERROR_UNKTYPE,
            Event.input_stream_close]) := by
  have hl : decoder_plugin_from_mime_type env.decoder_plugins is.mime 0 = none := by
    simp [decoder_plugin_from_mime_type, hmime]
  have hm := mime_loop_null env.decoder_plugins ⟨false, false⟩ env.decoder_plugins.length 0
    is w1 hl
  constructor
  · intro p sd hname hsd
    refine ⟨_, by simp only [decoder_run, hreach, decoder_select, hstream, hm, hsuffix,
      stream_loop, hname, hsd]; rfl, ?_⟩
    rw [events_since_finish w1 _ [Event.lookup_mime 0, Event.lookup_suffix 0,
      Event.lookup_name "mp3", Event.stream_decode p.name (sd ⟨false, false⟩ is w1.dc).ret]
      (by simp)]
    cases h : (sd ⟨false, false⟩ is w1.dc).ret <;> simp [finish_events, h]
  · intro hname
    refine ⟨_, by simp only [decoder_run, hreach, decoder_select, hstream, hm, hsuffix,
      stream_loop, hname]; rfl, ?_⟩
    rw [events_since_finish w1 _ [Event.lookup_mime 0, Event.lookup_suffix 0,
      Event.lookup_name "mp3"] (by simp)]
    simp [finish_events]

/-- C2, amended, at `env_unknown`: with `plugin_mp3` registered its
stream-decode entry is called once; with only `plugin_ogg` registered nothing
is decoded. -/
theorem C2_default_backend_witness :
    (∃ w2, decoder_run (env_unknown [plugin_ogg, plugin_mp3]) 5 world_start = .ok w2 ∧
      events_since world_unknown_selecting w2 =
        [Event.lookup_mime 0, Event.lookup_suffix 0, Event.lookup_name "mp3",
          Event.stream_decode "mp3" false, Event.music_pipe_flush,
          Event.set_error DECODE_ERROR_FILE, Event.input_stream_close]) ∧
    (∃ w2, decoder_run (env_unknown [plugin_ogg]) 5 world_start = .ok w2 ∧
      events_since world_unknown_selecting w2 =
        [Event.lookup_mime 0, Event.lookup_suffix 0, Event.lookup_name "mp3",
          Event.music_pipe_flush, Event.set_error DECODE_ERROR_UNKTYPE,
          Event.input_stream_close]) :=
  ⟨(C2_default_backend (env_unknown [plugin_ogg, plugin_mp3]) 5 world_start
      world_unknown_selecting ⟨1⟩ "http://h/live" ⟨true, none, 0⟩ rfl rfl rfl rfl).1
      plugin_mp3 _ rfl rfl,
   (C2_default_backend (env_unknown [plugin_ogg]) 5 world_start
      world_unknown_selecting ⟨1⟩ "http://h/live" ⟨true, none, 0⟩ rfl rfl rfl rfl).2 rfl⟩

/-! ## C3: the loop of the file branch -/

theorem file_loop_cons_fail (dec : decoder) (uri : String) (q : decoder_plugin)
    (qs : List decoder_plugin) (n : Nat) (is : input_stream) (w : World)
    (hp : probe_passes q is = false) :
    file_loop dec uri (q :: qs) n is w =
      file_loop dec uri qs (n + 1) (probe_rewind q is)
        (decoder_try_decode q is (w.emit (.lookup_suffix n))).2.2 := by
  simp [file_loop, decoder_try_decode_fst, decoder_try_decode_stream, hp]

theorem file_loop_cons_skip (dec : decoder) (uri : String) (q : decoder_plugin)
    (qs : List decoder_plugin) (n : Nat) (is : input_stream) (w : World)
    (hf : q.file_decode = none) (hs : q.stream_decode = none) :
    file_loop dec uri (q :: qs) n is w =
      file_loop dec uri qs (n + 1) (probe_rewind q is)
        (decoder_try_decode q is (w.emit (.lookup_suffix n))).2.2 := by
  cases hp : probe_passes q is <;>
    simp [file_loop, decoder_try_decode_fst, decoder_try_decode_stream, hp, hf, hs]

theorem file_loop_cons_file (dec : decoder) (uri : String) (q : decoder_plugin)
    (qs : List decoder_plugin) (n : Nat) (is : input_stream) (w : World)
    (fd : decoder → String → decoder_control → decode_result)
    (hp : probe_passes q is = true) (hf : q.file_decode = some fd) :
    file_loop dec uri (q :: qs) n is w =
      ⟨some q, (fd dec uri w.dc).ret, false,
        run_decode (.file_decode q.name) (fd dec uri w.dc)
          ((decoder_try_decode q is (w.emit (.lookup_suffix n))).2.2.emit
            .input_stream_close)⟩ := by
  simp [file_loop, decoder_try_decode_fst, hp, hf]

theorem file_loop_cons_stream (dec : decoder) (uri : String) (q : decoder_plugin)
    (qs : List decoder_plugin) (n : Nat) (is : input_stream) (w : World)
    (sd : decoder → input_stream → decoder_control → decode_result)
    (hp : probe_passes q is = true) (hf : q.file_decode = none) (hs : q.stream_decode = some sd) :
    file_loop dec uri (q :: qs) n is w =
      ⟨some q, (sd dec (probe_rewind q is) w.dc).ret, true,
        run_decode (.stream_decode q.name) (sd dec (probe_rewind q is) w.dc)
          (decoder_try_decode q is (w.emit (.lookup_suffix n))).2.2⟩ := by
  simp [file_loop, decoder_try_decode_fst, decoder_try_decode_stream, hp, hf, hs]

theorem file_loop_summary (dec : decoder) (uri : String) (ps : List decoder_plugin) :
    ∀ (n : Nat) (is : input_stream) (w : World),
      ∃ t, (file_loop dec uri ps n is w).w.trace = w.trace ++ t ∧
        t.filter (fun e => !e.is_search) = decode_events (file_loop dec uri ps n is w) ∧
        ((file_loop dec uri ps n is w).plugin = none →
          (file_loop dec uri ps n is w).ret = false ∧
          (file_loop dec uri ps n is w).close_instream = true ∧
          (file_loop dec uri ps n is w).w.dc = w.dc ∧
          (file_loop dec uri ps n is w).w.history = w.history) ∧
        (file_loop dec uri ps n is w).w.tick = w.tick := by
  have hk : ∀ n, (Event.lookup_suffix n).is_search = true := fun _ => rfl
  have hs : ∀ a b, (Event.stream_decode a b).is_search = false := fun _ _ => rfl
  have hf : ∀ a b, (Event.file_decode a b).is_search = false := fun _ _ => rfl
  have hc : Event.input_stream_close.is_search = false := rfl
  induction ps with
  | nil =>
    intro n is w
    exact ⟨[.lookup_suffix n], by simp [file_loop], by simp [file_loop, hk, decode_events],
      by simp [file_loop]⟩
  | cons q qs ih =>
    intro n is w
    obtain ⟨t, h1, h2, h3, h4⟩ := ih (n + 1) (probe_rewind q is)
      (decoder_try_decode q is (w.emit (.lookup_suffix n))).2.2
    cases hpp : probe_passes q is with
    | false =>
      rw [file_loop_cons_fail dec uri q qs n is w hpp]
      refine ⟨.lookup_suffix n :: (probe_events q is ++ t), by simp [h1], ?_, ?_, ?_⟩
      · simpa [hk, probe_events_search] using h2
      · simpa using h3
      · simpa using h4
    | true =>
      cases hfd : q.file_decode with
      | some fd =>
        rw [file_loop_cons_file dec uri q qs n is w fd hpp hfd]
        refine ⟨.lookup_suffix n :: (probe_events q is ++
          [.input_stream_close, .file_decode q.name (fd dec uri w.dc).ret]), by simp, ?_, ?_, ?_⟩
        · simp [hk, probe_events_search, hf, hc, decode_events]
        · simp
        · simp
      | none =>
        cases hsd : q.stream_decode with
        | some sd =>
          rw [file_loop_cons_stream dec uri q qs n is w sd hpp hfd hsd]
          refine ⟨.lookup_suffix n :: (probe_events q is ++
            [.stream_decode q.name (sd dec (probe_rewind q is) w.dc).ret]), by simp, ?_, ?_, ?_⟩
          · simp [hk, probe_events_search, hs, decode_events]
          · simp
          · simp
        | none =>
          rw [file_loop_cons_skip dec uri q qs n is w hfd hsd]
          refine ⟨.lookup_suffix n :: (probe_events q is ++ t), by simp [h1], ?_, ?_, ?_⟩
          · simpa [hk, probe_events_search] using h2
          · simpa using h3
          · simpa using h4

theorem file_loop_first (dec : decoder) (uri : String) (p : decoder_plugin)
    (post : List decoder_plugin) (pre : List decoder_plugin) :
    ∀ (n : Nat) (is : input_stream) (w : World),
      file_rejects_all pre is = true → file_accepts p (file_after pre is) = true →
      (file_loop dec uri (pre ++ p :: post) n is w).plugin = some p ∧
      (∀ fd, p.file_decode = some fd →
        (file_loop dec uri (pre ++ p :: post) n is w).close_instream = false ∧
        (file_loop dec uri (pre ++ p :: post) n is w).ret = (fd dec uri w.dc).ret) ∧
      (p.file_decode = none → ∀ sd, p.stream_decode = some sd →
        (file_loop dec uri (pre ++ p :: post) n is w).close_instream = true ∧
        (file_loop dec uri (pre ++ p :: post) n is w).ret =
          (sd dec (probe_rewind p (file_after pre is)) w.dc).ret) := by
  induction pre with
  | nil =>
    intro n is w _ hp
    simp only [file_after, file_accepts, Bool.and_eq_true, Bool.or_eq_true] at hp
    simp only [List.nil_append, file_after]
    cases hfd : p.file_decode with
    | some fd =>
      rw [file_loop_cons_file dec uri p post n is w fd hp.1 hfd]
      simp
    | none =>
      cases hsd : p.stream_decode with
      | some sd =>
        rw [file_loop_cons_stream dec uri p post n is w sd hp.1 hfd hsd]
        simp
      | none => simp [hfd, hsd] at hp
  | cons q qs ih =>
    intro n is w hrej hp
    simp only [file_rejects_all, Bool.and_eq_true, Bool.not_eq_true', file_after] at hrej hp
    simp only [List.cons_append, file_after]
    have hstep : file_loop dec uri (q :: (qs ++ p :: post)) n is w =
        file_loop dec uri (qs ++ p :: post) (n + 1) (probe_rewind q is)
          (decoder_try_decode q is (w.emit (.lookup_suffix n))).2.2 := by
      cases hpp : probe_passes q is with
      | false => exact file_loop_cons_fail dec uri q _ n is w hpp
      | true =>
        have h := hrej.1
        have hf : q.file_decode = none := by
          cases hh : q.file_decode with
          | none => rfl
          | some _ => simp [file_accepts, hpp, hh] at h
        have hs : q.stream_decode = none := by
          cases hh : q.stream_decode with
          | none => rfl
          | some _ => simp [file_accepts, hpp, hh] at h
        exact file_loop_cons_skip dec uri q _ n is w hf hs
    rw [hstep]
    have h := ih (n + 1) (probe_rewind q is)
      (decoder_try_decode q is (w.emit (.lookup_suffix n))).2.2 hrej.2 hp
    simp only [decoder_try_decode_dc, emit_dc] at h
    exact h

theorem decode_or_close_finish (sel : Selected) :
    (finish_events sel).filter (fun e => e.is_decode || e.is_close) =
      if sel.close_instream then [Event.input_stream_close] else [] := by
  unfold finish_events
  cases sel.ret <;> cases sel.close_instream <;> simp [Event.is_decode, Event.is_close]

theorem decode_or_close_not_search (e : Event) (h : (e.is_decode || e.is_close) = true) :
    e.is_search = false := by
  cases e <;> simp_all [Event.is_decode, Event.is_search, Event.is_close]

/-- C3: in a file-backed session that reaches plugin selection, when `p` is
the first plugin of the suffix lookup that passes `decoder_try_decode` and has
a file-decode or a stream-decode entry, `decoder_run` returns and the decode
entry called is one of `p`: if `p` has a file-decode entry (with or without a
stream-decode entry) the input stream is closed, then file-decode is called,
and the stream is not closed again; if `p` has only a stream-decode entry it is
called on the rewound, still open stream, which is closed afterwards. -/
theorem C3_file_decode_preferred (env : Env) (fuel : Nat) (w w1 : World) (s : song)
    (uri : String) (is : input_stream) (pre post : List decoder_plugin) (p : decoder_plugin)
    (hreach : decoder_run_open env fuel w = .ok (.selecting s uri is w1))
    (hfile : env.song_is_file s = true)
    (hsplit : suffix_matches env.decoder_plugins (env.getSuffix uri) = pre ++ p :: post)
    (hpre : file_rejects_all pre is = true)
    (hp : file_accepts p (file_after pre is) = true) :
    ∃ w2, decoder_run env fuel w = .ok w2 ∧
      (∀ fd, p.file_decode = some fd →
        (events_since w1 w2).filter (fun e => e.is_decode || e.is_close) =
          [Event.input_stream_close,
            Event.file_decode p.name (fd ⟨false, false⟩ uri w1.dc).ret]) ∧
      (p.file_decode = none → ∀ sd, p.stream_decode = some sd →
        (events_since w1 w2).filter (fun e => e.is_decode || e.is_close) =
          [Event.stream_decode p.name
            (sd ⟨false, false⟩ (probe_rewind p (file_after pre is)) w1.dc).ret,
            Event.input_stream_close]) := by
  obtain ⟨h1, h2, h3⟩ := file_loop_first ⟨false, false⟩ uri p post pre 0 is w1 hpre hp
  obtain ⟨t, h4, h5, -, -⟩ := file_loop_summary ⟨false, false⟩ uri (pre ++ p :: post) 0 is w1
  have hrun : decoder_run env fuel w = .ok (decoder_run_finish
      (file_loop ⟨false, false⟩ uri (pre ++ p :: post) 0 is w1)) := by
    simp only [decoder_run, hreach, decoder_select, hfile, hsplit]
    rfl
  refine ⟨_, hrun, ?_, ?_⟩
  · intro fd hfd
    obtain ⟨h6, h7⟩ := h2 fd hfd
    rw [events_since_finish w1 _ t h4, List.filter_append,
      filter_of_not_search _ decode_or_close_not_search, h5, decode_or_close_finish]
    simp [decode_events, h1, h6, h7, Event.is_decode, Event.is_close]
  · intro hfd sd hsd
    obtain ⟨h6, h7⟩ := h3 hfd sd hsd
    rw [events_since_finish w1 _ t h4, List.filter_append,
      filter_of_not_search _ decode_or_close_not_search, h5, decode_or_close_finish]
    simp [decode_events, h1, h6, h7, Event.is_decode, Event.is_close]

/-- C3 at `env_file`: after `plugin_oggflac`, whose probe rejects,
`plugin_vorbis` offers both entries and is decoded through file-decode on the
closed stream; alone in the registry, `plugin_ogg` offers only stream-decode
and is decoded on the open stream. -/
theorem C3_file_decode_preferred_witness :
    (∃ w2, decoder_run (env_file [plugin_oggflac, plugin_vorbis, plugin_ogg]) 5 world_start
        = .ok w2 ∧
      (events_since world_file_selecting w2).filter (fun e => e.is_decode || e.is_close) =
        [Event.input_stream_close, Event.file_decode "vorbis" true]) ∧
    (∃ w2, decoder_run (env_file [plugin_ogg]) 5 world_start = .ok w2 ∧
      (events_since world_file_selecting w2).filter (fun e => e.is_decode || e.is_close) =
        [Event.stream_decode "ogg" true, Event.input_stream_close]) :=
  ⟨(C3_file_decode_preferred (env_file [plugin_oggflac, plugin_vorbis, plugin_ogg]) 5
      world_start world_file_selecting ⟨1⟩ "/music/a.ogg" ⟨true, none, 0⟩ [plugin_oggflac]
      [plugin_ogg] plugin_vorbis rfl rfl rfl rfl rfl).imp
      (fun _ h => ⟨h.1, h.2.1 _ rfl⟩),
   (C3_file_decode_preferred (env_file [plugin_ogg]) 5
      world_start world_file_selecting ⟨1⟩ "/music/a.ogg" ⟨true, none, 0⟩ []
      [] plugin_ogg rfl rfl rfl rfl rfl).imp
      (fun _ h => ⟨h.1, h.2.2 rfl _ rfl⟩)⟩

/-! ## The shape of a session -/

theorem select_summary (env : Env) (s : song) (uri : String) (is : input_stream) (w : World)
    (sel : Selected) (h : decoder_select env s uri is w = .ok sel) :
    ∃ t, sel.w.trace = w.trace ++ t ∧
      t.filter (fun e => !e.is_search) = decode_events sel ∧
      (sel.plugin = none → sel.ret = false ∧ sel.close_instream = true) ∧
      sel.w.tick = w.tick := by
  have hln : (Event.lookup_name "mp3").is_search = true := rfl
  have hsdec : ∀ a b, (Event.stream_decode a b).is_search = false := fun _ _ => rfl
  unfold decoder_select at h
  cases hf : env.song_is_file s with
  | true =>
    simp only [hf, Bool.not_true, Bool.false_eq_true, ↓reduceIte, Except.ok.injEq] at h
    subst h
    obtain ⟨t, h1, h2, h3, h4⟩ := file_loop_summary ⟨false, false⟩ uri
      (suffix_matches env.decoder_plugins (env.getSuffix uri)) 0 is w
    exact ⟨t, h1, h2, fun hn => ⟨(h3 hn).1, (h3 hn).2.1⟩, h4⟩
  | false =>
    simp only [hf, Bool.not_false, ↓reduceIte] at h
    obtain ⟨m, hml⟩ := mime_loop_total env.decoder_plugins ⟨false, false⟩
      env.decoder_plugins.length 0 is w (by omega)
    simp only [hml] at h
    obtain ⟨t1, a1, a2, a3, a4⟩ := mime_loop_summary env.decoder_plugins ⟨false, false⟩
      env.decoder_plugins.length 0 is w m hml
    cases hm : m.plugin with
    | some p =>
      simp only [hm, Except.ok.injEq] at h
      subst h
      exact ⟨t1, a1, by simpa [decode_events, hm] using a2, by simp, a4⟩
    | none =>
      simp only [hm] at h a2
      obtain ⟨t2, b1, b2, b3, b4⟩ := stream_loop_summary Event.lookup_suffix (fun _ => rfl)
        ⟨false, false⟩ (suffix_matches env.decoder_plugins (env.getSuffix uri)) 0 m.is m.w
      generalize stream_loop Event.lookup_suffix ⟨false, false⟩
        (suffix_matches env.decoder_plugins (env.getSuffix uri)) 0 m.is m.w = x at h b1 b2 b3 b4
      cases hx : x.plugin with
      | some p =>
        simp only [hx, Except.ok.injEq] at h
        subst h
        refine ⟨t1 ++ t2, by simp [b1, a1], ?_, by simp, by simp [b4, a4]⟩
        simpa [decode_events, hx, a2] using b2
      | none =>
        simp only [hx] at h b2
        cases hn : decoder_plugin_from_name env.decoder_plugins "mp3" with
        | none =>
          simp only [hn, Except.ok.injEq] at h
          subst h
          refine ⟨t1 ++ (t2 ++ [Event.lookup_name "mp3"]), by simp [b1, a1], ?_, by simp,
            by simp [b4, a4]⟩
          simp [decode_events, a2, b2, hln]
        | some p =>
          simp only [hn] at h
          cases hsd : p.stream_decode with
          | none => simp [hsd] at h
          | some sd =>
            simp only [hsd, Except.ok.injEq] at h
            subst h
            refine ⟨t1 ++ (t2 ++ [Event.lookup_name "mp3",
              Event.stream_decode p.name (sd ⟨false, false⟩ x.is x.w.dc).ret]),
              by simp [b1, a1], ?_, by simp, by simp [b4, a4]⟩
            simp [decode_events, a2, b2, hln, hsdec]

theorem select_returns (env : Env) (s : song) (uri : String) (is : input_stream) (w : World)
    (h : default_backend_ok env.decoder_plugins = true) :
    ∃ sel, decoder_select env s uri is w = .ok sel := by
  unfold decoder_select
  unfold default_backend_ok at h
  cases hf : env.song_is_file s with
  | true =>
    simp only [Bool.not_true, Bool.false_eq_true, ↓reduceIte]
    exact ⟨_, rfl⟩
  | false =>
    simp only [Bool.not_false, ↓reduceIte]
    obtain ⟨m, hml⟩ := mime_loop_total env.decoder_plugins ⟨false, false⟩
      env.decoder_plugins.length 0 is w (by omega)
    simp only [hml]
    cases hm : m.plugin with
    | some p => exact ⟨_, rfl⟩
    | none =>
      simp only []
      generalize stream_loop Event.lookup_suffix ⟨false, false⟩
        (suffix_matches env.decoder_plugins (env.getSuffix uri)) 0 m.is m.w = x
      cases hx : x.plugin with
      | some p => exact ⟨_, rfl⟩
      | none =>
        simp only []
        cases hn : decoder_plugin_from_name env.decoder_plugins "mp3" with
        | none => exact ⟨_, rfl⟩
        | some p =>
          simp only [hn] at h
          cases hsd : p.stream_decode with
          | none => simp [hsd] at h
          | some sd =>
            simp only [hsd]
            exact ⟨_, rfl⟩

theorem read_command_trace (env : Env) (w : World) :
    ∃ t, (read_command env w).trace = w.trace ++ t ∧ ∀ e ∈ t, e.is_opening = true := by
  unfold read_command
  cases env.controller w.tick with
  | none => exact ⟨[], by simp, by simp⟩
  | some c => exact ⟨[.controller_command c], by simp, by simp [Event.is_opening]⟩

theorem wait_ready_events (env : Env) (fuel : Nat) :
    ∀ (is : input_stream) (w : World) (o : Option input_stream) (w2 : World),
      wait_ready env fuel is w = .ok (o, w2) →
      ∃ t, w2.trace = w.trace ++ t ∧ ∀ e ∈ t, e.is_opening = true := by
  induction fuel with
  | zero =>
    intro is w o w2 h
    unfold wait_ready at h
    cases hr : is.ready with
    | true =>
      simp only [hr, ↓reduceIte, Except.ok.injEq, Prod.mk.injEq] at h
      exact ⟨[], by simp [← h.2], by simp⟩
    | false => simp [hr] at h
  | succ n ih =>
    intro is w o w2 h
    unfold wait_ready at h
    cases hr : is.ready with
    | true =>
      simp only [hr, ↓reduceIte, Except.ok.injEq, Prod.mk.injEq] at h
      exact ⟨[], by simp [← h.2], by simp⟩
    | false =>
      simp only [hr, Bool.false_eq_true, ↓reduceIte] at h
      obtain ⟨t0, h0, h0'⟩ := read_command_trace env w
      by_cases hc : (read_command env w).dc.command ≠ DECODE_COMMAND_NONE
      · rw [if_pos hc] at h
        simp only [Except.ok.injEq, Prod.mk.injEq] at h
        refine ⟨t0 ++ [.input_stream_close], by simp [← h.2, h0], ?_⟩
        intro e he
        simp only [List.mem_append, List.mem_singleton] at he
        rcases he with he | he
        · exact h0' e he
        · subst he; rfl
      · rw [if_neg hc] at h
        by_cases hb : (env.input_stream_buffer is).1 < 0
        · rw [if_pos hb] at h
          simp only [Except.ok.injEq, Prod.mk.injEq] at h
          refine ⟨t0 ++ [.input_stream_buffer (env.input_stream_buffer is).1,
            .input_stream_close, .set_error DECODE_ERROR_FILE],
            by simp [← h.2, h0, set_error], ?_⟩
          intro e he
          simp only [List.mem_append, List.mem_cons, List.mem_singleton, List.not_mem_nil,
            or_false] at he
          rcases he with he | he | he | he
          · exact h0' e he
          · subst he; rfl
          · subst he; rfl
          · subst he; rfl
        · rw [if_neg hb] at h
          obtain ⟨t1, h1, h1'⟩ := ih _ _ o w2 h
          refine ⟨t0 ++ (.input_stream_buffer (env.input_stream_buffer is).1 :: t1),
            by simp [h1, h0], ?_⟩
          intro e he
          simp only [List.mem_append, List.mem_cons] at he
          rcases he with he | he | he
          · exact h0' e he
          · subst he; rfl
          · exact h1' e he

theorem open_events (env : Env) (fuel : Nat) (w : World) (r : Opened)
    (h : decoder_run_open env fuel w = .ok r) :
    ∃ t, r.world.trace = w.trace ++ t ∧ ∀ e ∈ t, e.is_opening = true := by
  unfold decoder_run_open at h
  cases hs : w.dc.next_song with
  | none => simp [hs] at h
  | some s =>
    simp only [hs] at h
    cases hu : (if env.song_is_file s then env.map_song_fs s else env.song_get_url s) with
    | none =>
      simp only [hu, Except.ok.injEq] at h
      subst h
      exact ⟨[.set_error DECODE_ERROR_FILE], by simp [Opened.world, set_error],
        by simp [Event.is_opening]⟩
    | some uri =>
      simp only [hu] at h
      cases ho : env.input_stream_open uri with
      | none =>
        simp only [ho, Except.ok.injEq] at h
        subst h
        exact ⟨[.set_current_song w.dc.next_song, .input_stream_open uri false,
          .set_error DECODE_ERROR_FILE],
          by simp [Opened.world, set_error, set_current_song], by simp [Event.is_opening]⟩
      | some is =>
        simp only [ho] at h
        cases hw : wait_ready env fuel is (((set_command DECODE_COMMAND_NONE
          (set_state DECODE_STATE_START ((set_current_song w).emit
            (.input_stream_open uri true)))).emit .notify_signal_pc)) with
        | error e => simp [hw] at h
        | ok x =>
          obtain ⟨o, w3⟩ := x
          obtain ⟨t1, h1, h1'⟩ := wait_ready_events env fuel _ _ o w3 hw
          simp only [set_command, set_state, set_current_song, write_trace, emit_trace,
            List.append_assoc, List.singleton_append] at h1
          have hpre : ∀ e ∈ [Event.set_current_song w.dc.next_song,
              Event.input_stream_open uri true, Event.set_state DECODE_STATE_START,
              Event.set_command DECODE_COMMAND_NONE, Event.notify_signal_pc],
              e.is_opening = true := by
            simp [Event.is_opening]
          cases o with
          | none =>
            simp only [hw, Except.ok.injEq] at h
            subst h
            refine ⟨[Event.set_current_song w.dc.next_song,
              Event.input_stream_open uri true, Event.set_state DECODE_STATE_START,
              Event.set_command DECODE_COMMAND_NONE, Event.notify_signal_pc] ++ t1,
              by simp [Opened.world, h1], ?_⟩
            intro e he
            rcases List.mem_append.1 he with he | he
            · exact hpre e he
            · exact h1' e he
          | some is2 =>
            simp only [hw] at h
            obtain ⟨t2, h2, h2'⟩ := read_command_trace env w3
            by_cases hc : (read_command env w3).dc.command = DECODE_COMMAND_STOP
            · rw [if_pos hc] at h
              simp only [Except.ok.injEq] at h
              subst h
              refine ⟨[Event.set_current_song w.dc.next_song,
                Event.input_stream_open uri true, Event.set_state DECODE_STATE_START,
                Event.set_command DECODE_COMMAND_NONE, Event.notify_signal_pc] ++
                (t1 ++ (t2 ++ [.input_stream_close])),
                by simp [Opened.world, h1, h2], ?_⟩
              intro e he
              simp only [List.mem_append, List.mem_singleton] at he
              rcases he with he | he | he | he
              · exact hpre e he
              · exact h1' e he
              · exact h2' e he
              · subst he; rfl
            · rw [if_neg hc] at h
              simp only [Except.ok.injEq] at h
              subst h
              refine ⟨[Event.set_current_song w.dc.next_song,
                Event.input_stream_open uri true, Event.set_state DECODE_STATE_START,
                Event.set_command DECODE_COMMAND_NONE, Event.notify_signal_pc] ++
                (t1 ++ t2),
                by simp [Opened.world, h1, h2], ?_⟩
              intro e he
              simp only [List.mem_append] at he
              rcases he with he | he | he
              · exact hpre e he
              · exact h1' e he
              · exact h2' e he

theorem read_command_wait (env : Env) (w : World) :
    ∃ t, (read_command env w).trace = w.trace ++ t ∧ ∀ e ∈ t, e.is_wait = true := by
  unfold read_command
  cases env.controller w.tick with
  | none => exact ⟨[], by simp, by simp⟩
  | some c => exact ⟨[.controller_command c], by simp, by simp [Event.is_wait]⟩

theorem wait_ready_ready_events (env : Env) (fuel : Nat) :
    ∀ (is is2 : input_stream) (w w2 : World),
      wait_ready env fuel is w = .ok (some is2, w2) →
      ∃ t, w2.trace = w.trace ++ t ∧ ∀ e ∈ t, e.is_wait = true := by
  induction fuel with
  | zero =>
    intro is is2 w w2 h
    unfold wait_ready at h
    cases hr : is.ready with
    | true =>
      simp only [hr, ↓reduceIte, Except.ok.injEq, Prod.mk.injEq] at h
      exact ⟨[], by simp [← h.2], by simp⟩
    | false => simp [hr] at h
  | succ n ih =>
    intro is is2 w w2 h
    unfold wait_ready at h
    cases hr : is.ready with
    | true =>
      simp only [hr, ↓reduceIte, Except.ok.injEq, Prod.mk.injEq] at h
      exact ⟨[], by simp [← h.2], by simp⟩
    | false =>
      simp only [hr, Bool.false_eq_true, ↓reduceIte] at h
      obtain ⟨t0, h0, h0'⟩ := read_command_wait env w
      by_cases hc : (read_command env w).dc.command ≠ DECODE_COMMAND_NONE
      · rw [if_pos hc] at h
        simp at h
      · rw [if_neg hc] at h
        by_cases hb : (env.input_stream_buffer is).1 < 0
        · rw [if_pos hb] at h
          simp at h
        · rw [if_neg hb] at h
          obtain ⟨t1, h1, h1'⟩ := ih _ is2 _ w2 h
          refine ⟨t0 ++ (.input_stream_buffer (env.input_stream_buffer is).1 :: t1),
            by simp [h1, h0], ?_⟩
          intro e he
          simp only [List.mem_append, List.mem_cons] at he
          rcases he with he | he | he
          · exact h0' e he
          · subst he; rfl
          · exact h1' e he

theorem open_selecting_events (env : Env) (fuel : Nat) (w w1 : World) (s : song) (uri : String)
    (is : input_stream) (h : decoder_run_open env fuel w = .ok (.selecting s uri is w1)) :
    ∃ t, w1.trace = w.trace ++ ([Event.set_current_song w.dc.next_song,
        Event.input_stream_open uri true, Event.set_state DECODE_STATE_START,
        Event.set_command DECODE_COMMAND_NONE, Event.notify_signal_pc] ++ t) ∧
      ∀ e ∈ t, e.is_wait = true := by
  unfold decoder_run_open at h
  cases hs : w.dc.next_song with
  | none => simp [hs] at h
  | some s0 =>
    simp only [hs] at h
    cases hu : (if env.song_is_file s0 then env.map_song_fs s0 else env.song_get_url s0) with
    | none => simp [hu] at h
    | some uri0 =>
      simp only [hu] at h
      cases ho : env.input_stream_open uri0 with
      | none => simp [ho] at h
      | some is0 =>
        simp only [ho] at h
        cases hw : wait_ready env fuel is0 (((set_command DECODE_COMMAND_NONE
          (set_state DECODE_STATE_START ((set_current_song w).emit
            (.input_stream_open uri0 true)))).emit .notify_signal_pc)) with
        | error e => simp [hw] at h
        | ok x =>
          obtain ⟨o, w3⟩ := x
          cases o with
          | none => simp [hw] at h
          | some is2 =>
            obtain ⟨t1, h1, h1'⟩ := wait_ready_ready_events env fuel _ is2 _ w3 hw
            simp only [set_command, set_state, set_current_song, write_trace, emit_trace,
              List.append_assoc, List.singleton_append] at h1
            simp only [hw] at h
            obtain ⟨t2, h2, h2'⟩ := read_command_wait env w3
            by_cases hc : (read_command env w3).dc.command = DECODE_COMMAND_STOP
            · rw [if_pos hc] at h
              simp at h
            · rw [if_neg hc] at h
              simp only [Except.ok.injEq, Opened.selecting.injEq] at h
              obtain ⟨-, hu2, -, hw1⟩ := h
              subst hu2 hw1
              refine ⟨t1 ++ t2, by simp [h1, h2, hs], ?_⟩
              intro e he
              rcases List.mem_append.1 he with he | he
              · exact h1' e he
              · exact h2' e he

theorem run_cases (env : Env) (fuel : Nat) (w w2 : World) (r : Opened)
    (hopen : decoder_run_open env fuel w = .ok r) (hrun : decoder_run env fuel w = .ok w2) :
    match r with
    | .returned w1 => w2 = w1
    | .selecting s uri is w1 =>
      ∃ sel, decoder_select env s uri is w1 = .ok sel ∧ w2 = decoder_run_finish sel := by
  unfold decoder_run at hrun
  rw [hopen] at hrun
  cases r with
  | returned w1 =>
    simp only [Except.ok.injEq] at hrun
    exact hrun.symm
  | selecting s uri is w1 =>
    simp only at hrun
    cases hsel : decoder_select env s uri is w1 with
    | error e => simp [hsel] at hrun
    | ok sel =>
      simp only [hsel, Except.ok.injEq] at hrun
      exact ⟨sel, hsel, hrun.symm⟩

theorem run_returns (env : Env) (fuel : Nat) (w : World) (r : Opened)
    (hopen : decoder_run_open env fuel w = .ok r)
    (hdef : default_backend_ok env.decoder_plugins = true) :
    ∃ w2, decoder_run env fuel w = .ok w2 := by
  unfold decoder_run
  rw [hopen]
  cases r with
  | returned w1 => exact ⟨_, rfl⟩
  | selecting s uri is w1 =>
    obtain ⟨sel, hsel⟩ := select_returns env s uri is w1 hdef
    simp only [hsel]
    exact ⟨_, rfl⟩

/-- The events of a whole session that reached plugin selection: the opening
events `t0`, the selection events `t1`, whose part outside the search is
`decode_events sel`, and the closing events. -/
theorem session_events (env : Env) (fuel : Nat) (w w1 : World) (s : song) (uri : String)
    (is : input_stream) (sel : Selected)
    (hopen : decoder_run_open env fuel w = .ok (.selecting s uri is w1))
    (hsel : decoder_select env s uri is w1 = .ok sel) :
    ∃ t0 t1, events_since w (decoder_run_finish sel) =
        [Event.set_current_song w.dc.next_song,
          Event.input_stream_open uri true, Event.set_state DECODE_STATE_START,
          Event.set_command DECODE_COMMAND_NONE, Event.notify_signal_pc] ++
        t0 ++ t1 ++ finish_events sel ∧
      events_since w1 (decoder_run_finish sel) = t1 ++ finish_events sel ∧
      (∀ e ∈ t0, e.is_wait = true) ∧
      t1.filter (fun e => !e.is_search) = decode_events sel := by
  obtain ⟨t0, h0, h0'⟩ := open_selecting_events env fuel w w1 s uri is hopen
  obtain ⟨t1, h1, h1', -, -⟩ := select_summary env s uri is w1 sel hsel
  refine ⟨t0, t1, ?_, events_since_finish w1 sel t1 h1, h0', h1'⟩
  apply events_since_append
  rw [finish_trace, h1, h0]
  simp

theorem decode_events_essential (sel : Selected) :
    (decode_events sel).filter Event.is_essential = decode_events sel := by
  unfold decode_events
  cases sel.plugin with
  | none => rfl
  | some p => cases sel.close_instream <;> rfl

theorem finish_events_essential (sel : Selected) :
    (finish_events sel).filter Event.is_essential = finish_events sel := by
  unfold finish_events
  cases sel.ret <;> cases sel.close_instream <;> cases sel.plugin <;> rfl

theorem filter_essential_of_search (t d : List Event)
    (h : t.filter (fun e => !e.is_search) = d) :
    t.filter Event.is_essential = d.filter Event.is_essential := by
  rw [← h, List.filter_filter]
  apply List.filter_congr
  intro e _
  cases hs : e.is_search <;> simp [Event.is_essential, hs]

theorem filter_essential_of_wait (t : List Event) (h : ∀ e ∈ t, e.is_wait = true) :
    t.filter Event.is_essential = [] := by
  rw [List.filter_eq_nil_iff]
  intro e he
  simp [Event.is_essential, h e he]

/-- The essential events of a session that reached plugin selection. -/
theorem session_essential (env : Env) (fuel : Nat) (w w1 : World) (s : song) (uri : String)
    (is : input_stream) (sel : Selected)
    (hopen : decoder_run_open env fuel w = .ok (.selecting s uri is w1))
    (hsel : decoder_select env s uri is w1 = .ok sel) :
    (events_since w (decoder_run_finish sel)).filter Event.is_essential =
      [Event.set_current_song w.dc.next_song,
        Event.input_stream_open uri true, Event.set_state DECODE_STATE_START,
        Event.set_command DECODE_COMMAND_NONE, Event.notify_signal_pc] ++
      decode_events sel ++ finish_events sel := by
  obtain ⟨t0, t1, h, -, h0, h1⟩ := session_events env fuel w w1 s uri is sel hopen hsel
  rw [h]
  simp only [List.filter_append, filter_essential_of_wait t0 h0,
    filter_essential_of_search t1 _ h1, decode_events_essential, finish_events_essential,
    List.append_nil]
  rfl

theorem mem_iff_mem_essential (e : Event) (he : e.is_essential = true) (t : List Event) :
    e ∈ t ↔ e ∈ t.filter Event.is_essential := by
  simp [List.mem_filter, he]

theorem count_eq_count_essential (e : Event) (he : e.is_essential = true) (t : List Event) :
    t.count e = (t.filter Event.is_essential).count e := by
  induction t with
  | nil => rfl
  | cons a t ih =>
    by_cases hae : e = a
    · subst hae
      rw [List.filter_cons, if_pos he, List.count_cons_self, List.count_cons_self, ih]
    · cases ha : a.is_essential with
      | true =>
        rw [List.filter_cons, if_pos ha, List.count_cons_of_ne hae, List.count_cons_of_ne hae, ih]
      | false =>
        rw [List.filter_cons, if_neg (by simp [ha]), List.count_cons_of_ne hae, ih]

theorem run_open_of_run (env : Env) (fuel : Nat) (w w2 : World)
    (hrun : decoder_run env fuel w = .ok w2) : ∃ r, decoder_run_open env fuel w = .ok r := by
  unfold decoder_run at hrun
  cases h : decoder_run_open env fuel w with
  | error e => simp [h] at hrun
  | ok r => exact ⟨r, rfl⟩

/-- The essential events of a session that returned before plugin selection
are opening events. -/
theorem returned_events (env : Env) (fuel : Nat) (w w1 : World)
    (hopen : decoder_run_open env fuel w = .ok (.returned w1)) :
    ∀ e ∈ events_since w w1, e.is_opening = true := by
  obtain ⟨t, h, h'⟩ := open_events env fuel w _ hopen
  rw [events_since_append w w1 t h]
  exact h'

/-! ## C4: the flush of the pipe -/

/-- C4 as stated fails: the locator of the song resolves to `http://h/gone`,
the input stream cannot be opened, and the session returns with
`DECODE_ERROR_FILE` without a single call of `music_pipe_flush`. -/
theorem C4_flush_counterexample :
    env_closed.song_is_file ⟨1⟩ = false ∧
    env_closed.song_get_url ⟨1⟩ = some "http://h/gone" ∧
    env_closed.input_stream_open "http://h/gone" = none ∧
    ∃ w2, decoder_run env_closed 5 world_start = .ok w2 ∧
      w2.dc.error = DECODE_ERROR_FILE ∧
      (events_since world_start w2).count Event.music_pipe_flush = 0 :=
  ⟨rfl, rfl, rfl, _, rfl, rfl, by decide⟩

/-- C4, amended: `music_pipe_flush` is called exactly once in a session that
reaches plugin selection (whether a decode entry then succeeds, fails, or no
plugin is found) and not at all in a session that returns before (locator
unresolved, open failure, read error or pending command in the readiness wait,
stop pending at readiness); and the session does return when the default
backend, if registered, has a stream-decode entry. -/
theorem C4_flush_once_after_selection (env : Env) (fuel : Nat) (w : World) (r : Opened)
    (hopen : decoder_run_open env fuel w = .ok r) :
    (default_backend_ok env.decoder_plugins = true → ∃ w2, decoder_run env fuel w = .ok w2) ∧
    ∀ w2, decoder_run env fuel w = .ok w2 →
      (events_since w w2).count Event.music_pipe_flush =
        match r with
        | .returned _ => 0
        | .selecting _ _ _ _ => 1 := by
  refine ⟨run_returns env fuel w r hopen, ?_⟩
  intro w2 hrun
  have hc := run_cases env fuel w w2 r hopen hrun
  cases r with
  | returned w1 =>
    simp only at hc ⊢
    subst hc
    rw [List.count_eq_zero]
    intro hm
    have := returned_events env fuel w w2 hopen _ hm
    simp [Event.is_opening] at this
  | selecting s uri is w1 =>
    obtain ⟨sel, hsel, hw2⟩ := hc
    subst hw2
    simp only
    rw [count_eq_count_essential Event.music_pipe_flush rfl, session_essential env fuel w w1 s uri is sel hopen hsel]
    unfold decode_events finish_events
    cases sel.plugin <;> cases sel.ret <;> cases sel.close_instream <;> simp

/-- C4, amended, at `env_stream` (selection reached: one flush) and at
`env_closed` (open failure: no flush). -/
theorem C4_flush_once_after_selection_witness :
    ((∃ w2, decoder_run env_stream 5 world_start = .ok w2) ∧
      ∀ w2, decoder_run env_stream 5 world_start = .ok w2 →
        (events_since world_start w2).count Event.music_pipe_flush = 1) ∧
    ((∃ w2, decoder_run env_closed 5 world_start = .ok w2) ∧
      ∀ w2, decoder_run env_closed 5 world_start = .ok w2 →
        (events_since world_start w2).count Event.music_pipe_flush = 0) :=
  ⟨⟨(C4_flush_once_after_selection env_stream 5 world_start
        (.selecting ⟨1⟩ "http://h/a.ogg" ⟨true, some "audio/x", 0⟩ world_stream_selecting)
        rfl).1 rfl,
     (C4_flush_once_after_selection env_stream 5 world_start
        (.selecting ⟨1⟩ "http://h/a.ogg" ⟨true, some "audio/x", 0⟩ world_stream_selecting)
        rfl).2⟩,
   ⟨(C4_flush_once_after_selection env_closed 5 world_start _ rfl).1 rfl,
    (C4_flush_once_after_selection env_closed 5 world_start
      (.returned (set_error DECODE_ERROR_FILE
        ((set_current_song world_start).emit (.input_stream_open "http://h/gone" false))))
      rfl).2⟩⟩

/-! ## C5 and C6: error classification -/

theorem finish_error (sel : Selected) :
    (decoder_run_finish sel).dc.error =
      if sel.ret then sel.w.dc.error
      else if sel.plugin.isNone then DECODE_ERROR_UNKTYPE else DECODE_ERROR_FILE := by
  unfold decoder_run_finish
  cases sel.ret <;> cases sel.close_instream <;> simp [set_error]

/-- C5 as stated fails: the default backend is called for a stream without
MIME type and suffix and returns false, and the error left in the control
block is `DECODE_ERROR_FILE`, the very value a session leaves whose locator
cannot be resolved and in which no plugin was called. -/
theorem C5_decode_failed_counterexample :
    ∃ w2 w3, decoder_run (env_unknown [plugin_mp3]) 5 world_start = .ok w2 ∧
      (events_since world_start w2).filter Event.is_decode = [Event.stream_decode "mp3" false] ∧
      decoder_run env_unresolved 5 world_start = .ok w3 ∧
      (events_since world_start w3).filter Event.is_decode = [] ∧
      w2.dc.error = DECODE_ERROR_FILE ∧ w3.dc.error = DECODE_ERROR_FILE :=
  ⟨_, _, rfl, by decide, rfl, by decide, rfl, rfl⟩

/-- C5, amended: when a decode entry (`stream_decode` or `file_decode`) of a
plugin was called in a session and returned false, the session records
`DECODE_ERROR_FILE`, the value also recorded when the URI cannot be resolved,
opened or read, and does not record `DECODE_ERROR_UNKTYPE`. -/
theorem C5_decode_failure_records_file_error (env : Env) (fuel : Nat) (w w2 : World)
    (n : String) (hrun : decoder_run env fuel w = .ok w2)
    (hfail : Event.stream_decode n false ∈ events_since w w2 ∨
      Event.file_decode n false ∈ events_since w w2) :
    w2.dc.error = DECODE_ERROR_FILE ∧
    Event.set_error DECODE_ERROR_FILE ∈ events_since w w2 ∧
    Event.set_error DECODE_ERROR_UNKTYPE ∉ events_since w w2 := by
  obtain ⟨r, hopen⟩ := run_open_of_run env fuel w w2 hrun
  have hc := run_cases env fuel w w2 r hopen hrun
  cases r with
  | returned w1 =>
    simp only at hc
    subst hc
    rcases hfail with h | h
    · have := returned_events env fuel w w2 hopen _ h
      simp [Event.is_opening] at this
    · have := returned_events env fuel w w2 hopen _ h
      simp [Event.is_opening] at this
  | selecting s uri is w1 =>
    obtain ⟨sel, hsel, hw2⟩ := hc
    subst hw2
    have hess := session_essential env fuel w w1 s uri is sel hopen hsel
    rw [mem_iff_mem_essential (Event.stream_decode n false) rfl,
      mem_iff_mem_essential (Event.file_decode n false) rfl,
      hess] at hfail
    rw [mem_iff_mem_essential (Event.set_error DECODE_ERROR_FILE) rfl,
      mem_iff_mem_essential (Event.set_error DECODE_ERROR_UNKTYPE) rfl, hess, finish_error]
    unfold decode_events finish_events at *
    cases hp : sel.plugin <;> cases hr : sel.ret <;> cases hci : sel.close_instream <;>
      simp [hp, hr, hci] at hfail ⊢

/-- C5, amended, at `env_unknown` with the default backend registered: its
stream-decode entry returns false and `DECODE_ERROR_FILE` is recorded. -/
theorem C5_decode_failure_records_file_error_witness :
    ∃ w2, decoder_run (env_unknown [plugin_mp3]) 5 world_start = .ok w2 ∧
      Event.stream_decode "mp3" false ∈ events_since world_start w2 ∧
      w2.dc.error = DECODE_ERROR_FILE ∧
      Event.set_error DECODE_ERROR_FILE ∈ events_since world_start w2 ∧
      Event.set_error DECODE_ERROR_UNKTYPE ∉ events_since world_start w2 :=
  ⟨_, rfl, by decide,
    C5_decode_failure_records_file_error (env_unknown [plugin_mp3]) 5 world_start _ "mp3" rfl
      (Or.inl (by decide))⟩

theorem filter_of_essential (f : Event → Bool) (hf : ∀ e, f e = true → e.is_essential = true)
    (t : List Event) :
    t.filter f = (t.filter Event.is_essential).filter f := by
  rw [List.filter_filter]
  apply List.filter_congr
  intro e _
  cases h : f e with
  | false => simp
  | true => simp [hf e h]

theorem is_decode_essential (e : Event) (h : e.is_decode = true) : e.is_essential = true := by
  cases e <;> simp_all [Event.is_decode, Event.is_essential, Event.is_search, Event.is_wait]

/-- C6: in a session that reaches plugin selection (stream or file-backed) and
returns, `DECODE_ERROR_UNKTYPE` is recorded if and only if no decode entry of
any plugin was called during the session, and the variable `plugin` is
non-null at the error classification exactly when a decode entry was called;
the session does return when the default backend, if registered, has a
stream-decode entry. -/
theorem C6_unktype_iff_no_decode (env : Env) (fuel : Nat) (w w1 : World) (s : song)
    (uri : String) (is : input_stream)
    (hreach : decoder_run_open env fuel w = .ok (.selecting s uri is w1)) :
    (default_backend_ok env.decoder_plugins = true → ∃ w2, decoder_run env fuel w = .ok w2) ∧
    ∀ w2, decoder_run env fuel w = .ok w2 →
      (Event.set_error DECODE_ERROR_UNKTYPE ∈ events_since w w2 ↔
        (events_since w w2).filter Event.is_decode = []) ∧
      ∃ sel, decoder_select env s uri is w1 = .ok sel ∧ w2 = decoder_run_finish sel ∧
        (sel.plugin.isSome = true ↔ (events_since w w2).filter Event.is_decode ≠ []) := by
  refine ⟨run_returns env fuel w _ hreach, ?_⟩
  intro w2 hrun
  obtain ⟨sel, hsel, hw2⟩ := run_cases env fuel w w2 _ hreach hrun
  subst hw2
  have hess := session_essential env fuel w w1 s uri is sel hreach hsel
  obtain ⟨_, -, -, hnone, -⟩ := select_summary env s uri is w1 sel hsel
  refine ⟨?_, sel, hsel, rfl, ?_⟩
  · rw [mem_iff_mem_essential (Event.set_error DECODE_ERROR_UNKTYPE) rfl,
      filter_of_essential _ is_decode_essential, hess]
    unfold decode_events finish_events
    by_cases hp : sel.plugin = none
    · obtain ⟨hr, hci⟩ := hnone hp
      simp [hp, hr, hci, Event.is_decode]
    · obtain ⟨p, hp2⟩ := Option.ne_none_iff_exists'.1 hp
      cases hr : sel.ret <;> cases hci : sel.close_instream <;> simp [hp2, Event.is_decode]
  · rw [filter_of_essential _ is_decode_essential, hess]
    unfold decode_events finish_events
    by_cases hp : sel.plugin = none
    · obtain ⟨hr, hci⟩ := hnone hp
      simp [hp, hr, hci, Event.is_decode]
    · obtain ⟨p, hp2⟩ := Option.ne_none_iff_exists'.1 hp
      cases hr : sel.ret <;> cases hci : sel.close_instream <;> simp [hp2, Event.is_decode]

/-- C6 at `env_unknown` with only `plugin_ogg` registered: nothing is decoded
and `DECODE_ERROR_UNKTYPE` is recorded. -/
theorem C6_unktype_iff_no_decode_witness :
    ∃ w2, decoder_run (env_unknown [plugin_ogg]) 5 world_start = .ok w2 ∧
      (Event.set_error DECODE_ERROR_UNKTYPE ∈ events_since world_start w2 ↔
        (events_since world_start w2).filter Event.is_decode = []) ∧
      Event.set_error DECODE_ERROR_UNKTYPE ∈ events_since world_start w2 :=
  ⟨_, rfl,
    ((C6_unktype_iff_no_decode (env_unknown [plugin_ogg]) 5 world_start
      world_unknown_selecting ⟨1⟩ "http://h/live" ⟨true, none, 0⟩ rfl).2 _ rfl).1,
    by decide⟩

/-! ## C8 and C9: the loop of `decoder_task` -/

theorem read_command_state (env : Env) (w : World) :
    (read_command env w).dc.state = w.dc.state := by
  unfold read_command
  cases env.controller w.tick <;> rfl

theorem task_assertion (env : Env) (fuel : Nat) (w w2 : World)
    (h : decoder_task_iteration env fuel w = .ok w2) : w.dc.state = DECODE_STATE_STOP := by
  unfold decoder_task_iteration at h
  by_cases hs : w.dc.state = DECODE_STATE_STOP
  · exact hs
  · rw [if_pos hs] at h
    simp at h

theorem task_iteration_state (env : Env) (fuel : Nat) (w w2 : World)
    (h : decoder_task_iteration env fuel w = .ok w2) : w2.dc.state = DECODE_STATE_STOP := by
  have hs := task_assertion env fuel w w2 h
  unfold decoder_task_iteration at h
  rw [if_neg (by simp [hs])] at h
  simp only at h
  cases hc : (read_command env w).dc.command with
  | DECODE_COMMAND_NONE =>
    simp only [hc, Except.ok.injEq] at h
    subst h
    simp [read_command_state, hs]
  | DECODE_COMMAND_STOP =>
    simp only [hc, Except.ok.injEq] at h
    subst h
    simp [set_command, read_command_state, hs]
  | DECODE_COMMAND_START =>
    simp only [hc] at h
    cases hr : decoder_run env fuel (read_command env w) with
    | error e => simp [hr] at h
    | ok w1 =>
      simp only [hr, Except.ok.injEq] at h
      subst h
      simp [set_command, set_state]
  | DECODE_COMMAND_SEEK =>
    simp only [hc] at h
    cases hr : decoder_run env fuel (read_command env w) with
    | error e => simp [hr] at h
    | ok w1 =>
      simp only [hr, Except.ok.injEq] at h
      subst h
      simp [set_command, set_state]

theorem wait_ready_error (env : Env) (fuel : Nat) :
    ∀ (is : input_stream) (w : World) (e : Fault),
      wait_ready env fuel is w = .error e → e = .out_of_fuel := by
  induction fuel with
  | zero =>
    intro is w e h
    unfold wait_ready at h
    cases hr : is.ready with
    | true => simp [hr] at h
    | false =>
      simp only [hr, Bool.false_eq_true, ↓reduceIte, Except.error.injEq] at h
      exact h.symm
  | succ n ih =>
    intro is w e h
    unfold wait_ready at h
    cases hr : is.ready with
    | true => simp [hr] at h
    | false =>
      simp only [hr, Bool.false_eq_true, ↓reduceIte] at h
      by_cases hc : (read_command env w).dc.command ≠ DECODE_COMMAND_NONE
      · rw [if_pos hc] at h
        simp at h
      · rw [if_neg hc] at h
        by_cases hb : (env.input_stream_buffer is).1 < 0
        · rw [if_pos hb] at h
          simp at h
        · rw [if_neg hb] at h
          exact ih _ _ e h

theorem open_error (env : Env) (fuel : Nat) (w : World) (e : Fault)
    (h : decoder_run_open env fuel w = .error e) : e = .null_song ∨ e = .out_of_fuel := by
  unfold decoder_run_open at h
  cases hs : w.dc.next_song with
  | none =>
    simp only [hs, Except.error.injEq] at h
    exact Or.inl h.symm
  | some s0 =>
    simp only [hs] at h
    cases hu : (if env.song_is_file s0 then env.map_song_fs s0 else env.song_get_url s0) with
    | none => simp [hu] at h
    | some uri0 =>
      simp only [hu] at h
      cases ho : env.input_stream_open uri0 with
      | none => simp [ho] at h
      | some is0 =>
        simp only [ho] at h
        cases hw : wait_ready env fuel is0 (((set_command DECODE_COMMAND_NONE
          (set_state DECODE_STATE_START ((set_current_song w).emit
            (.input_stream_open uri0 true)))).emit .notify_signal_pc)) with
        | error e2 =>
          simp only [hw, Except.error.injEq] at h
          subst h
          exact Or.inr (wait_ready_error env fuel _ _ _ hw)
        | ok x =>
          obtain ⟨o, w3⟩ := x
          cases o with
          | none => simp [hw] at h
          | some is2 =>
            simp only [hw] at h
            by_cases hc : (read_command env w3).dc.command = DECODE_COMMAND_STOP
            · rw [if_pos hc] at h
              simp at h
            · rw [if_neg hc] at h
              simp at h

theorem select_error (env : Env) (s : song) (uri : String) (is : input_stream) (w : World)
    (e : Fault) (h : decoder_select env s uri is w = .error e) : e = .null_function := by
  unfold decoder_select at h
  cases hf : env.song_is_file s with
  | true => simp [hf] at h
  | false =>
    simp only [hf, Bool.not_false, ↓reduceIte] at h
    obtain ⟨m, hml⟩ := mime_loop_total env.decoder_plugins ⟨false, false⟩
      env.decoder_plugins.length 0 is w (by omega)
    simp only [hml] at h
    cases hm : m.plugin with
    | some p => simp [hm] at h
    | none =>
      simp only [hm] at h
      generalize stream_loop Event.lookup_suffix ⟨false, false⟩
        (suffix_matches env.decoder_plugins (env.getSuffix uri)) 0 m.is m.w = x at h
      cases hx : x.plugin with
      | some p => simp [hx] at h
      | none =>
        simp only [hx] at h
        cases hn : decoder_plugin_from_name env.decoder_plugins "mp3" with
        | none => simp [hn] at h
        | some p =>
          simp only [hn] at h
          cases hsd : p.stream_decode with
          | none =>
            simp only [hsd, Except.error.injEq] at h
            exact h.symm
          | some sd => simp [hsd] at h

theorem run_error (env : Env) (fuel : Nat) (w : World) (e : Fault)
    (h : decoder_run env fuel w = .error e) : e ≠ .assertion_failed := by
  unfold decoder_run at h
  cases ho : decoder_run_open env fuel w with
  | error e2 =>
    simp only [ho, Except.error.injEq] at h
    subst h
    rcases open_error env fuel w e2 ho with h1 | h1 <;> simp [h1]
  | ok r =>
    cases r with
    | returned w1 => simp [ho] at h
    | selecting s uri is w1 =>
      simp only [ho] at h
      cases hsel : decoder_select env s uri is w1 with
      | error e2 =>
        simp only [hsel, Except.error.injEq] at h
        subst h
        simp [select_error env s uri is w1 e2 hsel]
      | ok sel => simp [hsel] at h

theorem task_iteration_no_assert (env : Env) (fuel : Nat) (w : World)
    (hs : w.dc.state = DECODE_STATE_STOP) :
    decoder_task_iteration env fuel w ≠ .error .assertion_failed := by
  unfold decoder_task_iteration
  rw [if_neg (by simp [hs])]
  simp only
  cases hc : (read_command env w).dc.command with
  | DECODE_COMMAND_NONE => simp
  | DECODE_COMMAND_STOP => simp
  | DECODE_COMMAND_START =>
    simp only
    cases hr : decoder_run env fuel (read_command env w) with
    | ok w1 => simp
    | error e =>
      simp only [ne_eq, Except.error.injEq]
      exact run_error env fuel _ e hr
  | DECODE_COMMAND_SEEK =>
    simp only
    cases hr : decoder_run env fuel (read_command env w) with
    | ok w1 => simp
    | error e =>
      simp only [ne_eq, Except.error.injEq]
      exact run_error env fuel _ e hr

theorem task_state (env : Env) (fuel : Nat) (n : Nat) :
    ∀ (w : World), w.dc.state = DECODE_STATE_STOP →
      decoder_task env fuel n w ≠ .error .assertion_failed ∧
      ∀ w2, decoder_task env fuel n w = .ok w2 → w2.dc.state = DECODE_STATE_STOP := by
  induction n with
  | zero =>
    intro w hs
    simp only [decoder_task, ne_eq, reduceCtorEq, not_false_eq_true, Except.ok.injEq,
      forall_eq', true_and]
    exact hs
  | succ n ih =>
    intro w hs
    unfold decoder_task
    cases hi : decoder_task_iteration env fuel w with
    | error e =>
      simp only [ne_eq, Except.error.injEq, reduceCtorEq, false_implies, implies_true,
        and_true]
      intro he
      subst he
      exact task_iteration_no_assert env fuel w hs hi
    | ok w1 =>
      exact ih w1 (task_iteration_state env fuel w w1 hi)

/-- C8: an iteration of the loop of `decoder_task` that starts stopped and
observes `START` or `SEEK` ends, whatever world `w1` the session run by
`decoder_run` returns, with state `STOP` and command `NONE`, and its last three
events are these two writes followed by the wake-up of the player; hence the
`assert` at the top of the loop never fails: from a stopped control block, no
number of iterations ends in a failed assertion, and the state after any number
of iterations is `STOP`. -/
theorem C8_iteration_ends_stopped (env : Env) (fuel : Nat) (w w1 : World)
    (hstop : w.dc.state = DECODE_STATE_STOP)
    (hcmd : (read_command env w).dc.command = DECODE_COMMAND_START ∨
      (read_command env w).dc.command = DECODE_COMMAND_SEEK)
    (hrun : decoder_run env fuel (read_command env w) = .ok w1) :
    (∃ w2, decoder_task_iteration env fuel w = .ok w2 ∧
      w2.dc.state = DECODE_STATE_STOP ∧ w2.dc.command = DECODE_COMMAND_NONE ∧
      w2.trace = w1.trace ++ [Event.set_state DECODE_STATE_STOP,
        Event.set_command DECODE_COMMAND_NONE, Event.notify_signal_pc]) ∧
    ∀ n, decoder_task env fuel n w ≠ .error .assertion_failed ∧
      ∀ w3, decoder_task env fuel n w = .ok w3 → w3.dc.state = DECODE_STATE_STOP := by
  refine ⟨⟨(set_command DECODE_COMMAND_NONE (set_state DECODE_STATE_STOP w1)).emit
    .notify_signal_pc, ?_, rfl, rfl, by simp [set_command, set_state]⟩,
    fun n => task_state env fuel n w hstop⟩
  unfold decoder_task_iteration
  rw [if_neg (by simp [hstop])]
  rcases hcmd with hc | hc <;> simp only [hc, hrun]

/-- C8 at `env_stream`: the session fails to decode, and the iteration still
ends stopped, with command `NONE`, after waking the player. -/
theorem C8_iteration_ends_stopped_witness :
    (∃ w2, decoder_task_iteration env_stream 5 world_start = .ok w2 ∧
      w2.dc.state = DECODE_STATE_STOP ∧ w2.dc.command = DECODE_COMMAND_NONE ∧
      ∃ w1, decoder_run env_stream 5 (read_command env_stream world_start) = .ok w1 ∧
        w1.dc.error = DECODE_ERROR_FILE ∧
        w2.trace = w1.trace ++ [Event.set_state DECODE_STATE_STOP,
          Event.set_command DECODE_COMMAND_NONE, Event.notify_signal_pc]) ∧
    ∀ n, decoder_task env_stream 5 n world_start ≠ .error .assertion_failed ∧
      ∀ w3, decoder_task env_stream 5 n world_start = .ok w3 →
        w3.dc.state = DECODE_STATE_STOP :=
  ⟨(C8_iteration_ends_stopped env_stream 5 world_start _ rfl (Or.inl rfl) rfl).1.imp
      (fun _ h => ⟨h.1, h.2.1, h.2.2.1, _, rfl, rfl, h.2.2.2⟩),
    (C8_iteration_ends_stopped env_stream 5 world_start _ rfl (Or.inl rfl) rfl).2⟩

/-- C9: an iteration of the loop of `decoder_task` that starts stopped and
observes the command `STOP` returns a world whose control block differs from
the one observed only in `command`, now `NONE` (state, current song, next song
and error are unchanged), and logs exactly the write of the command and one
wake-up of the player: `decoder_run` is not run, and no input stream, plugin or
pipe operation takes place. -/
theorem C9_stop_while_stopped (env : Env) (fuel : Nat) (w : World)
    (hstop : w.dc.state = DECODE_STATE_STOP)
    (hcmd : (read_command env w).dc.command = DECODE_COMMAND_STOP) :
    ∃ w2, decoder_task_iteration env fuel w = .ok w2 ∧
      w2.dc = { w.dc with command := DECODE_COMMAND_NONE } ∧
      w2.dc.state = w.dc.state ∧ w2.dc.current_song = w.dc.current_song ∧
      w2.dc.next_song = w.dc.next_song ∧ w2.dc.error = w.dc.error ∧
      w2.trace = (read_command env w).trace ++
        [Event.set_command DECODE_COMMAND_NONE, Event.notify_signal_pc] ∧
      (w2.trace.drop w.trace.length).count Event.notify_signal_pc = 1 ∧
      ∀ e ∈ w2.trace.drop w.trace.length,
        e = Event.controller_command DECODE_COMMAND_STOP ∨
        e = Event.set_command DECODE_COMMAND_NONE ∨ e = Event.notify_signal_pc := by
  have hit : decoder_task_iteration env fuel w =
      .ok ((set_command DECODE_COMMAND_NONE (read_command env w)).emit .notify_signal_pc) := by
    unfold decoder_task_iteration
    rw [if_neg (by simp [hstop])]
    simp only [hcmd]
  refine ⟨_, hit, ?_⟩
  unfold read_command at hcmd ⊢
  cases hctl : env.controller w.tick with
  | none => simp [set_command]
  | some c =>
    simp only [hctl, write_dc] at hcmd
    subst hcmd
    simp [set_command]

/-- C9 at a stopped control block with command `STOP`. -/
theorem C9_stop_while_stopped_witness :
    ∃ w2, decoder_task_iteration env_closed 5 world_stop_pending = .ok w2 ∧
      w2.dc = { dc_stop_pending with command := DECODE_COMMAND_NONE } ∧
      w2.trace = [Event.set_command DECODE_COMMAND_NONE, Event.notify_signal_pc] :=
  (C9_stop_while_stopped env_closed 5 world_stop_pending rfl rfl).imp
    (fun _ h => ⟨h.1, h.2.1, h.2.2.2.2.2.2.1⟩)

/-! ## C10: a stop during the readiness wait -/

theorem wait_ready_quiet (env : Env) (m : Nat) (k : Nat) :
    ∀ (is : input_stream) (w : World),
      w.dc.command = DECODE_COMMAND_NONE →
      (∀ i, i < k → env.controller (w.tick + i) = none ∧ (buffered env is i).ready = false ∧
        0 ≤ (env.input_stream_buffer (buffered env is i)).1) →
      wait_ready env (m + k) is w =
        wait_ready env m (buffered env is k) (w.waited (buffer_events env is k) k) := by
  induction k with
  | zero =>
    intro is w _ _
    simp [buffered, buffer_events, World.waited]
  | succ k ih =>
    intro is w hcmd hq
    obtain ⟨h1, h2, h3⟩ := hq 0 (Nat.succ_pos k)
    simp only [Nat.add_zero, buffered] at h1 h2 h3
    have hread : read_command env w = { w with tick := w.tick + 1 } := by
      simp [read_command, h1]
    rw [show m + (k + 1) = (m + k) + 1 from rfl]
    rw [wait_ready]
    simp only [h2, Bool.false_eq_true, ↓reduceIte, hread, hcmd, ne_eq, not_true_eq_false]
    rw [if_neg (by omega)]
    rw [ih]
    · congr 1
      simp only [World.waited, World.emit, buffer_events, buffered, World.mk.injEq, true_and,
        List.append_assoc, List.singleton_append]
      omega
    · exact hcmd
    · intro i hi
      have := hq (i + 1) (by omega)
      simp only [buffered] at this
      simp only [emit_tick]
      rw [show w.tick + 1 + i = w.tick + (i + 1) by omega]
      exact this

/-- C10: when the controller's `STOP` is what the engine finds at its
`(k+1)`-th read of `dc.command` in the session, after `k` rounds of the
readiness wait in which the stream was not ready, no command was pending and
the buffer call did not fail (the stream may or may not be ready at that
read), `decoder_run` returns, given fuel for `k+1` rounds; the error is as on
entry; and the session consists of publishing the song, opening the stream,
announcing the start, `k` buffer calls, the stop and the close of the input
stream: no probe and no decode entry is called. -/
theorem C10_stop_during_wait (env : Env) (fuel : Nat) (w : World) (s : song) (uri : String)
    (is0 : input_stream) (k : Nat)
    (hsong : w.dc.next_song = some s)
    (huri : (if env.song_is_file s then env.map_song_fs s else env.song_get_url s) = some uri)
    (hopen : env.input_stream_open uri = some is0)
    (hquiet : ∀ i, i < k → env.controller (w.tick + i) = none ∧
      (buffered env is0 i).ready = false ∧
      0 ≤ (env.input_stream_buffer (buffered env is0 i)).1)
    (hstop : env.controller (w.tick + k) = some DECODE_COMMAND_STOP)
    (hfuel : k < fuel) :
    ∃ w2, decoder_run env fuel w = .ok w2 ∧ w2.dc.error = w.dc.error ∧
      events_since w w2 =
        [Event.set_current_song (some s), Event.input_stream_open uri true,
          Event.set_state DECODE_STATE_START, Event.set_command DECODE_COMMAND_NONE,
          Event.notify_signal_pc] ++ buffer_events env is0 k ++
        [Event.controller_command DECODE_COMMAND_STOP, Event.input_stream_close] := by
  obtain ⟨m, rfl⟩ : ∃ m, fuel = (m + 1) + k := ⟨fuel - k - 1, by omega⟩
  have hq := wait_ready_quiet env (m + 1) k is0
    ((set_command DECODE_COMMAND_NONE (set_state DECODE_STATE_START
      ((set_current_song w).emit (.input_stream_open uri true)))).emit .notify_signal_pc)
    rfl hquiet
  have hread : ∀ W : World, W.tick = w.tick + k →
      read_command env W = { W.write (.controller_command DECODE_COMMAND_STOP)
        (fun d => { d with command := DECODE_COMMAND_STOP }) with tick := W.tick + 1 } := by
    intro W hW
    simp [read_command, hW, hstop]
  unfold decoder_run decoder_run_open
  simp only [hsong, huri, hopen, hq]
  cases hr : (buffered env is0 k).ready with
  | true =>
    rw [wait_ready]
    simp only [hr, ↓reduceIte]
    rw [hread _ (by simp [World.waited, set_command, set_state, set_current_song])]
    simp only [write_dc, ↓reduceIte]
    refine ⟨_, rfl, by simp [World.waited, set_command, set_state, set_current_song], ?_⟩
    apply events_since_append
    simp [World.waited, set_command, set_state, set_current_song, World.emit, World.write, hsong]
  | false =>
    rw [wait_ready]
    simp only [hr, Bool.false_eq_true, ↓reduceIte]
    rw [hread _ (by simp [World.waited, set_command, set_state, set_current_song])]
    simp only [write_dc, ne_eq, reduceCtorEq, not_false_eq_true, ↓reduceIte]
    refine ⟨_, rfl, by simp [World.waited, set_command, set_state, set_current_song], ?_⟩
    apply events_since_append
    simp [World.waited, set_command, set_state, set_current_song, World.emit, World.write, hsong]

/-- C10 at `env_slow`: the stop arrives after one buffer call, while the
stream is not yet ready. -/
theorem C10_stop_during_wait_witness :
    ∃ w2, decoder_run env_slow 5 world_start = .ok w2 ∧
      w2.dc.error = world_start.dc.error ∧
      events_since world_start w2 =
        [Event.set_current_song (some ⟨1⟩), Event.input_stream_open "http://h/slow" true,
          Event.set_state DECODE_STATE_START, Event.set_command DECODE_COMMAND_NONE,
          Event.notify_signal_pc] ++ buffer_events env_slow ⟨false, none, 0⟩ 1 ++
        [Event.controller_command DECODE_COMMAND_STOP, Event.input_stream_close] :=
  C10_stop_during_wait env_slow 5 world_start ⟨1⟩ "http://h/slow" ⟨false, none, 0⟩ 1 rfl rfl rfl
    (by decide) rfl (by decide)

/-! ## C7: the current song -/

theorem steady_refl (w : World) : Steady w w :=
  ⟨rfl, rfl, [], by simp, by simp⟩

theorem steady_trans (w w1 w2 : World) (h1 : Steady w w1) (h2 : Steady w1 w2) : Steady w w2 := by
  obtain ⟨a1, a2, ha, a3, a4⟩ := h1
  obtain ⟨b1, b2, hb, b3, b4⟩ := h2
  refine ⟨b1.trans a1, b2.trans a2, ha ++ hb, by rw [b3, a3, List.append_assoc], ?_⟩
  intro d hd
  rcases List.mem_append.1 hd with hd | hd
  · exact a4 d hd
  · rw [← a1, ← a2]
    exact b4 d hd

theorem steady_emit (w : World) (e : Event) : Steady w (w.emit e) :=
  ⟨rfl, rfl, [], by simp, by simp⟩

theorem steady_write (w : World) (e : Event) (f : decoder_control → decoder_control)
    (h1 : (f w.dc).current_song = w.dc.current_song) (h2 : (f w.dc).next_song = w.dc.next_song) :
    Steady w (w.write e f) :=
  ⟨h1, h2, [f w.dc], by simp, by simp [h1, h2]⟩

theorem steady_read_command (env : Env) (w : World) : Steady w (read_command env w) := by
  unfold read_command
  cases env.controller w.tick with
  | none => exact ⟨rfl, rfl, [], by simp, by simp⟩
  | some c => exact ⟨rfl, rfl, [{ w.dc with command := c }], by simp, by simp⟩

theorem steady_try_decode (p : decoder_plugin) (is : input_stream) (w : World) :
    Steady w (decoder_try_decode p is w).2.2 :=
  ⟨by simp, by simp, [], by simp, by simp⟩

theorem steady_run_decode (e : Bool → Event) (r : decode_result) (w : World) :
    Steady w (run_decode e r w) :=
  steady_write w _ _ rfl rfl

theorem steady_stream_loop (lk : Nat → Event) (dec : decoder) (ps : List decoder_plugin) :
    ∀ (n : Nat) (is : input_stream) (w : World), Steady w (stream_loop lk dec ps n is w).w := by
  induction ps with
  | nil =>
    intro n is w
    exact steady_emit w _
  | cons q qs ih =>
    intro n is w
    cases hsd : q.stream_decode with
    | none =>
      rw [stream_loop_cons_none lk dec q qs n is w hsd]
      exact steady_trans _ _ _ (steady_emit w _) (ih _ _ _)
    | some sd =>
      cases hpp : probe_passes q is with
      | false =>
        rw [stream_loop_cons_fail lk dec q qs n is w sd hsd hpp]
        exact steady_trans _ _ _ (steady_trans _ _ _ (steady_emit w _)
          (steady_try_decode q is _)) (ih _ _ _)
      | true =>
        rw [stream_loop_cons_hit lk dec q qs n is w sd hsd hpp]
        exact steady_trans _ _ _ (steady_trans _ _ _ (steady_emit w _)
          (steady_try_decode q is _)) (steady_run_decode _ _ _)

theorem steady_logged (w : World) (t : List Event) : Steady w (w.logged t) :=
  ⟨rfl, rfl, [], by simp, by simp⟩

theorem steady_mime_loop (reg : List decoder_plugin) (dec : decoder) (rounds next : Nat)
    (is : input_stream) (w : World) (l : Looped)
    (h : mime_loop reg dec rounds next is w = .ok l) : Steady w l.w := by
  obtain ⟨ts, -, h1 | ⟨p, r, -, -, h1⟩⟩ := mime_loop_cases reg dec rounds next is w l h
  · rw [h1.2]
    exact steady_logged w ts
  · rw [h1]
    exact steady_trans _ _ _ (steady_logged w ts) (steady_run_decode _ _ _)

theorem steady_file_loop (dec : decoder) (uri : String) (ps : List decoder_plugin) :
    ∀ (n : Nat) (is : input_stream) (w : World), Steady w (file_loop dec uri ps n is w).w := by
  induction ps with
  | nil =>
    intro n is w
    exact steady_emit w _
  | cons q qs ih =>
    intro n is w
    have hrec : Steady w (file_loop dec uri qs (n + 1) (probe_rewind q is)
        (decoder_try_decode q is (w.emit (.lookup_suffix n))).2.2).w :=
      steady_trans _ _ _ (steady_trans _ _ _ (steady_emit w _)
        (steady_try_decode q is _)) (ih _ _ _)
    cases hpp : probe_passes q is with
    | false =>
      rw [file_loop_cons_fail dec uri q qs n is w hpp]
      exact hrec
    | true =>
      cases hfd : q.file_decode with
      | some fd =>
        rw [file_loop_cons_file dec uri q qs n is w fd hpp hfd]
        exact steady_trans _ _ _ (steady_trans _ _ _ (steady_trans _ _ _ (steady_emit w _)
          (steady_try_decode q is _)) (steady_emit _ _)) (steady_run_decode _ _ _)
      | none =>
        cases hsd : q.stream_decode with
        | some sd =>
          rw [file_loop_cons_stream dec uri q qs n is w sd hpp hfd hsd]
          exact steady_trans _ _ _ (steady_trans _ _ _ (steady_emit w _)
            (steady_try_decode q is _)) (steady_run_decode _ _ _)
        | none =>
          rw [file_loop_cons_skip dec uri q qs n is w hfd hsd]
          exact hrec

theorem steady_select (env : Env) (s : song) (uri : String) (is : input_stream) (w : World)
    (sel : Selected) (h : decoder_select env s uri is w = .ok sel) : Steady w sel.w := by
  unfold decoder_select at h
  cases hf : env.song_is_file s with
  | true =>
    simp only [hf, Bool.not_true, Bool.false_eq_true, ↓reduceIte, Except.ok.injEq] at h
    subst h
    exact steady_file_loop _ _ _ _ _ _
  | false =>
    simp only [hf, Bool.not_false, ↓reduceIte] at h
    obtain ⟨m, hml⟩ := mime_loop_total env.decoder_plugins ⟨false, false⟩
      env.decoder_plugins.length 0 is w (by omega)
    simp only [hml] at h
    have hm := steady_mime_loop env.decoder_plugins ⟨false, false⟩
      env.decoder_plugins.length 0 is w m hml
    cases hmp : m.plugin with
    | some p =>
      simp only [hmp, Except.ok.injEq] at h
      subst h
      exact hm
    | none =>
      simp only [hmp] at h
      have hx := steady_stream_loop Event.lookup_suffix ⟨false, false⟩
        (suffix_matches env.decoder_plugins (env.getSuffix uri)) 0 m.is m.w
      generalize stream_loop Event.lookup_suffix ⟨false, false⟩
        (suffix_matches env.decoder_plugins (env.getSuffix uri)) 0 m.is m.w = x at h hx
      have hwx := steady_trans _ _ _ hm hx
      cases hxp : x.plugin with
      | some p =>
        simp only [hxp, Except.ok.injEq] at h
        subst h
        exact hwx
      | none =>
        simp only [hxp] at h
        cases hn : decoder_plugin_from_name env.decoder_plugins "mp3" with
        | none =>
          simp only [hn, Except.ok.injEq] at h
          subst h
          exact steady_trans _ _ _ hwx (steady_emit _ _)
        | some p =>
          simp only [hn] at h
          cases hsd : p.stream_decode with
          | none => simp [hsd] at h
          | some sd =>
            simp only [hsd, Except.ok.injEq] at h
            subst h
            exact steady_trans _ _ _ (steady_trans _ _ _ hwx (steady_emit _ _))
              (steady_run_decode _ _ _)

theorem steady_set_error (e : decoder_error) (w : World) : Steady w (set_error e w) :=
  steady_write w _ _ rfl rfl

theorem steady_finish (sel : Selected) : Steady sel.w (decoder_run_finish sel) := by
  unfold decoder_run_finish
  cases sel.ret <;> cases sel.close_instream <;>
    simp only [Bool.not_false, Bool.not_true, Bool.false_eq_true, ↓reduceIte]
  · exact steady_trans _ _ _ (steady_emit _ _) (steady_set_error _ _)
  · exact steady_trans _ _ _ (steady_trans _ _ _ (steady_emit _ _) (steady_set_error _ _))
      (steady_emit _ _)
  · exact steady_emit _ _
  · exact steady_trans _ _ _ (steady_emit _ _) (steady_emit _ _)

theorem steady_wait_ready (env : Env) (fuel : Nat) :
    ∀ (is : input_stream) (w : World) (o : Option input_stream) (w2 : World),
      wait_ready env fuel is w = .ok (o, w2) → Steady w w2 := by
  induction fuel with
  | zero =>
    intro is w o w2 h
    unfold wait_ready at h
    cases hr : is.ready with
    | true =>
      simp only [hr, ↓reduceIte, Except.ok.injEq, Prod.mk.injEq] at h
      rw [← h.2]
      exact steady_refl w
    | false => simp [hr] at h
  | succ n ih =>
    intro is w o w2 h
    unfold wait_ready at h
    cases hr : is.ready with
    | true =>
      simp only [hr, ↓reduceIte, Except.ok.injEq, Prod.mk.injEq] at h
      rw [← h.2]
      exact steady_refl w
    | false =>
      simp only [hr, Bool.false_eq_true, ↓reduceIte] at h
      by_cases hc : (read_command env w).dc.command ≠ DECODE_COMMAND_NONE
      · rw [if_pos hc] at h
        simp only [Except.ok.injEq, Prod.mk.injEq] at h
        rw [← h.2]
        exact steady_trans _ _ _ (steady_read_command env w) (steady_emit _ _)
      · rw [if_neg hc] at h
        by_cases hb : (env.input_stream_buffer is).1 < 0
        · rw [if_pos hb] at h
          simp only [Except.ok.injEq, Prod.mk.injEq] at h
          rw [← h.2]
          exact steady_trans _ _ _ (steady_trans _ _ _ (steady_trans _ _ _
            (steady_read_command env w) (steady_emit _ _)) (steady_emit _ _))
            (steady_set_error _ _)
        · rw [if_neg hb] at h
          exact steady_trans _ _ _ (steady_trans _ _ _ (steady_read_command env w)
            (steady_emit _ _)) (ih _ _ o w2 h)

theorem open_steady (env : Env) (fuel : Nat) (w : World) (r : Opened) (s : song) (uri : String)
    (hsong : w.dc.next_song = some s)
    (huri : (if env.song_is_file s then env.map_song_fs s else env.song_get_url s) = some uri)
    (h : decoder_run_open env fuel w = .ok r) : Steady (set_current_song w) r.world := by
  unfold decoder_run_open at h
  simp only [hsong, huri] at h
  cases ho : env.input_stream_open uri with
  | none =>
    simp only [ho, Except.ok.injEq] at h
    subst h
    exact steady_trans _ _ _ (steady_emit _ _) (steady_set_error _ _)
  | some is =>
    simp only [ho] at h
    have hpre : Steady (set_current_song w) (((set_command DECODE_COMMAND_NONE
        (set_state DECODE_STATE_START ((set_current_song w).emit
          (.input_stream_open uri true)))).emit .notify_signal_pc)) :=
      steady_trans _ _ _ (steady_trans _ _ _ (steady_trans _ _ _ (steady_emit _ _)
        (steady_write _ _ _ rfl rfl)) (steady_write _ _ _ rfl rfl)) (steady_emit _ _)
    cases hw : wait_ready env fuel is (((set_command DECODE_COMMAND_NONE
      (set_state DECODE_STATE_START ((set_current_song w).emit
        (.input_stream_open uri true)))).emit .notify_signal_pc)) with
    | error e => simp [hw] at h
    | ok x =>
      obtain ⟨o, w3⟩ := x
      have hwait := steady_trans _ _ _ hpre (steady_wait_ready env fuel _ _ o w3 hw)
      cases o with
      | none =>
        simp only [hw, Except.ok.injEq] at h
        subst h
        exact hwait
      | some is2 =>
        simp only [hw] at h
        by_cases hc : (read_command env w3).dc.command = DECODE_COMMAND_STOP
        · rw [if_pos hc] at h
          simp only [Except.ok.injEq] at h
          subst h
          exact steady_trans _ _ _ (steady_trans _ _ _ hwait (steady_read_command env w3))
            (steady_emit _ _)
        · rw [if_neg hc] at h
          simp only [Except.ok.injEq] at h
          subst h
          exact steady_trans _ _ _ hwait (steady_read_command env w3)

theorem run_steady (env : Env) (fuel : Nat) (w w2 : World) (s : song) (uri : String)
    (hsong : w.dc.next_song = some s)
    (huri : (if env.song_is_file s then env.map_song_fs s else env.song_get_url s) = some uri)
    (hrun : decoder_run env fuel w = .ok w2) : Steady (set_current_song w) w2 := by
  obtain ⟨r, hopen⟩ := run_open_of_run env fuel w w2 hrun
  have hs := open_steady env fuel w r s uri hsong huri hopen
  have hc := run_cases env fuel w w2 r hopen hrun
  cases r with
  | returned w1 =>
    simp only at hc
    subst hc
    exact hs
  | selecting s1 uri1 is w1 =>
    obtain ⟨sel, hsel, hw2⟩ := hc
    subst hw2
    exact steady_trans _ _ _ (steady_trans _ _ _ hs (steady_select env s1 uri1 is w1 sel hsel))
      (steady_finish sel)

theorem run_unresolved (env : Env) (fuel : Nat) (w : World) (s : song)
    (hsong : w.dc.next_song = some s)
    (huri : (if env.song_is_file s then env.map_song_fs s else env.song_get_url s) = none) :
    decoder_run env fuel w = .ok (set_error DECODE_ERROR_FILE w) := by
  unfold decoder_run decoder_run_open
  simp only [hsong, huri]

/-- The control block values a session writes: when the session starts
stopped, each of them is stopped or has a current song; the queued song is not
touched. -/
theorem run_history (env : Env) (fuel : Nat) (w w2 : World)
    (hstop : w.dc.state = DECODE_STATE_STOP) (hrun : decoder_run env fuel w = .ok w2) :
    w2.dc.next_song = w.dc.next_song ∧
    ∃ h, w2.history = w.history ++ h ∧
      ∀ d ∈ h, d.state ≠ DECODE_STATE_STOP → d.current_song ≠ none := by
  cases hsong : w.dc.next_song with
  | none =>
    unfold decoder_run decoder_run_open at hrun
    simp [hsong] at hrun
  | some s =>
    cases huri : (if env.song_is_file s then env.map_song_fs s else env.song_get_url s) with
    | none =>
      rw [run_unresolved env fuel w s hsong huri] at hrun
      simp only [Except.ok.injEq] at hrun
      subst hrun
      refine ⟨by simp [set_error, hsong], [{ w.dc with error := DECODE_ERROR_FILE }],
        by simp [set_error], ?_⟩
      intro d hd
      simp only [List.mem_singleton] at hd
      subst hd
      simp [hstop]
    | some uri =>
      obtain ⟨-, h2, h, h3, h4⟩ := run_steady env fuel w w2 s uri hsong huri hrun
      simp only [set_current_song, write_dc, write_history, hsong, List.append_assoc] at h2 h3 h4
      refine ⟨h2, _, h3, ?_⟩
      intro d hd
      simp only [List.singleton_append, List.mem_cons] at hd
      rcases hd with hd | hd
      · subst hd
        simp
      · simp [(h4 d hd).1]

theorem read_command_history (env : Env) (w : World) :
    (read_command env w).dc.next_song = w.dc.next_song ∧
    ∃ h, (read_command env w).history = w.history ++ h ∧ ∀ d ∈ h, d.state = w.dc.state := by
  unfold read_command
  cases env.controller w.tick with
  | none => exact ⟨rfl, [], by simp, by simp⟩
  | some c => exact ⟨rfl, [{ w.dc with command := c }], by simp, by simp⟩

theorem iteration_history (env : Env) (fuel : Nat) (w w2 : World)
    (h : decoder_task_iteration env fuel w = .ok w2) :
    ∃ h, w2.history = w.history ++ h ∧
      ∀ d ∈ h, d.state ≠ DECODE_STATE_STOP → d.current_song ≠ none := by
  have hs := task_assertion env fuel w w2 h
  obtain ⟨-, h0, hr0, hr1⟩ := read_command_history env w
  have hs1 : (read_command env w).dc.state = DECODE_STATE_STOP := by
    rw [read_command_state, hs]
  unfold decoder_task_iteration at h
  rw [if_neg (by simp [hs])] at h
  simp only at h
  have hsession : ∀ w1, decoder_run env fuel (read_command env w) = .ok w1 →
      ∃ h, ((set_command DECODE_COMMAND_NONE (set_state DECODE_STATE_STOP w1)).emit
          Event.notify_signal_pc).history = w.history ++ h ∧
        ∀ d ∈ h, d.state ≠ DECODE_STATE_STOP → d.current_song ≠ none := by
    intro w1 hr
    obtain ⟨-, h1, a1, a2⟩ := run_history env fuel _ w1 hs1 hr
    refine ⟨h0 ++ (h1 ++ [{ w1.dc with state := DECODE_STATE_STOP },
      { w1.dc with state := DECODE_STATE_STOP, command := DECODE_COMMAND_NONE }]),
      by simp [set_command, set_state, a1, hr0], ?_⟩
    intro d hd
    simp only [List.mem_append, List.mem_cons, List.mem_singleton, List.not_mem_nil,
      or_false] at hd
    rcases hd with hd | hd | hd | hd
    · simp [hr1 d hd, hs]
    · exact a2 d hd
    · subst hd; simp
    · subst hd; simp
  cases hc : (read_command env w).dc.command with
  | DECODE_COMMAND_NONE =>
    simp only [hc, Except.ok.injEq] at h
    subst h
    refine ⟨h0, by simp [hr0], ?_⟩
    intro d hd
    simp [hr1 d hd, hs]
  | DECODE_COMMAND_STOP =>
    simp only [hc, Except.ok.injEq] at h
    subst h
    refine ⟨h0 ++ [{ (read_command env w).dc with command := DECODE_COMMAND_NONE }],
      by simp [set_command, hr0], ?_⟩
    intro d hd
    simp only [List.mem_append, List.mem_singleton] at hd
    rcases hd with hd | hd
    · simp [hr1 d hd, hs]
    · subst hd
      simp [hs1]
  | DECODE_COMMAND_START =>
    simp only [hc] at h
    cases hr : decoder_run env fuel (read_command env w) with
    | error e => simp [hr] at h
    | ok w1 =>
      simp only [hr, Except.ok.injEq] at h
      subst h
      exact hsession w1 hr
  | DECODE_COMMAND_SEEK =>
    simp only [hc] at h
    cases hr : decoder_run env fuel (read_command env w) with
    | error e => simp [hr] at h
    | ok w1 =>
      simp only [hr, Except.ok.injEq] at h
      subst h
      exact hsession w1 hr

theorem task_history (env : Env) (fuel : Nat) (n : Nat) :
    ∀ (w w2 : World), decoder_task env fuel n w = .ok w2 →
      ∃ h, w2.history = w.history ++ h ∧
        ∀ d ∈ h, d.state ≠ DECODE_STATE_STOP → d.current_song ≠ none := by
  induction n with
  | zero =>
    intro w w2 h
    simp only [decoder_task, Except.ok.injEq] at h
    subst h
    exact ⟨[], by simp, by simp⟩
  | succ n ih =>
    intro w w2 h
    unfold decoder_task at h
    cases hi : decoder_task_iteration env fuel w with
    | error e => simp [hi] at h
    | ok w1 =>
      simp only [hi] at h
      obtain ⟨h1, a1, a2⟩ := iteration_history env fuel w w1 hi
      obtain ⟨h2, b1, b2⟩ := ih w1 w2 h
      refine ⟨h1 ++ h2, by rw [b1, a1, List.append_assoc], ?_⟩
      intro d hd
      rcases List.mem_append.1 hd with hd | hd
      · exact a2 d hd
      · exact b2 d hd

/-- C7 as stated fails: after one iteration of `decoder_task` that ran a
session, the state is `STOP` while `current_song` still holds the song of the
session, so "non-null iff not stopped" does not hold. -/
theorem C7_current_song_counterexample :
    ∃ w2, decoder_task_iteration env_stream 5 world_start = .ok w2 ∧
      w2.dc.state = DECODE_STATE_STOP ∧ w2.dc.current_song = some ⟨1⟩ ∧
      ¬ (w2.dc.current_song ≠ none ↔ w2.dc.state ≠ DECODE_STATE_STOP) :=
  ⟨_, rfl, rfl, rfl, by decide⟩

/-- C7, amended: from a stopped control block, every value the control block
takes during any number of iterations of `decoder_task` (inside the sessions
and between them) has a current song whenever its state is not `STOP`, and the
state after the iterations is `STOP`; the converse fails, as `current_song` is
never cleared: a further iteration that runs a session for a song whose
locator resolves ends with state `STOP` and `current_song` that song. -/
theorem C7_busy_implies_current_song (env : Env) (fuel : Nat) (n : Nat) (w w2 : World)
    (hstop : w.dc.state = DECODE_STATE_STOP)
    (hrun : decoder_task env fuel n w = .ok w2) :
    (∀ d ∈ w2.history.drop w.history.length,
      d.state ≠ DECODE_STATE_STOP → d.current_song ≠ none) ∧
    w2.dc.state = DECODE_STATE_STOP ∧
    ∀ w3 s uri, decoder_task_iteration env fuel w2 = .ok w3 →
      ((read_command env w2).dc.command = DECODE_COMMAND_START ∨
        (read_command env w2).dc.command = DECODE_COMMAND_SEEK) →
      w2.dc.next_song = some s →
      (if env.song_is_file s then env.map_song_fs s else env.song_get_url s) = some uri →
      w3.dc.state = DECODE_STATE_STOP ∧ w3.dc.current_song = some s := by
  obtain ⟨h, h1, h2⟩ := task_history env fuel n w w2 hrun
  have hs2 := (task_state env fuel n w hstop).2 w2 hrun
  refine ⟨by simpa [h1] using h2, hs2, ?_⟩
  intro w3 s uri hit hcmd hsong huri
  refine ⟨task_iteration_state env fuel w2 w3 hit, ?_⟩
  have hsong1 : (read_command env w2).dc.next_song = some s := by
    rw [(read_command_history env w2).1, hsong]
  unfold decoder_task_iteration at hit
  rw [if_neg (by simp [hs2])] at hit
  have key : ∀ w1, decoder_run env fuel (read_command env w2) = .ok w1 →
      w1.dc.current_song = some s := by
    intro w1 hr
    have := (run_steady env fuel _ w1 s uri hsong1 huri hr).1
    simpa [set_current_song, hsong1] using this
  rcases hcmd with hc | hc
  · simp only [hc] at hit
    cases hr : decoder_run env fuel (read_command env w2) with
    | error e => simp [hr] at hit
    | ok w1 =>
      simp only [hr, Except.ok.injEq] at hit
      subst hit
      simpa [set_command, set_state] using key w1 hr
  · simp only [hc] at hit
    cases hr : decoder_run env fuel (read_command env w2) with
    | error e => simp [hr] at hit
    | ok w1 =>
      simp only [hr, Except.ok.injEq] at hit
      subst hit
      simpa [set_command, set_state] using key w1 hr

/-- C7, amended, at `env_stream`: one iteration from `world_start`, whose
session passes through the state `START` with the current song set and ends
stopped with the current song still set. -/
theorem C7_busy_implies_current_song_witness :
    ∃ w2, decoder_task env_stream 5 1 world_start = .ok w2 ∧
      (∀ d ∈ w2.history.drop world_start.history.length,
        d.state ≠ DECODE_STATE_STOP → d.current_song ≠ none) ∧
      w2.dc.state = DECODE_STATE_STOP ∧ w2.dc.current_song = some ⟨1⟩ ∧
      { dc_start with state := DECODE_STATE_START, current_song := some ⟨1⟩ } ∈ w2.history :=
  ⟨_, rfl, (C7_busy_implies_current_song env_stream 5 1 world_start _ rfl rfl).1,
    (C7_busy_implies_current_song env_stream 5 1 world_start _ rfl rfl).2.1, rfl, by decide⟩
/-! ## The lists the loops walk and the registry lookups -/

theorem lookup_enumerates (ps : List decoder_plugin) (next : Nat) :
    ps.drop next = match ps[next]? with
      | none => []
      | some p => p :: ps.drop (next + 1) := by
  induction ps generalizing next with
  | nil => simp
  | cons q qs ih =>
    cases next with
    | zero => simp
    | succ k => simpa using ih k

/-- For one MIME type, the list of its matches is the sequence of results of
`decoder_plugin_from_mime_type(mime, next)` for `next = 0, 1, ...`. -/
theorem mime_lookup_enumerates (reg : List decoder_plugin) (mime : Option String) (next : Nat) :
    (mime_matches reg mime).drop next =
      match decoder_plugin_from_mime_type reg mime next with
      | none => []
      | some p => p :: (mime_matches reg mime).drop (next + 1) :=
  lookup_enumerates _ next

/-- The list the suffix loops of `decoder_run` walk is the sequence of results
of `decoder_plugin_from_suffix(suffix, next)` for `next = 0, 1, ...`. -/
theorem suffix_lookup_enumerates (reg : List decoder_plugin) (suffix : Option String)
    (next : Nat) :
    (suffix_matches reg suffix).drop next =
      match decoder_plugin_from_suffix reg suffix next with
      | none => []
      | some p => p :: (suffix_matches reg suffix).drop (next + 1) :=
  lookup_enumerates _ next

theorem mime_matches_sub (reg : List decoder_plugin) (mime : Option String) (q : decoder_plugin)
    (h : q ∈ mime_matches reg mime) : q ∈ reg := by
  unfold mime_matches at h
  cases mime with
  | none => simp at h
  | some m => exact (List.mem_filter.1 h).1

theorem stream_after_mime (reg : List decoder_plugin)
    (hst : ∀ q ∈ reg, ∀ i, (stream_skip q i).mime = i.mime) (ps : List decoder_plugin) :
    ∀ (is : input_stream), (∀ q ∈ ps, q ∈ reg) → (stream_after ps is).mime = is.mime := by
  induction ps with
  | nil =>
    intro is _
    rfl
  | cons q qs ih =>
    intro is h
    simp only [stream_after]
    rw [ih _ (fun x hx => h x (List.mem_cons_of_mem _ hx)), hst q (h q (List.mem_cons_self _ _))]

/-- With probes that leave the MIME type the stream reports alone, the MIME
loop walks the list of the plugins that match the MIME type the stream reports
at the start of selection: when the loop turns down the plugins `ps` that the
list holds from the index `next` on, these are the plugins its lookups
return. -/
theorem mime_rejects_stable (reg : List decoder_plugin)
    (hst : ∀ q ∈ reg, ∀ i, (stream_skip q i).mime = i.mime) (ps : List decoder_plugin) :
    ∀ (next : Nat) (is : input_stream) (rest : List decoder_plugin),
      (mime_matches reg is.mime).drop next = ps ++ rest →
      stream_rejects_all ps is = true →
      mime_rejects reg ps.length next is = some (stream_after ps is) := by
  induction ps with
  | nil =>
    intro next is rest _ _
    rfl
  | cons q qs ih =>
    intro next is rest hd hrej
    simp only [stream_rejects_all, Bool.and_eq_true, Bool.not_eq_true'] at hrej
    have he := mime_lookup_enumerates reg is.mime next
    rw [hd] at he
    cases hl : decoder_plugin_from_mime_type reg is.mime next with
    | none => simp [hl] at he
    | some p =>
      simp only [hl, List.cons_append, List.cons.injEq] at he
      obtain ⟨hq, hrest⟩ := he
      subst hq
      have hmem : q ∈ reg := by
        apply mime_matches_sub reg is.mime
        have : q ∈ (mime_matches reg is.mime).drop next := by rw [hd]; simp
        exact List.mem_of_mem_drop this
      have hm : (stream_skip q is).mime = is.mime := hst q hmem is
      simp only [List.length_cons, mime_rejects, hl, hrej.1, Bool.false_eq_true, ↓reduceIte,
        stream_after]
      exact ih (next + 1) (stream_skip q is) rest (by rw [hm]; exact hrest.symm) hrej.2

/-! ## C11, C12 and C19: the sessions that end before plugin selection -/

/-- C11: when the locator lookup (`map_song_fs` for a file-backed song,
`song_get_url` otherwise) yields no URI, `decoder_run` returns, and the only
thing the session does is the write `dc.error = DECODE_ERROR_FILE`: no input
stream is opened or closed, no plugin and no pipe call is made, and
`current_song`, state and command are as on entry. -/
theorem C11_unresolved_locator (env : Env) (fuel : Nat) (w : World) (s : song)
    (hsong : w.dc.next_song = some s)
    (huri : (if env.song_is_file s then env.map_song_fs s else env.song_get_url s) = none) :
    ∃ w2, decoder_run env fuel w = .ok w2 ∧
      events_since w w2 = [Event.set_error DECODE_ERROR_FILE] ∧
      w2.dc = { w.dc with error := DECODE_ERROR_FILE } ∧
      w2.dc.current_song = w.dc.current_song ∧ w2.dc.state = w.dc.state ∧
      w2.dc.command = w.dc.command := by
  refine ⟨_, run_unresolved env fuel w s hsong huri, ?_, rfl, rfl, rfl, rfl⟩
  apply events_since_append
  simp [set_error]

/-- C11 at `env_unresolved`. -/
theorem C11_unresolved_locator_witness :
    ∃ w2, decoder_run env_unresolved 5 world_start = .ok w2 ∧
      events_since world_start w2 = [Event.set_error DECODE_ERROR_FILE] ∧
      w2.dc = { dc_start with error := DECODE_ERROR_FILE } :=
  (C11_unresolved_locator env_unresolved 5 world_start ⟨1⟩ rfl rfl).imp
    (fun _ h => ⟨h.1, h.2.1, h.2.2.1⟩)

/-- C12: when the input stream cannot be opened, `decoder_run` returns with
`DECODE_ERROR_FILE` after publishing the song and the failed open; when,
after `k` quiet rounds of the readiness wait, with no command pending and the
stream not ready, `input_stream_buffer` returns a negative value,
`decoder_run` returns (given fuel for `k+1` rounds) with `DECODE_ERROR_FILE`
after closing the input stream. In both cases the session contains no lookup,
no probe, no decode entry and no flush. -/
theorem C12_open_or_read_failure (env : Env) (fuel : Nat) (w : World) (s : song) (uri : String)
    (hsong : w.dc.next_song = some s)
    (huri : (if env.song_is_file s then env.map_song_fs s else env.song_get_url s) = some uri) :
    (env.input_stream_open uri = none →
      ∃ w2, decoder_run env fuel w = .ok w2 ∧ w2.dc.error = DECODE_ERROR_FILE ∧
        events_since w w2 =
          [Event.set_current_song (some s), Event.input_stream_open uri false,
            Event.set_error DECODE_ERROR_FILE]) ∧
    (∀ is0 k, env.input_stream_open uri = some is0 →
      (∀ i, i < k → env.controller (w.tick + i) = none ∧
        (buffered env is0 i).ready = false ∧
        0 ≤ (env.input_stream_buffer (buffered env is0 i)).1) →
      env.controller (w.tick + k) = none →
      (buffered env is0 k).ready = false →
      (env.input_stream_buffer (buffered env is0 k)).1 < 0 →
      k < fuel →
      ∃ w2, decoder_run env fuel w = .ok w2 ∧ w2.dc.error = DECODE_ERROR_FILE ∧
        events_since w w2 =
          [Event.set_current_song (some s), Event.input_stream_open uri true,
            Event.set_state DECODE_STATE_START, Event.set_command DECODE_COMMAND_NONE,
            Event.notify_signal_pc] ++ buffer_events env is0 k ++
          [Event.input_stream_buffer (env.input_stream_buffer (buffered env is0 k)).1,
            Event.input_stream_close, Event.set_error DECODE_ERROR_FILE]) := by
  constructor
  · intro hopen
    have hrun : decoder_run env fuel w = .ok (set_error DECODE_ERROR_FILE
        ((set_current_song w).emit (.input_stream_open uri false))) := by
      unfold decoder_run decoder_run_open
      simp only [hsong, huri, hopen]
    refine ⟨_, hrun, rfl, ?_⟩
    apply events_since_append
    simp [set_error, set_current_song, hsong]
  · intro is0 k hopen hquiet hnone hready hneg hfuel
    obtain ⟨m, rfl⟩ : ∃ m, fuel = (m + 1) + k := ⟨fuel - k - 1, by omega⟩
    have hq := wait_ready_quiet env (m + 1) k is0
      ((set_command DECODE_COMMAND_NONE (set_state DECODE_STATE_START
        ((set_current_song w).emit (.input_stream_open uri true)))).emit .notify_signal_pc)
      rfl hquiet
    have hread : ∀ W : World, W.tick = w.tick + k →
        read_command env W = { W with tick := W.tick + 1 } := by
      intro W hW
      simp [read_command, hW, hnone]
    unfold decoder_run decoder_run_open
    simp only [hsong, huri, hopen, hq]
    rw [wait_ready]
    simp only [hready, Bool.false_eq_true, ↓reduceIte]
    rw [hread _ (by simp [World.waited, set_command, set_state, set_current_song])]
    rw [if_neg (by simp [World.waited, set_command, set_state, set_current_song])]
    rw [if_pos hneg]
    refine ⟨_, rfl, by simp [set_error], ?_⟩
    apply events_since_append
    simp [World.waited, set_command, set_state, set_current_song, set_error, World.emit,
      World.write, hsong]

/-- C12 at `env_closed` (the open fails) and at `env_broken` (the first buffer
call fails). -/
theorem C12_open_or_read_failure_witness :
    (∃ w2, decoder_run env_closed 5 world_start = .ok w2 ∧ w2.dc.error = DECODE_ERROR_FILE ∧
      events_since world_start w2 =
        [Event.set_current_song (some ⟨1⟩), Event.input_stream_open "http://h/gone" false,
          Event.set_error DECODE_ERROR_FILE]) ∧
    (∃ w2, decoder_run env_broken 5 world_start = .ok w2 ∧ w2.dc.error = DECODE_ERROR_FILE ∧
      events_since world_start w2 =
        [Event.set_current_song (some ⟨1⟩), Event.input_stream_open "http://h/broken" true,
          Event.set_state DECODE_STATE_START, Event.set_command DECODE_COMMAND_NONE,
          Event.notify_signal_pc] ++ buffer_events env_broken ⟨false, none, 0⟩ 0 ++
        [Event.input_stream_buffer (-1), Event.input_stream_close,
          Event.set_error DECODE_ERROR_FILE]) :=
  ⟨(C12_open_or_read_failure env_closed 5 world_start ⟨1⟩ "http://h/gone" rfl rfl).1 rfl,
   (C12_open_or_read_failure env_broken 5 world_start ⟨1⟩ "http://h/broken" rfl rfl).2
      ⟨false, none, 0⟩ 0 rfl (by decide) rfl rfl (by decide) (by decide)⟩

/-- C19: when, after `k` quiet rounds of the readiness wait, the stream is
still not ready and the engine finds a command other than `NONE` (`SEEK` as
well as `STOP`) at its next read of `dc.command`, `decoder_run` returns, given
fuel for `k+1` rounds; the session ends with the close of the input stream
right after that read, without a further buffer call, without any lookup,
probe, decode entry or flush, and with the error as on entry. -/
theorem C19_command_ends_wait (env : Env) (fuel : Nat) (w : World) (s : song) (uri : String)
    (is0 : input_stream) (k : Nat) (c : decoder_command)
    (hsong : w.dc.next_song = some s)
    (huri : (if env.song_is_file s then env.map_song_fs s else env.song_get_url s) = some uri)
    (hopen : env.input_stream_open uri = some is0)
    (hquiet : ∀ i, i < k → env.controller (w.tick + i) = none ∧
      (buffered env is0 i).ready = false ∧
      0 ≤ (env.input_stream_buffer (buffered env is0 i)).1)
    (hready : (buffered env is0 k).ready = false)
    (hcmd : env.controller (w.tick + k) = some c)
    (hc : c ≠ DECODE_COMMAND_NONE)
    (hfuel : k < fuel) :
    ∃ w2, decoder_run env fuel w = .ok w2 ∧ w2.dc.error = w.dc.error ∧
      events_since w w2 =
        [Event.set_current_song (some s), Event.input_stream_open uri true,
          Event.set_state DECODE_STATE_START, Event.set_command DECODE_COMMAND_NONE,
          Event.notify_signal_pc] ++ buffer_events env is0 k ++
        [Event.controller_command c, Event.input_stream_close] := by
  obtain ⟨m, rfl⟩ : ∃ m, fuel = (m + 1) + k := ⟨fuel - k - 1, by omega⟩
  have hq := wait_ready_quiet env (m + 1) k is0
    ((set_command DECODE_COMMAND_NONE (set_state DECODE_STATE_START
      ((set_current_song w).emit (.input_stream_open uri true)))).emit .notify_signal_pc)
    rfl hquiet
  have hread : ∀ W : World, W.tick = w.tick + k →
      read_command env W = { W.write (.controller_command c)
        (fun d => { d with command := c }) with tick := W.tick + 1 } := by
    intro W hW
    simp [read_command, hW, hcmd]
  unfold decoder_run decoder_run_open
  simp only [hsong, huri, hopen, hq]
  rw [wait_ready]
  simp only [hready, Bool.false_eq_true, ↓reduceIte]
  rw [hread _ (by simp [World.waited, set_command, set_state, set_current_song])]
  rw [if_pos (by simpa using hc)]
  refine ⟨_, rfl, by simp [World.waited, set_command, set_state, set_current_song], ?_⟩
  apply events_since_append
  simp [World.waited, set_command, set_state, set_current_song, World.emit, World.write, hsong]

/-- C19 at `env_seek`: a `SEEK` arrives after one buffer call, while the
stream is not yet ready. -/
theorem C19_command_ends_wait_witness :
    ∃ w2, decoder_run env_seek 5 world_start = .ok w2 ∧
      w2.dc.error = world_start.dc.error ∧
      events_since world_start w2 =
        [Event.set_current_song (some ⟨1⟩), Event.input_stream_open "http://h/slow" true,
          Event.set_state DECODE_STATE_START, Event.set_command DECODE_COMMAND_NONE,
          Event.notify_signal_pc] ++ buffer_events env_seek ⟨false, none, 0⟩ 1 ++
        [Event.controller_command DECODE_COMMAND_SEEK, Event.input_stream_close] :=
  C19_command_ends_wait env_seek 5 world_start ⟨1⟩ "http://h/slow" ⟨false, none, 0⟩ 1
    DECODE_COMMAND_SEEK rfl rfl rfl (by decide) rfl rfl (by decide) (by decide)

/-! ## C13: the probe and the rewind -/

/-- C13: for every plugin and input stream, `decoder_try_decode` returns, for
a plugin with a probe, exactly the result of the probe, leaves the stream
rewound at offset 0, logs the probe and the seek and does not touch the
control block; for a plugin without probe it returns true and touches
nothing. Consequently, over a source model in which seeking to offset 0
after the probe gives back the source at its start, the stream left by a
probe is the source rewound to its start, and for a source at its start the
stream and control block handed to a decode entry after `decoder_try_decode`
are those before it, so the decode entry returns what it returns when run
alone. -/
theorem C13_probe_isolation (p : decoder_plugin) (is : input_stream) (w : World) :
    (∀ f, p.try_decode = some f →
      (decoder_try_decode p is w).1 = (f is).1 ∧
      (decoder_try_decode p is w).2.1 = input_stream_seek (f is).2 0 ∧
      (decoder_try_decode p is w).2.1.offset = 0 ∧
      (decoder_try_decode p is w).2.2.dc = w.dc ∧
      (decoder_try_decode p is w).2.2.trace =
        w.trace ++ [Event.try_decode p.name (f is).1, Event.input_stream_seek]) ∧
    (p.try_decode = none → decoder_try_decode p is w = (true, is, w)) ∧
    ((∀ f, p.try_decode = some f → input_stream_seek (f is).2 0 = input_stream_seek is 0) →
      (p.try_decode.isSome = true →
        (decoder_try_decode p is w).2.1 = input_stream_seek is 0) ∧
      (is.offset = 0 → (decoder_try_decode p is w).2.1 = is) ∧
      (is.offset = 0 →
        ∀ (sd : decoder → input_stream → decoder_control → decode_result) (dec : decoder),
          sd dec (decoder_try_decode p is w).2.1 (decoder_try_decode p is w).2.2.dc =
            sd dec is w.dc) ∧
      (∀ (fd : decoder → String → decoder_control → decode_result) (dec : decoder)
        (uri : String),
        fd dec uri (decoder_try_decode p is w).2.2.dc = fd dec uri w.dc)) := by
  refine ⟨?_, ?_, ?_⟩
  · intro f hf
    simp [decoder_try_decode, hf, input_stream_seek]
  · intro hf
    simp [decoder_try_decode, hf]
  · intro hmodel
    have hsame : is.offset = 0 → (decoder_try_decode p is w).2.1 = is := by
      intro hstart
      cases hf : p.try_decode with
      | none => simp [decoder_try_decode, hf]
      | some f =>
        have h := hmodel f hf
        simp only [decoder_try_decode, hf, h]
        simp [input_stream_seek, ← hstart]
    refine ⟨?_, hsame, ?_, ?_⟩
    · intro hsome
      obtain ⟨f, hf⟩ := Option.isSome_iff_exists.1 hsome
      simp only [decoder_try_decode, hf, hmodel f hf]
    · intro hstart sd dec
      rw [hsame hstart, decoder_try_decode_dc]
    · intro fd dec uri
      rw [decoder_try_decode_dc]

/-- C13 at `plugin_x`, whose probe reads four bytes, on a stream at its
start. -/
theorem C13_probe_isolation_witness :
    (decoder_try_decode plugin_x ⟨true, some "audio/x", 0⟩ world_start).2.1 =
      ⟨true, some "audio/x", 0⟩ ∧
    (∀ (sd : decoder → input_stream → decoder_control → decode_result) (dec : decoder),
      sd dec (decoder_try_decode plugin_x ⟨true, some "audio/x", 0⟩ world_start).2.1
          (decoder_try_decode plugin_x ⟨true, some "audio/x", 0⟩ world_start).2.2.dc =
        sd dec ⟨true, some "audio/x", 0⟩ world_start.dc) :=
  ⟨((C13_probe_isolation plugin_x ⟨true, some "audio/x", 0⟩ world_start).2.2
      (fun f hf => by cases hf; rfl)).2.1 rfl,
   ((C13_probe_isolation plugin_x ⟨true, some "audio/x", 0⟩ world_start).2.2
      (fun f hf => by cases hf; rfl)).2.2.1 rfl⟩

/-! ## C14: the suffix stage of the stream branch -/

theorem stream_loop_rejected (lk : Nat → Event) (hlk : ∀ n, (lk n).is_lookup = true)
    (dec : decoder) (ps : List decoder_plugin) :
    ∀ (n : Nat) (is : input_stream) (w : World),
      stream_rejects_all ps is = true →
      (stream_loop lk dec ps n is w).plugin = none ∧
      (stream_loop lk dec ps n is w).is = stream_after ps is ∧
      ∃ t, (stream_loop lk dec ps n is w).w.trace = w.trace ++ t ∧
        t.filter Event.is_lookup = (List.range' n (ps.length + 1)).map lk := by
  induction ps with
  | nil =>
    intro n is w _
    exact ⟨rfl, rfl, [lk n], by simp [stream_loop], by simp [hlk, List.range']⟩
  | cons q qs ih =>
    intro n is w hrej
    simp only [stream_rejects_all, Bool.and_eq_true, Bool.not_eq_true'] at hrej
    simp only [stream_after]
    cases hq : q.stream_decode with
    | none =>
      rw [stream_loop_cons_none lk dec q _ n is w hq]
      have hskip : stream_skip q is = is := by simp [stream_skip, hq]
      rw [hskip] at hrej ⊢
      obtain ⟨h1, h2, t, h3, h4⟩ := ih (n + 1) is (w.emit (lk n)) hrej.2
      refine ⟨h1, h2, lk n :: t, by simp [h3], ?_⟩
      simp [hlk, h4, List.range']
    | some sq =>
      have hskip : stream_skip q is = probe_rewind q is := by simp [stream_skip, hq]
      have hfail : probe_passes q is = false := by
        have := hrej.1
        simpa [stream_accepts, hq] using this
      rw [hskip] at hrej ⊢
      rw [stream_loop_cons_fail lk dec q _ n is w sq hq hfail]
      obtain ⟨h1, h2, t, h3, h4⟩ := ih (n + 1) (probe_rewind q is)
        (decoder_try_decode q is (w.emit (lk n))).2.2 hrej.2
      refine ⟨h1, h2, lk n :: (probe_events q is ++ t), by simp [h3], ?_⟩
      simp [hlk, h4, List.range', probe_events_lookup]

theorem finish_events_lookup (sel : Selected) :
    (finish_events sel).filter Event.is_lookup = [] := by
  unfold finish_events
  cases sel.ret <;> cases sel.close_instream <;> cases sel.plugin <;> rfl

theorem finish_events_decode (sel : Selected) :
    (finish_events sel).filter Event.is_decode = [] := by
  unfold finish_events
  cases sel.ret <;> cases sel.close_instream <;> cases sel.plugin <;> rfl

theorem mime_skip_all_lookups (reg : List decoder_plugin) (k : Nat) (is isk : input_stream)
    (h : mime_rejects reg k 0 is = some isk) :
    (mime_skip_events reg k 0 is ++ [Event.lookup_mime k]).filter Event.is_lookup =
      (List.range (k + 1)).map Event.lookup_mime := by
  have hlk : (Event.lookup_mime k).is_lookup = true := rfl
  rw [List.filter_append, mime_skip_lookups reg k 0 is isk h]
  simp [hlk, List.range_eq_range', List.range'_concat]

theorem mime_skip_not_search (reg : List decoder_plugin) (k : Nat) (is : input_stream) :
    (mime_skip_events reg k 0 is ++ [Event.lookup_mime k]).filter (fun e => !e.is_search) =
      [] := by
  rw [List.filter_eq_nil_iff]
  intro e he
  rcases List.mem_append.1 he with he | he
  · simp [mime_skip_search reg k 0 is e he]
  · simp only [List.mem_singleton] at he
    subst he
    simp [Event.is_search]

/-- C14: in a stream session that reaches plugin selection and in which the
MIME loop, which looks the MIME type of the stream up anew in every round,
turns down the `k` plugins the lookup returns and then gets `NULL`: when `p`
is the first plugin of the suffix lookup that has a stream-decode entry and
passes `decoder_try_decode`, `decoder_run` returns, the only decode entry
called is the stream-decode entry of `p`, and the lookups made are the MIME
lookups `0 .. k`, the last of which returns `NULL`, followed by the suffix
lookups `0 .. pre.length`, without lookup of the default backend; and when the
suffix loop turns down every plugin too, a session that returns has made the
MIME lookups `0 .. k`, then every suffix lookup, then the lookup of `mp3`. -/
theorem C14_suffix_after_mime (env : Env) (fuel : Nat) (w w1 : World) (s : song)
    (uri : String) (is isk : input_stream) (k : Nat)
    (hreach : decoder_run_open env fuel w = .ok (.selecting s uri is w1))
    (hstream : env.song_is_file s = false)
    (hmime : mime_rejects env.decoder_plugins k 0 is = some isk)
    (hnull : decoder_plugin_from_mime_type env.decoder_plugins isk.mime k = none) :
    (∀ pre p post,
      suffix_matches env.decoder_plugins (env.getSuffix uri) = pre ++ p :: post →
      stream_rejects_all pre isk = true →
      stream_accepts p (stream_after pre isk) = true →
      ∃ w2 sd, decoder_run env fuel w = .ok w2 ∧ p.stream_decode = some sd ∧
        (events_since w1 w2).filter Event.is_decode =
          [Event.stream_decode p.name
            (sd ⟨false, false⟩ (probe_rewind p (stream_after pre isk)) w1.dc).ret] ∧
        (events_since w1 w2).filter Event.is_lookup =
          (List.range (k + 1)).map Event.lookup_mime ++
          (List.range (pre.length + 1)).map Event.lookup_suffix) ∧
    (stream_rejects_all (suffix_matches env.decoder_plugins (env.getSuffix uri)) isk = true →
      ∀ w2, decoder_run env fuel w = .ok w2 →
        (events_since w1 w2).filter Event.is_lookup =
          (List.range (k + 1)).map Event.lookup_mime ++
          (List.range ((suffix_matches env.decoder_plugins (env.getSuffix uri)).length + 1)).map
            Event.lookup_suffix ++
          [Event.lookup_name "mp3"]) := by
  have hk : k ≤ env.decoder_plugins.length := by
    rcases mime_rejects_bound env.decoder_plugins k 0 is isk hmime with h | h <;> omega
  have hm := mime_loop_exhausted env.decoder_plugins ⟨false, false⟩ k
    env.decoder_plugins.length 0 is isk w1 hmime (by simpa using hnull) hk
  simp only [Nat.zero_add] at hm
  have m4 := mime_skip_all_lookups env.decoder_plugins k is isk hmime
  have m6 := mime_skip_not_search env.decoder_plugins k is
  generalize htm : mime_skip_events env.decoder_plugins k 0 is ++ [Event.lookup_mime k] = tm
    at hm m4 m6
  constructor
  · intro pre p post hsplit hpre hp
    simp only [stream_accepts, Bool.and_eq_true, Option.isSome_iff_exists] at hp
    obtain ⟨⟨sd, hsd⟩, hpp⟩ := hp
    obtain ⟨x1, x2, tx, x3, x4⟩ := stream_loop_first Event.lookup_suffix (fun _ => rfl)
      ⟨false, false⟩ p post sd hsd pre 0 isk (w1.logged tm) hpre hpp
    obtain ⟨tx', x5, x6, -, -⟩ := stream_loop_summary Event.lookup_suffix (fun _ => rfl)
      ⟨false, false⟩ (pre ++ p :: post) 0 isk (w1.logged tm)
    have htx : tx' = tx := List.append_cancel_left (x5.symm.trans x3)
    subst htx
    rw [x1, x2] at x6
    clear x5
    simp only [logged_dc] at x2 x6
    generalize hx : stream_loop Event.lookup_suffix ⟨false, false⟩ (pre ++ p :: post) 0
      isk (w1.logged tm) = x at x1 x2 x3
    have hrun : decoder_run env fuel w =
        .ok (decoder_run_finish ⟨some p, x.ret, true, x.w⟩) := by
      simp only [decoder_run, hreach, decoder_select, hstream, hsplit, hm, hx, x1]
      rfl
    have htrace := events_since_finish w1 ⟨some p, x.ret, true, x.w⟩ (tm ++ tx')
      (by rw [x3, logged_trace, List.append_assoc])
    refine ⟨_, sd, hrun, hsd, ?_, ?_⟩
    · have hdec : ∀ a b, (Event.stream_decode a b).is_decode = true := fun _ _ => rfl
      rw [htrace]
      simp only [List.filter_append]
      rw [filter_of_not_search _ is_decode_not_search tm,
        filter_of_not_search _ is_decode_not_search tx', m6, x6, finish_events_decode]
      simp [hdec]
    · rw [htrace]
      simp only [List.filter_append, m4, x4, finish_events_lookup, List.append_nil,
        List.range_eq_range']
  · intro hsuf w2 hrun
    obtain ⟨x1, -, tx, x3, x4⟩ := stream_loop_rejected Event.lookup_suffix (fun _ => rfl)
      ⟨false, false⟩ (suffix_matches env.decoder_plugins (env.getSuffix uri)) 0 isk
      (w1.logged tm) hsuf
    generalize hx : stream_loop Event.lookup_suffix ⟨false, false⟩
      (suffix_matches env.decoder_plugins (env.getSuffix uri)) 0 isk (w1.logged tm) = x
      at x1 x3
    obtain ⟨sel, hsel, hw2⟩ := run_cases env fuel w w2 _ hreach hrun
    subst hw2
    have hl : (Event.lookup_name "mp3").is_lookup = true := rfl
    have hd : ∀ a b, (Event.stream_decode a b).is_lookup = false := fun _ _ => rfl
    simp only [decoder_select, hstream, hm, hx, x1, Bool.not_false, ↓reduceIte] at hsel
    cases hn : decoder_plugin_from_name env.decoder_plugins "mp3" with
    | none =>
      simp only [hn, Except.ok.injEq] at hsel
      subst hsel
      rw [events_since_finish w1 _ (tm ++ (tx ++ [Event.lookup_name "mp3"]))
        (by simp [x3])]
      simp only [List.filter_append, m4, x4, finish_events_lookup, List.append_nil,
        List.range_eq_range', List.append_assoc]
      simp [hl]
    | some q =>
      simp only [hn] at hsel
      cases hq : q.stream_decode with
      | none => simp [hq] at hsel
      | some sq =>
        simp only [hq, Except.ok.injEq] at hsel
        subst hsel
        rw [events_since_finish w1 _ (tm ++ (tx ++ [Event.lookup_name "mp3",
          Event.stream_decode q.name (sq ⟨false, false⟩ x.is
            (x.w.emit (Event.lookup_name "mp3")).dc).ret])) (by simp [x3])]
        simp only [List.filter_append, m4, x4, finish_events_lookup, List.append_nil,
          List.range_eq_range', List.append_assoc]
        simp [hl, hd]

/-- C14 at `env_suffix`: the first MIME lookup, for `audio/x`, returns
`plugin_retype`, whose probe rejects and leaves the stream reporting
`audio/z`; the second MIME lookup, for `audio/z` with index 1, returns `NULL`,
although `plugin_x`, registered for `audio/x`, was never returned; the suffix
matches `plugin_oggflac`, which has no stream-decode entry, and then
`plugin_ogg`, which is decoded; `plugin_mp3` is registered and not looked
up. -/
theorem C14_suffix_after_mime_witness :
    ∃ w2, decoder_run
        (env_suffix [plugin_mp3, plugin_retype, plugin_z0, plugin_x, plugin_oggflac, plugin_ogg])
        5 world_start = .ok w2 ∧
      (events_since world_suffix_selecting w2).filter Event.is_decode =
        [Event.stream_decode "ogg" true] ∧
      (events_since world_suffix_selecting w2).filter Event.is_lookup =
        [Event.lookup_mime 0, Event.lookup_mime 1, Event.lookup_suffix 0,
          Event.lookup_suffix 1] :=
  ((C14_suffix_after_mime
      (env_suffix [plugin_mp3, plugin_retype, plugin_z0, plugin_x, plugin_oggflac, plugin_ogg])
      5 world_start world_suffix_selecting ⟨1⟩ "http://h/b.ogg" ⟨true, some "audio/x", 0⟩
      ⟨true, some "audio/z", 0⟩ 1
      rfl rfl rfl rfl).1 [plugin_oggflac] plugin_ogg [] rfl rfl rfl).elim
    (fun w2 h => h.elim (fun sd h2 => ⟨w2, h2.1,
      by rw [h2.2.2.1]; cases h2.2.1; rfl, by rw [h2.2.2.2]; rfl⟩))

/-! ## C18: the order of search and decode -/

theorem stream_loop_shape (lk : Nat → Event) (hlk : ∀ n, (lk n).is_search = true)
    (dec : decoder) (ps : List decoder_plugin) :
    ∀ (n : Nat) (is : input_stream) (w : World),
      ∃ ts, (stream_loop lk dec ps n is w).w.trace =
          w.trace ++ (ts ++ loop_decode_events (stream_loop lk dec ps n is w)) ∧
        ∀ e ∈ ts, e.is_search = true := by
  induction ps with
  | nil =>
    intro n is w
    exact ⟨[lk n], by simp [stream_loop, loop_decode_events], by simp [hlk]⟩
  | cons q qs ih =>
    intro n is w
    cases hsd : q.stream_decode with
    | none =>
      rw [stream_loop_cons_none lk dec q qs n is w hsd]
      obtain ⟨ts, h1, h2⟩ := ih (n + 1) is (w.emit (lk n))
      refine ⟨lk n :: ts, by simp [h1], ?_⟩
      intro e he
      rcases List.mem_cons.1 he with he | he
      · subst he; exact hlk n
      · exact h2 e he
    | some sd =>
      cases hpp : probe_passes q is with
      | false =>
        rw [stream_loop_cons_fail lk dec q qs n is w sd hsd hpp]
        obtain ⟨ts, h1, h2⟩ := ih (n + 1) (probe_rewind q is)
          (decoder_try_decode q is (w.emit (lk n))).2.2
        refine ⟨lk n :: (probe_events q is ++ ts), by simp [h1], ?_⟩
        intro e he
        simp only [List.mem_cons, List.mem_append] at he
        rcases he with he | he | he
        · subst he; exact hlk n
        · exact (probe_events_all_search q is e he).1
        · exact h2 e he
      | true =>
        rw [stream_loop_cons_hit lk dec q qs n is w sd hsd hpp]
        refine ⟨lk n :: probe_events q is, by simp [loop_decode_events], ?_⟩
        intro e he
        rcases List.mem_cons.1 he with he | he
        · subst he; exact hlk n
        · exact (probe_events_all_search q is e he).1

theorem mime_loop_shape (reg : List decoder_plugin) (dec : decoder) (rounds next : Nat)
    (is : input_stream) (w : World) (l : Looped)
    (h : mime_loop reg dec rounds next is w = .ok l) :
    ∃ ts, l.w.trace = w.trace ++ (ts ++ loop_decode_events l) ∧
      ∀ e ∈ ts, e.is_search = true := by
  obtain ⟨ts, h0, h1 | ⟨p, r, h1, h2, h3⟩⟩ := mime_loop_cases reg dec rounds next is w l h
  · exact ⟨ts, by simp [loop_decode_events, h1.1, h1.2], h0⟩
  · exact ⟨ts, by simp [loop_decode_events, h1, h2, h3, run_decode], h0⟩

theorem file_loop_shape (dec : decoder) (uri : String) (ps : List decoder_plugin) :
    ∀ (n : Nat) (is : input_stream) (w : World),
      ∃ ts, (file_loop dec uri ps n is w).w.trace =
          w.trace ++ (ts ++ decode_events (file_loop dec uri ps n is w)) ∧
        ∀ e ∈ ts, e.is_search = true ∧ ∀ name, e ≠ Event.lookup_name name := by
  have hk : ∀ n, (Event.lookup_suffix n).is_search = true ∧
      ∀ name, Event.lookup_suffix n ≠ Event.lookup_name name := fun _ => ⟨rfl, by simp⟩
  induction ps with
  | nil =>
    intro n is w
    exact ⟨[.lookup_suffix n], by simp [file_loop, decode_events], by simp [Event.is_search]⟩
  | cons q qs ih =>
    intro n is w
    obtain ⟨ts, h1, h2⟩ := ih (n + 1) (probe_rewind q is)
      (decoder_try_decode q is (w.emit (.lookup_suffix n))).2.2
    have hrec : ∀ e ∈ Event.lookup_suffix n :: (probe_events q is ++ ts),
        e.is_search = true ∧ ∀ name, e ≠ Event.lookup_name name := by
      intro e he
      simp only [List.mem_cons, List.mem_append] at he
      rcases he with he | he | he
      · subst he; exact hk n
      · exact probe_events_all_search q is e he
      · exact h2 e he
    have hhit : ∀ e ∈ Event.lookup_suffix n :: probe_events q is,
        e.is_search = true ∧ ∀ name, e ≠ Event.lookup_name name := by
      intro e he
      rcases List.mem_cons.1 he with he | he
      · subst he; exact hk n
      · exact probe_events_all_search q is e he
    cases hpp : probe_passes q is with
    | false =>
      rw [file_loop_cons_fail dec uri q qs n is w hpp]
      exact ⟨.lookup_suffix n :: (probe_events q is ++ ts), by simp [h1], hrec⟩
    | true =>
      cases hfd : q.file_decode with
      | some fd =>
        rw [file_loop_cons_file dec uri q qs n is w fd hpp hfd]
        exact ⟨.lookup_suffix n :: probe_events q is, by simp [decode_events], hhit⟩
      | none =>
        cases hsd : q.stream_decode with
        | some sd =>
          rw [file_loop_cons_stream dec uri q qs n is w sd hpp hfd hsd]
          exact ⟨.lookup_suffix n :: probe_events q is, by simp [decode_events], hhit⟩
        | none =>
          rw [file_loop_cons_skip dec uri q qs n is w hfd hsd]
          exact ⟨.lookup_suffix n :: (probe_events q is ++ ts), by simp [h1], hrec⟩

/-- Plugin selection logs a search and then, if a plugin was taken, its decode
call (preceded by the close for a file decode); a file-backed selection never
looks up a name. -/
theorem select_shape (env : Env) (s : song) (uri : String) (is : input_stream) (w : World)
    (sel : Selected) (h : decoder_select env s uri is w = .ok sel) :
    ∃ ts, sel.w.trace = w.trace ++ (ts ++ decode_events sel) ∧
      (∀ e ∈ ts, e.is_search = true) ∧
      (env.song_is_file s = true → ∀ e ∈ ts, ∀ name, e ≠ Event.lookup_name name) := by
  unfold decoder_select at h
  cases hf : env.song_is_file s with
  | true =>
    simp only [hf, Bool.not_true, Bool.false_eq_true, ↓reduceIte, Except.ok.injEq] at h
    subst h
    obtain ⟨ts, h1, h2⟩ := file_loop_shape ⟨false, false⟩ uri
      (suffix_matches env.decoder_plugins (env.getSuffix uri)) 0 is w
    exact ⟨ts, h1, fun e he => (h2 e he).1, fun _ e he => (h2 e he).2⟩
  | false =>
    simp only [hf, Bool.not_false, ↓reduceIte] at h
    obtain ⟨m, hml⟩ := mime_loop_total env.decoder_plugins ⟨false, false⟩
      env.decoder_plugins.length 0 is w (by omega)
    simp only [hml] at h
    obtain ⟨t1, a1, a2⟩ := mime_loop_shape env.decoder_plugins ⟨false, false⟩
      env.decoder_plugins.length 0 is w m hml
    cases hm : m.plugin with
    | some p =>
      simp only [hm, Except.ok.injEq] at h
      subst h
      exact ⟨t1, by simpa [decode_events, loop_decode_events, hm] using a1, a2, by simp⟩
    | none =>
      simp only [hm] at h
      simp only [loop_decode_events, hm, List.append_nil] at a1
      obtain ⟨t2, b1, b2⟩ := stream_loop_shape Event.lookup_suffix (fun _ => rfl)
        ⟨false, false⟩ (suffix_matches env.decoder_plugins (env.getSuffix uri)) 0 m.is m.w
      generalize stream_loop Event.lookup_suffix ⟨false, false⟩
        (suffix_matches env.decoder_plugins (env.getSuffix uri)) 0 m.is m.w = x at h b1
      have h12 : ∀ e ∈ t1 ++ t2, e.is_search = true := by
        intro e he
        rcases List.mem_append.1 he with he | he
        · exact a2 e he
        · exact b2 e he
      cases hx : x.plugin with
      | some p =>
        simp only [hx, Except.ok.injEq] at h
        subst h
        exact ⟨t1 ++ t2, by simp [decode_events, loop_decode_events, hx, b1, a1] at b1 ⊢,
          h12, by simp⟩
      | none =>
        simp only [hx] at h
        simp only [loop_decode_events, hx, List.append_nil] at b1
        have h123 : ∀ e ∈ t1 ++ t2 ++ [Event.lookup_name "mp3"], e.is_search = true := by
          intro e he
          rcases List.mem_append.1 he with he | he
          · exact h12 e he
          · simp only [List.mem_singleton] at he
            subst he; rfl
        cases hn : decoder_plugin_from_name env.decoder_plugins "mp3" with
        | none =>
          simp only [hn, Except.ok.injEq] at h
          subst h
          exact ⟨t1 ++ t2 ++ [Event.lookup_name "mp3"], by simp [decode_events, b1, a1],
            h123, by simp⟩
        | some p =>
          simp only [hn] at h
          cases hsd : p.stream_decode with
          | none => simp [hsd] at h
          | some sd =>
            simp only [hsd, Except.ok.injEq] at h
            subst h
            exact ⟨t1 ++ t2 ++ [Event.lookup_name "mp3"], by simp [decode_events, b1, a1],
              h123, by simp⟩

theorem split_at_unique (P : Event → Bool) (d : Event) (F : List Event)
    (hF : ∀ x ∈ F, P x = false) (A : List Event) :
    ∀ (t1 t2 : List Event) (e : Event), (∀ x ∈ A, P x = false) →
      A ++ d :: F = t1 ++ e :: t2 → P e = true → t2 = F := by
  induction A with
  | nil =>
    intro t1 t2 e _ h he
    cases t1 with
    | nil =>
      simp only [List.nil_append, List.cons.injEq] at h
      exact h.2.symm
    | cons a t1 =>
      simp only [List.nil_append, List.cons_append, List.cons.injEq] at h
      have : e ∈ F := by rw [h.2]; simp
      rw [hF e this] at he
      simp at he
  | cons a A ih =>
    intro t1 t2 e hA h he
    cases t1 with
    | nil =>
      simp only [List.cons_append, List.nil_append, List.cons.injEq] at h
      have := hA a (by simp)
      rw [h.1, he] at this
      simp at this
    | cons b t1 =>
      simp only [List.cons_append, List.cons.injEq] at h
      exact ih t1 t2 e (fun x hx => hA x (by simp [hx])) h.2 he

theorem finish_events_plain (sel : Selected) :
    ∀ x ∈ finish_events sel, x.is_search = false ∧ x.is_decode = false := by
  unfold finish_events
  cases sel.ret <;> cases sel.close_instream <;> cases sel.plugin <;>
    simp [Event.is_search, Event.is_decode]

theorem is_wait_not_decode (e : Event) (h : e.is_wait = true) : e.is_decode = false := by
  cases e <;> simp_all [Event.is_wait, Event.is_decode]

theorem is_search_not_decode (e : Event) (h : e.is_search = true) : e.is_decode = false := by
  cases e <;> simp_all [Event.is_search, Event.is_decode]

theorem is_opening_not_decode (e : Event) (h : e.is_opening = true) : e.is_decode = false := by
  cases e <;> simp_all [Event.is_opening, Event.is_decode]

/-- The events of a session that reached plugin selection, in order: opening,
readiness wait, search, decode call, closing events. -/
theorem session_shape (env : Env) (fuel : Nat) (w w1 : World) (s : song) (uri : String)
    (is : input_stream) (sel : Selected)
    (hopen : decoder_run_open env fuel w = .ok (.selecting s uri is w1))
    (hsel : decoder_select env s uri is w1 = .ok sel) :
    ∃ A, events_since w (decoder_run_finish sel) = A ++ (decode_events sel ++ finish_events sel) ∧
      (∀ e ∈ A, e.is_decode = false) ∧
      (env.song_is_file s = true → ∀ e ∈ A, ∀ name, e ≠ Event.lookup_name name) := by
  obtain ⟨t0, h0, h0'⟩ := open_selecting_events env fuel w w1 s uri is hopen
  obtain ⟨ts, h1, h2, h3⟩ := select_shape env s uri is w1 sel hsel
  refine ⟨[Event.set_current_song w.dc.next_song,
      Event.input_stream_open uri true, Event.set_state DECODE_STATE_START,
      Event.set_command DECODE_COMMAND_NONE, Event.notify_signal_pc] ++ t0 ++ ts, ?_, ?_, ?_⟩
  · apply events_since_append
    rw [finish_trace, h1, h0]
    simp
  · intro e he
    simp only [List.append_assoc, List.mem_append, List.mem_cons, List.mem_singleton,
      List.not_mem_nil, or_false] at he
    rcases he with (he | he | he | he | he) | he | he
    · subst he; rfl
    · subst he; rfl
    · subst he; rfl
    · subst he; rfl
    · subst he; rfl
    · exact is_wait_not_decode e (h0' e he)
    · exact is_search_not_decode e (h2 e he)
  · intro hf e he name
    simp only [List.append_assoc, List.mem_append, List.mem_cons, List.mem_singleton,
      List.not_mem_nil, or_false] at he
    rcases he with (he | he | he | he | he) | he | he
    · subst he; simp
    · subst he; simp
    · subst he; simp
    · subst he; simp
    · subst he; simp
    · intro hn
      have := h0' e he
      rw [hn] at this
      simp [Event.is_wait] at this
    · exact h3 hf e he name

/-- C18: in every session of `decoder_run` that returns, at most one decode
entry (`stream_decode` or `file_decode`) is called, and nothing that follows
the call of a decode entry in the session is a registry lookup, a probe, a
rewind or another decode call: a failed decode is not retried with a later
MIME match, a suffix match or the default backend. -/
theorem C18_at_most_one_decode (env : Env) (fuel : Nat) (w w2 : World)
    (hrun : decoder_run env fuel w = .ok w2) :
    ((events_since w w2).filter Event.is_decode).length ≤ 1 ∧
    ∀ t1 e t2, events_since w w2 = t1 ++ e :: t2 → e.is_decode = true →
      ∀ x ∈ t2, x.is_search = false ∧ x.is_decode = false := by
  obtain ⟨r, hopen⟩ := run_open_of_run env fuel w w2 hrun
  have hc := run_cases env fuel w w2 r hopen hrun
  cases r with
  | returned w1 =>
    simp only at hc
    subst hc
    have hall := returned_events env fuel w w2 hopen
    constructor
    · rw [List.filter_eq_nil_iff.2 (fun e he => by simp [is_opening_not_decode e (hall e he)])]
      simp
    · intro t1 e t2 h he
      have := is_opening_not_decode e (hall e (by rw [h]; simp))
      rw [he] at this
      simp at this
  | selecting s uri is w1 =>
    obtain ⟨sel, hsel, hw2⟩ := hc
    subst hw2
    obtain ⟨A, hA, hA', -⟩ := session_shape env fuel w w1 s uri is sel hopen hsel
    have hF := finish_events_plain sel
    have hAf : A.filter Event.is_decode = [] :=
      List.filter_eq_nil_iff.2 (fun e he => by simp [hA' e he])
    have hFf : (finish_events sel).filter Event.is_decode = [] := finish_events_decode sel
    rw [hA]
    cases hp : sel.plugin with
    | none =>
      simp only [decode_events, hp, List.nil_append]
      constructor
      · simp [List.filter_append, hAf, hFf]
      · intro t1 e t2 h he
        have hmem : e ∈ A ++ finish_events sel := by rw [h]; simp
        rcases List.mem_append.1 hmem with hm | hm
        · rw [hA' e hm] at he
          simp at he
        · rw [(hF e hm).2] at he
          simp at he
    | some p =>
      cases hci : sel.close_instream with
      | true =>
        simp only [decode_events, hp, hci, ↓reduceIte]
        constructor
        · have hsd : ∀ a b, (Event.stream_decode a b).is_decode = true := fun _ _ => rfl
          simp [List.filter_append, hAf, hFf, List.filter_cons, hsd]
        · intro t1 e t2 h he
          have := split_at_unique Event.is_decode _ (finish_events sel)
            (fun x hx => (hF x hx).2) A t1 t2 e hA' (by simpa using h) he
          rw [this]
          exact hF
      | false =>
        simp only [decode_events, hp, hci, Bool.false_eq_true, ↓reduceIte]
        constructor
        · have hcl : Event.input_stream_close.is_decode = false := rfl
          have hfd : ∀ a b, (Event.file_decode a b).is_decode = true := fun _ _ => rfl
          simp [List.filter_append, hAf, hFf, List.filter_cons, hcl, hfd]
        · intro t1 e t2 h he
          have := split_at_unique Event.is_decode _ (finish_events sel)
            (fun x hx => (hF x hx).2) (A ++ [Event.input_stream_close]) t1 t2 e
            (by
              intro x hx
              rcases List.mem_append.1 hx with hx | hx
              · exact hA' x hx
              · simp only [List.mem_singleton] at hx
                subst hx; rfl)
            (by simpa using h) he
          rw [this]
          exact hF

/-- C18 at `env_stream`: `plugin_x` fails to decode; it is the only decode
call, and what follows it in the session is the flush, the error and the
close. -/
theorem C18_at_most_one_decode_witness :
    ∃ w2, decoder_run env_stream 5 world_start = .ok w2 ∧
      (events_since world_start w2).filter Event.is_decode = [Event.stream_decode "x" false] ∧
      ((events_since world_start w2).filter Event.is_decode).length ≤ 1 ∧
      ∀ t1 e t2, events_since world_start w2 = t1 ++ e :: t2 → e.is_decode = true →
        ∀ x ∈ t2, x.is_search = false ∧ x.is_decode = false :=
  ⟨_, rfl, by decide, (C18_at_most_one_decode env_stream 5 world_start _ rfl).1,
    (C18_at_most_one_decode env_stream 5 world_start _ rfl).2⟩

/-! ## C15: no default backend for files -/

theorem file_loop_rejected (dec : decoder) (uri : String) (ps : List decoder_plugin) :
    ∀ (n : Nat) (is : input_stream) (w : World),
      file_rejects_all ps is = true → (file_loop dec uri ps n is w).plugin = none := by
  induction ps with
  | nil =>
    intro n is w _
    rfl
  | cons q qs ih =>
    intro n is w hrej
    simp only [file_rejects_all, Bool.and_eq_true, Bool.not_eq_true'] at hrej
    have hstep : file_loop dec uri (q :: qs) n is w =
        file_loop dec uri qs (n + 1) (probe_rewind q is)
          (decoder_try_decode q is (w.emit (.lookup_suffix n))).2.2 := by
      cases hpp : probe_passes q is with
      | false => exact file_loop_cons_fail dec uri q _ n is w hpp
      | true =>
        have h := hrej.1
        have hf : q.file_decode = none := by
          cases hh : q.file_decode with
          | none => rfl
          | some _ => simp [file_accepts, hpp, hh] at h
        have hs : q.stream_decode = none := by
          cases hh : q.stream_decode with
          | none => rfl
          | some _ => simp [file_accepts, hpp, hh] at h
        exact file_loop_cons_skip dec uri q _ n is w hf hs
    rw [hstep]
    exact ih _ _ _ hrej.2

theorem decode_finish_no_name (sel : Selected) :
    ∀ e ∈ decode_events sel ++ finish_events sel, ∀ name, e ≠ Event.lookup_name name := by
  unfold decode_events finish_events
  cases sel.plugin <;> cases sel.ret <;> cases sel.close_instream <;> simp

/-- C15: a file-backed session that reaches plugin selection returns, and no
lookup by name (the default backend lookup `decoder_plugin_from_name`) takes
place in it, whatever the registry holds, a plugin named `mp3` included; and
if the file loop turns down every plugin of the suffix lookup (none passes
`decoder_try_decode` and offers a file-decode or stream-decode entry), no
decode entry is called and `DECODE_ERROR_UNKTYPE` is recorded. -/
theorem C15_file_no_default (env : Env) (fuel : Nat) (w w1 : World) (s : song)
    (uri : String) (is : input_stream)
    (hreach : decoder_run_open env fuel w = .ok (.selecting s uri is w1))
    (hfile : env.song_is_file s = true) :
    ∃ w2, decoder_run env fuel w = .ok w2 ∧
      (∀ name, Event.lookup_name name ∉ events_since w w2) ∧
      (file_rejects_all (suffix_matches env.decoder_plugins (env.getSuffix uri)) is = true →
        (events_since w w2).filter Event.is_decode = [] ∧
        Event.set_error DECODE_ERROR_UNKTYPE ∈ events_since w w2 ∧
        w2.dc.error = DECODE_ERROR_UNKTYPE) := by
  have hsel : decoder_select env s uri is w1 = .ok (file_loop ⟨false, false⟩ uri
      (suffix_matches env.decoder_plugins (env.getSuffix uri)) 0 is w1) := by
    simp only [decoder_select, hfile, Bool.not_true, Bool.false_eq_true, ↓reduceIte]
  have hrun : decoder_run env fuel w = .ok (decoder_run_finish (file_loop ⟨false, false⟩ uri
      (suffix_matches env.decoder_plugins (env.getSuffix uri)) 0 is w1)) := by
    simp only [decoder_run, hreach, hsel]
  obtain ⟨A, hA, hA', hname⟩ := session_shape env fuel w w1 s uri is _ hreach hsel
  refine ⟨_, hrun, ?_, ?_⟩
  · intro name hmem
    rw [hA] at hmem
    rcases List.mem_append.1 hmem with hm | hm
    · exact hname hfile _ hm name rfl
    · exact decode_finish_no_name _ _ hm name rfl
  · intro hrej
    have hp := file_loop_rejected ⟨false, false⟩ uri _ 0 is w1 hrej
    obtain ⟨_, -, -, hnone, -⟩ := file_loop_summary ⟨false, false⟩ uri
      (suffix_matches env.decoder_plugins (env.getSuffix uri)) 0 is w1
    obtain ⟨hret, hci, -, -⟩ := hnone hp
    have hess := session_essential env fuel w w1 s uri is _ hreach hsel
    refine ⟨?_, ?_, ?_⟩
    · rw [filter_of_essential _ is_decode_essential, hess]
      simp [decode_events, finish_events, hp, hret, hci, Event.is_decode]
    · rw [mem_iff_mem_essential (Event.set_error DECODE_ERROR_UNKTYPE) rfl, hess]
      simp [decode_events, finish_events, hp, hret, hci]
    · rw [finish_error]
      simp [hp, hret]

/-- C15 at `env_file` over a registry that holds `plugin_mp3` and
`plugin_oggflac`: the suffix `ogg` matches only `plugin_oggflac`, whose probe
rejects; nothing is decoded, `mp3` is not looked up, and
`DECODE_ERROR_UNKTYPE` is recorded. -/
theorem C15_file_no_default_witness :
    ∃ w2, decoder_run (env_file [plugin_mp3, plugin_oggflac]) 5 world_start = .ok w2 ∧
      (∀ name, Event.lookup_name name ∉ events_since world_start w2) ∧
      (events_since world_start w2).filter Event.is_decode = [] ∧
      Event.set_error DECODE_ERROR_UNKTYPE ∈ events_since world_start w2 ∧
      w2.dc.error = DECODE_ERROR_UNKTYPE :=
  (C15_file_no_default (env_file [plugin_mp3, plugin_oggflac]) 5 world_start
    world_file_selecting ⟨1⟩ "/music/a.ogg" ⟨true, none, 0⟩ rfl rfl).imp
    (fun _ h => ⟨h.1, h.2.1, h.2.2 rfl⟩)

/-! ## C16: the close of the input stream -/

theorem count_close_of_wait (t : List Event) (h : ∀ e ∈ t, e.is_wait = true) :
    t.count Event.input_stream_close = 0 := by
  rw [List.count_eq_zero]
  intro hm
  have := h _ hm
  simp [Event.is_wait] at this

theorem wait_ready_none_close (env : Env) (fuel : Nat) :
    ∀ (is : input_stream) (w w2 : World),
      wait_ready env fuel is w = .ok (none, w2) →
      ∃ t, w2.trace = w.trace ++ t ∧ t.count Event.input_stream_close = 1 := by
  induction fuel with
  | zero =>
    intro is w w2 h
    unfold wait_ready at h
    cases hr : is.ready <;> simp [hr] at h
  | succ n ih =>
    intro is w w2 h
    unfold wait_ready at h
    cases hr : is.ready with
    | true => simp [hr] at h
    | false =>
      simp only [hr, Bool.false_eq_true, ↓reduceIte] at h
      obtain ⟨t0, h0, h0'⟩ := read_command_wait env w
      have hc0 := count_close_of_wait t0 h0'
      by_cases hc : (read_command env w).dc.command ≠ DECODE_COMMAND_NONE
      · rw [if_pos hc] at h
        simp only [Except.ok.injEq, Prod.mk.injEq, true_and] at h
        exact ⟨t0 ++ [.input_stream_close], by simp [← h, h0], by simp [hc0]⟩
      · rw [if_neg hc] at h
        by_cases hb : (env.input_stream_buffer is).1 < 0
        · rw [if_pos hb] at h
          simp only [Except.ok.injEq, Prod.mk.injEq, true_and] at h
          exact ⟨t0 ++ [.input_stream_buffer (env.input_stream_buffer is).1,
            .input_stream_close, .set_error DECODE_ERROR_FILE],
            by simp [← h, h0, set_error], by simp [hc0]⟩
        · rw [if_neg hb] at h
          obtain ⟨t1, h1, h1'⟩ := ih _ _ w2 h
          exact ⟨t0 ++ (.input_stream_buffer (env.input_stream_buffer is).1 :: t1),
            by simp [h1, h0], by simp [hc0, h1']⟩

theorem open_returned_close (env : Env) (fuel : Nat) (w w1 : World) (s : song) (uri : String)
    (is0 : input_stream) (hsong : w.dc.next_song = some s)
    (huri : (if env.song_is_file s then env.map_song_fs s else env.song_get_url s) = some uri)
    (hopen : env.input_stream_open uri = some is0)
    (h : decoder_run_open env fuel w = .ok (.returned w1)) :
    (events_since w w1).count Event.input_stream_close = 1 := by
  unfold decoder_run_open at h
  simp only [hsong, huri, hopen] at h
  cases hw : wait_ready env fuel is0 (((set_command DECODE_COMMAND_NONE
    (set_state DECODE_STATE_START ((set_current_song w).emit
      (.input_stream_open uri true)))).emit .notify_signal_pc)) with
  | error e => simp [hw] at h
  | ok x =>
    obtain ⟨o, w3⟩ := x
    cases o with
    | none =>
      simp only [hw, Except.ok.injEq, Opened.returned.injEq] at h
      subst h
      obtain ⟨t, h1, h2⟩ := wait_ready_none_close env fuel _ _ _ hw
      rw [events_since_append w w3 ([Event.set_current_song w.dc.next_song,
        Event.input_stream_open uri true, Event.set_state DECODE_STATE_START,
        Event.set_command DECODE_COMMAND_NONE, Event.notify_signal_pc] ++ t)
        (by simp [h1, set_command, set_state, set_current_song])]
      simp [h2]
    | some is2 =>
      simp only [hw] at h
      obtain ⟨t, h1, h2⟩ := wait_ready_ready_events env fuel _ is2 _ w3 hw
      obtain ⟨t2, h3, h4⟩ := read_command_wait env w3
      by_cases hc : (read_command env w3).dc.command = DECODE_COMMAND_STOP
      · rw [if_pos hc] at h
        simp only [Except.ok.injEq, Opened.returned.injEq] at h
        subst h
        rw [events_since_append w _ ([Event.set_current_song w.dc.next_song,
          Event.input_stream_open uri true, Event.set_state DECODE_STATE_START,
          Event.set_command DECODE_COMMAND_NONE, Event.notify_signal_pc] ++
          (t ++ (t2 ++ [Event.input_stream_close])))
          (by simp [h1, h3, set_command, set_state, set_current_song])]
        simp [count_close_of_wait t h2, count_close_of_wait t2 h4]
      · rw [if_neg hc] at h
        simp at h

/-- C16: in a session of `decoder_run` that returns, `input_stream_close` is
called exactly once if the input stream was opened (whichever way the session
ends: a command or a read error in the readiness wait, a stop at readiness, no
plugin found, a stream decode, a file decode) and not at all if the locator
was unresolved or the open failed; and the session does return once lines
50-101 have, when the default backend, if registered, has a stream-decode
entry. -/
theorem C16_close_once (env : Env) (fuel : Nat) (w : World) (s : song)
    (hsong : w.dc.next_song = some s) :
    (∀ r, decoder_run_open env fuel w = .ok r →
      default_backend_ok env.decoder_plugins = true →
      ∃ w2, decoder_run env fuel w = .ok w2) ∧
    ∀ w2, decoder_run env fuel w = .ok w2 →
      (events_since w w2).count Event.input_stream_close =
        match (if env.song_is_file s then env.map_song_fs s else env.song_get_url s) with
        | none => 0
        | some uri => if (env.input_stream_open uri).isSome then 1 else 0 := by
  refine ⟨fun r hr hd => run_returns env fuel w r hr hd, ?_⟩
  intro w2 hrun
  cases huri : (if env.song_is_file s then env.map_song_fs s else env.song_get_url s) with
  | none =>
    rw [run_unresolved env fuel w s hsong huri] at hrun
    simp only [Except.ok.injEq] at hrun
    subst hrun
    rw [events_since_append w _ [Event.set_error DECODE_ERROR_FILE] (by simp [set_error])]
    simp
  | some uri =>
    simp only
    cases hopen : env.input_stream_open uri with
    | none =>
      have hrun2 : decoder_run env fuel w = .ok (set_error DECODE_ERROR_FILE
          ((set_current_song w).emit (.input_stream_open uri false))) := by
        unfold decoder_run decoder_run_open
        simp only [hsong, huri, hopen]
      rw [hrun2] at hrun
      simp only [Except.ok.injEq] at hrun
      subst hrun
      rw [events_since_append w _ [Event.set_current_song w.dc.next_song,
        Event.input_stream_open uri false, Event.set_error DECODE_ERROR_FILE]
        (by simp [set_error, set_current_song])]
      simp
    | some is0 =>
      simp only [Option.isSome_some, ↓reduceIte]
      obtain ⟨r, hr⟩ := run_open_of_run env fuel w w2 hrun
      have hc := run_cases env fuel w w2 r hr hrun
      cases r with
      | returned w1 =>
        simp only at hc
        subst hc
        exact open_returned_close env fuel w w2 s uri is0 hsong huri hopen hr
      | selecting s1 uri1 is1 w1 =>
        obtain ⟨sel, hsel, hw2⟩ := hc
        subst hw2
        obtain ⟨_, -, -, hnone, -⟩ := select_summary env s1 uri1 is1 w1 sel hsel
        rw [count_eq_count_essential Event.input_stream_close rfl,
          session_essential env fuel w w1 s1 uri1 is1 sel hr hsel]
        unfold decode_events finish_events
        by_cases hp : sel.plugin = none
        · obtain ⟨hret, hci⟩ := hnone hp
          simp [hp, hret, hci]
        · obtain ⟨p, hp2⟩ := Option.ne_none_iff_exists'.1 hp
          cases hret : sel.ret <;> cases hci : sel.close_instream <;> simp [hp2]

/-- C16 at `env_file` with `plugin_vorbis` (file decode: the one close comes
before the decode), at `env_slow` (stop in the readiness wait: one close) and
at `env_closed` (open failure: no close). -/
theorem C16_close_once_witness :
    (∀ w2, decoder_run (env_file [plugin_vorbis]) 5 world_start = .ok w2 →
      (events_since world_start w2).count Event.input_stream_close = 1) ∧
    (∀ w2, decoder_run env_slow 5 world_start = .ok w2 →
      (events_since world_start w2).count Event.input_stream_close = 1) ∧
    (∀ w2, decoder_run env_closed 5 world_start = .ok w2 →
      (events_since world_start w2).count Event.input_stream_close = 0) ∧
    (∃ w2, decoder_run (env_file [plugin_vorbis]) 5 world_start = .ok w2) :=
  ⟨(C16_close_once (env_file [plugin_vorbis]) 5 world_start ⟨1⟩ rfl).2,
   (C16_close_once env_slow 5 world_start ⟨1⟩ rfl).2,
   (C16_close_once env_closed 5 world_start ⟨1⟩ rfl).2,
   (C16_close_once (env_file [plugin_vorbis]) 5 world_start ⟨1⟩ rfl).1 _ rfl rfl⟩

/-! ## C17: the error after a successful decode -/

theorem read_command_error (env : Env) (w : World) :
    (read_command env w).dc.error = w.dc.error := by
  unfold read_command
  cases env.controller w.tick <;> rfl

theorem wait_ready_ready_error (env : Env) (fuel : Nat) :
    ∀ (is is2 : input_stream) (w w2 : World),
      wait_ready env fuel is w = .ok (some is2, w2) → w2.dc.error = w.dc.error := by
  induction fuel with
  | zero =>
    intro is is2 w w2 h
    unfold wait_ready at h
    cases hr : is.ready with
    | true =>
      simp only [hr, ↓reduceIte, Except.ok.injEq, Prod.mk.injEq] at h
      rw [← h.2]
    | false => simp [hr] at h
  | succ n ih =>
    intro is is2 w w2 h
    unfold wait_ready at h
    cases hr : is.ready with
    | true =>
      simp only [hr, ↓reduceIte, Except.ok.injEq, Prod.mk.injEq] at h
      rw [← h.2]
    | false =>
      simp only [hr, Bool.false_eq_true, ↓reduceIte] at h
      by_cases hc : (read_command env w).dc.command ≠ DECODE_COMMAND_NONE
      · rw [if_pos hc] at h
        simp at h
      · rw [if_neg hc] at h
        by_cases hb : (env.input_stream_buffer is).1 < 0
        · rw [if_pos hb] at h
          simp at h
        · rw [if_neg hb] at h
          rw [ih _ is2 _ w2 h]
          simp [read_command_error]

theorem open_selecting_error (env : Env) (fuel : Nat) (w w1 : World) (s : song) (uri : String)
    (is : input_stream) (h : decoder_run_open env fuel w = .ok (.selecting s uri is w1)) :
    w1.dc.error = w.dc.error := by
  unfold decoder_run_open at h
  cases hs : w.dc.next_song with
  | none => simp [hs] at h
  | some s0 =>
    simp only [hs] at h
    cases hu : (if env.song_is_file s0 then env.map_song_fs s0 else env.song_get_url s0) with
    | none => simp [hu] at h
    | some uri0 =>
      simp only [hu] at h
      cases ho : env.input_stream_open uri0 with
      | none => simp [ho] at h
      | some is0 =>
        simp only [ho] at h
        cases hw : wait_ready env fuel is0 (((set_command DECODE_COMMAND_NONE
          (set_state DECODE_STATE_START ((set_current_song w).emit
            (.input_stream_open uri0 true)))).emit .notify_signal_pc)) with
        | error e => simp [hw] at h
        | ok x =>
          obtain ⟨o, w3⟩ := x
          cases o with
          | none => simp [hw] at h
          | some is2 =>
            have he := wait_ready_ready_error env fuel _ is2 _ w3 hw
            simp only [hw] at h
            by_cases hc : (read_command env w3).dc.command = DECODE_COMMAND_STOP
            · rw [if_pos hc] at h
              simp at h
            · rw [if_neg hc] at h
              simp only [Except.ok.injEq, Opened.selecting.injEq] at h
              rw [← h.2.2.2, read_command_error, he]
              simp [set_command, set_state, set_current_song]

theorem stream_loop_error (lk : Nat → Event) (dec : decoder) (ps : List decoder_plugin) :
    ∀ (n : Nat) (is : input_stream) (w : World),
      (stream_loop lk dec ps n is w).w.dc.error = w.dc.error := by
  induction ps with
  | nil =>
    intro n is w
    rfl
  | cons q qs ih =>
    intro n is w
    cases hsd : q.stream_decode with
    | none =>
      rw [stream_loop_cons_none lk dec q qs n is w hsd, ih]
      rfl
    | some sd =>
      cases hpp : probe_passes q is with
      | false =>
        rw [stream_loop_cons_fail lk dec q qs n is w sd hsd hpp, ih]
        simp
      | true =>
        rw [stream_loop_cons_hit lk dec q qs n is w sd hsd hpp]
        simp [run_decode]

theorem mime_loop_error (reg : List decoder_plugin) (dec : decoder) (rounds next : Nat)
    (is : input_stream) (w : World) (l : Looped)
    (h : mime_loop reg dec rounds next is w = .ok l) : l.w.dc.error = w.dc.error := by
  obtain ⟨ts, -, h1 | ⟨p, r, -, -, h1⟩⟩ := mime_loop_cases reg dec rounds next is w l h
  · rw [h1.2]
    rfl
  · rw [h1]
    simp [run_decode]

theorem file_loop_error (dec : decoder) (uri : String) (ps : List decoder_plugin) :
    ∀ (n : Nat) (is : input_stream) (w : World),
      (file_loop dec uri ps n is w).w.dc.error = w.dc.error := by
  induction ps with
  | nil =>
    intro n is w
    rfl
  | cons q qs ih =>
    intro n is w
    cases hpp : probe_passes q is with
    | false =>
      rw [file_loop_cons_fail dec uri q qs n is w hpp, ih]
      simp
    | true =>
      cases hfd : q.file_decode with
      | some fd =>
        rw [file_loop_cons_file dec uri q qs n is w fd hpp hfd]
        simp [run_decode]
      | none =>
        cases hsd : q.stream_decode with
        | some sd =>
          rw [file_loop_cons_stream dec uri q qs n is w sd hpp hfd hsd]
          simp [run_decode]
        | none =>
          rw [file_loop_cons_skip dec uri q qs n is w hfd hsd, ih]
          simp

theorem select_error_kept (env : Env) (s : song) (uri : String) (is : input_stream)
    (w : World) (sel : Selected) (h : decoder_select env s uri is w = .ok sel) :
    sel.w.dc.error = w.dc.error := by
  unfold decoder_select at h
  cases hf : env.song_is_file s with
  | true =>
    simp only [hf, Bool.not_true, Bool.false_eq_true, ↓reduceIte, Except.ok.injEq] at h
    subst h
    exact file_loop_error _ _ _ _ _ _
  | false =>
    simp only [hf, Bool.not_false, ↓reduceIte] at h
    obtain ⟨m, hml⟩ := mime_loop_total env.decoder_plugins ⟨false, false⟩
      env.decoder_plugins.length 0 is w (by omega)
    simp only [hml] at h
    have hm := mime_loop_error env.decoder_plugins ⟨false, false⟩
      env.decoder_plugins.length 0 is w m hml
    cases hmp : m.plugin with
    | some p =>
      simp only [hmp, Except.ok.injEq] at h
      subst h
      exact hm
    | none =>
      simp only [hmp] at h
      have hx := stream_loop_error Event.lookup_suffix ⟨false, false⟩
        (suffix_matches env.decoder_plugins (env.getSuffix uri)) 0 m.is m.w
      generalize stream_loop Event.lookup_suffix ⟨false, false⟩
        (suffix_matches env.decoder_plugins (env.getSuffix uri)) 0 m.is m.w = x at h hx
      cases hxp : x.plugin with
      | some p =>
        simp only [hxp, Except.ok.injEq] at h
        subst h
        exact hx.trans hm
      | none =>
        simp only [hxp] at h
        cases hn : decoder_plugin_from_name env.decoder_plugins "mp3" with
        | none =>
          simp only [hn, Except.ok.injEq] at h
          subst h
          exact hx.trans hm
        | some p =>
          simp only [hn] at h
          cases hsd : p.stream_decode with
          | none => simp [hsd] at h
          | some sd =>
            simp only [hsd, Except.ok.injEq] at h
            subst h
            simpa [run_decode] using hx.trans hm

/-- C17 as stated fails: the control block holds `DECODE_ERROR_FILE` from an
earlier session when a file-backed session starts whose only suffix match,
`plugin_flac`, passes its probe and decodes the file successfully; the
session ends, stopped, with `DECODE_ERROR_FILE` still in `dc.error`. -/
theorem C17_error_not_cleared_counterexample :
    world_failed.dc.error = DECODE_ERROR_FILE ∧
    ∃ w2, decoder_task_iteration (env_file [plugin_flac]) 5 world_failed = .ok w2 ∧
      (events_since world_failed w2).filter Event.is_decode =
        [Event.file_decode "flac" true] ∧
      w2.dc.state = DECODE_STATE_STOP ∧
      w2.dc.error = DECODE_ERROR_FILE ∧ w2.dc.error ≠ DECODE_ERROR_NOERROR :=
  ⟨rfl, _, rfl, by decide, rfl, rfl, by decide⟩

/-- C17, amended: a session of `decoder_run` in which a decode entry was
called and returned true does not write `dc.error`: it ends with the error it
started with (no error if there was none), after exactly one flush. -/
theorem C17_success_keeps_error (env : Env) (fuel : Nat) (w w2 : World) (n : String)
    (hrun : decoder_run env fuel w = .ok w2)
    (hok : Event.stream_decode n true ∈ events_since w w2 ∨
      Event.file_decode n true ∈ events_since w w2) :
    w2.dc.error = w.dc.error ∧
    (∀ e, Event.set_error e ∉ events_since w w2) ∧
    (events_since w w2).count Event.music_pipe_flush = 1 := by
  obtain ⟨r, hopen⟩ := run_open_of_run env fuel w w2 hrun
  have hc := run_cases env fuel w w2 r hopen hrun
  cases r with
  | returned w1 =>
    simp only at hc
    subst hc
    rcases hok with h | h
    · have := returned_events env fuel w w2 hopen _ h
      simp [Event.is_opening] at this
    · have := returned_events env fuel w w2 hopen _ h
      simp [Event.is_opening] at this
  | selecting s uri is w1 =>
    obtain ⟨sel, hsel, hw2⟩ := hc
    subst hw2
    have hess := session_essential env fuel w w1 s uri is sel hopen hsel
    have he1 := open_selecting_error env fuel w w1 s uri is hopen
    have he2 := select_error_kept env s uri is w1 sel hsel
    rw [mem_iff_mem_essential (Event.stream_decode n true) rfl,
      mem_iff_mem_essential (Event.file_decode n true) rfl, hess] at hok
    have hret : sel.ret = true := by
      unfold decode_events finish_events at hok
      cases hp : sel.plugin <;> cases hr : sel.ret <;> cases hci : sel.close_instream <;>
        simp [hp, hr, hci] at hok ⊢
    refine ⟨?_, ?_, ?_⟩
    · rw [finish_error, hret]
      simp [he2, he1]
    · intro e
      rw [mem_iff_mem_essential (Event.set_error e) rfl, hess]
      unfold decode_events finish_events
      cases hp : sel.plugin <;> cases hci : sel.close_instream <;> simp [hret]
    · rw [count_eq_count_essential Event.music_pipe_flush rfl, hess]
      unfold decode_events finish_events
      cases hp : sel.plugin <;> cases hci : sel.close_instream <;> simp [hret]

/-- C17, amended, at the scenario of the spec: a file-backed track whose only
suffix match has a file-decode entry, the probe and the decode succeed, and
no error is held at the start; the session ends with no error after one
flush, the stream is closed before the decode, and the iteration of
`decoder_task` ends stopped. -/
theorem C17_success_keeps_error_witness :
    ∃ w2, decoder_run (env_file [plugin_flac]) 5 world_start = .ok w2 ∧
      w2.dc.error = DECODE_ERROR_NOERROR ∧
      (∀ e, Event.set_error e ∉ events_since world_start w2) ∧
      (events_since world_start w2).count Event.music_pipe_flush = 1 ∧
      (events_since world_start w2).filter (fun e => e.is_decode || e.is_close) =
        [Event.input_stream_close, Event.file_decode "flac" true] ∧
      ∃ w3, decoder_task_iteration (env_file [plugin_flac]) 5 world_start = .ok w3 ∧
        w3.dc.state = DECODE_STATE_STOP ∧ w3.dc.error = DECODE_ERROR_NOERROR :=
  ⟨_, rfl,
    (C17_success_keeps_error (env_file [plugin_flac]) 5 world_start _ "flac" rfl
      (Or.inr (by decide))).1,
    (C17_success_keeps_error (env_file [plugin_flac]) 5 world_start _ "flac" rfl
      (Or.inr (by decide))).2.1,
    (C17_success_keeps_error (env_file [plugin_flac]) 5 world_start _ "flac" rfl
      (Or.inr (by decide))).2.2,
    by decide, _, rfl, rfl, rfl⟩

/-! ## C20: calls through function pointers -/

theorem stream_loop_none (lk : Nat → Event) (dec : decoder) (ps : List decoder_plugin) :
    ∀ (n : Nat) (is : input_stream) (w : World),
      (stream_loop lk dec ps n is w).plugin = none → stream_rejects_all ps is = true := by
  induction ps with
  | nil =>
    intro n is w _
    rfl
  | cons q qs ih =>
    intro n is w h
    cases hsd : q.stream_decode with
    | none =>
      rw [stream_loop_cons_none lk dec q qs n is w hsd] at h
      simp [stream_rejects_all, stream_accepts, stream_skip, hsd, ih _ _ _ h]
    | some sd =>
      cases hpp : probe_passes q is with
      | false =>
        rw [stream_loop_cons_fail lk dec q qs n is w sd hsd hpp] at h
        simp [stream_rejects_all, stream_accepts, stream_skip, hsd, hpp, ih _ _ _ h]
      | true =>
        rw [stream_loop_cons_hit lk dec q qs n is w sd hsd hpp] at h
        simp at h

/-- C20: when the plugin registered under the name `mp3`, if any, has a
stream-decode entry, plugin selection never calls through a `NULL` entry, for
every registry, track and input stream: `decoder_select` returns and
`decoder_run` does not end in a `NULL` call. The only call made without a
presence check is the one of the default backend: plugin selection ends in a
`NULL` call exactly when the track is a stream, the MIME loop, which looks the
MIME type of the stream up anew in every round, has turned down the `k`
plugins the lookup returned and then got `NULL`, the suffix loop has turned
down every plugin, and the plugin registered under the name `mp3` has no
stream-decode entry. -/
theorem C20_only_default_unchecked (env : Env) (s : song) (uri : String) (is : input_stream)
    (w : World) :
    (default_backend_ok env.decoder_plugins = true →
      (∃ sel, decoder_select env s uri is w = .ok sel) ∧
      ∀ fuel w0, decoder_run env fuel w0 ≠ .error .null_function) ∧
    (decoder_select env s uri is w = .error .null_function ↔
      env.song_is_file s = false ∧
      (∃ k isk, mime_rejects env.decoder_plugins k 0 is = some isk ∧
        decoder_plugin_from_mime_type env.decoder_plugins isk.mime k = none ∧
        stream_rejects_all (suffix_matches env.decoder_plugins (env.getSuffix uri)) isk =
          true) ∧
      default_backend_ok env.decoder_plugins = false) := by
  constructor
  · intro hdef
    refine ⟨select_returns env s uri is w hdef, ?_⟩
    intro fuel w0 h
    unfold decoder_run at h
    cases ho : decoder_run_open env fuel w0 with
    | error e =>
      simp only [ho, Except.error.injEq] at h
      subst h
      rcases open_error env fuel w0 _ ho with h1 | h1 <;> simp at h1
    | ok r =>
      cases r with
      | returned w1 => simp [ho] at h
      | selecting s1 uri1 is1 w1 =>
        simp only [ho] at h
        obtain ⟨sel, hsel⟩ := select_returns env s1 uri1 is1 w1 hdef
        simp [hsel] at h
  · constructor
    · intro h
      unfold decoder_select at h
      cases hf : env.song_is_file s with
      | true => simp [hf] at h
      | false =>
        simp only [hf, Bool.not_false, ↓reduceIte] at h
        obtain ⟨m, hml⟩ := mime_loop_total env.decoder_plugins ⟨false, false⟩
          env.decoder_plugins.length 0 is w (by omega)
        simp only [hml] at h
        cases hmp : m.plugin with
        | some p => simp [hmp] at h
        | none =>
          simp only [hmp] at h
          obtain ⟨k, -, hk1, hk2⟩ := mime_loop_none env.decoder_plugins ⟨false, false⟩
            env.decoder_plugins.length 0 is w m hml hmp
          have hx0 := stream_loop_none Event.lookup_suffix ⟨false, false⟩
            (suffix_matches env.decoder_plugins (env.getSuffix uri)) 0 m.is m.w
          generalize stream_loop Event.lookup_suffix ⟨false, false⟩
            (suffix_matches env.decoder_plugins (env.getSuffix uri)) 0 m.is m.w = x at h hx0
          cases hxp : x.plugin with
          | some p => simp [hxp] at h
          | none =>
            simp only [hxp] at h
            refine ⟨rfl, ⟨k, m.is, hk1, by simpa using hk2, hx0 hxp⟩, ?_⟩
            unfold default_backend_ok
            cases hn : decoder_plugin_from_name env.decoder_plugins "mp3" with
            | none => simp [hn] at h
            | some p =>
              simp only [hn] at h
              cases hsd : p.stream_decode with
              | none => simp [hsd]
              | some sd => simp [hsd] at h
    · rintro ⟨hf, ⟨k, isk, hmime, hnull, hsuf⟩, hdef⟩
      have hk : k ≤ env.decoder_plugins.length := by
        rcases mime_rejects_bound env.decoder_plugins k 0 is isk hmime with h | h <;> omega
      have hm := mime_loop_exhausted env.decoder_plugins ⟨false, false⟩ k
        env.decoder_plugins.length 0 is isk w hmime (by simpa using hnull) hk
      obtain ⟨x1, -, -⟩ := stream_loop_rejected Event.lookup_suffix (fun _ => rfl)
        ⟨false, false⟩ (suffix_matches env.decoder_plugins (env.getSuffix uri)) 0 isk
        (w.logged (mime_skip_events env.decoder_plugins k 0 is ++
          [Event.lookup_mime (0 + k)])) hsuf
      unfold default_backend_ok at hdef
      unfold decoder_select
      simp only [hf, Bool.not_false, ↓reduceIte, hm, x1]
      cases hn : decoder_plugin_from_name env.decoder_plugins "mp3" with
      | none => simp [hn] at hdef
      | some p =>
        simp only [hn] at hdef ⊢
        cases hsd : p.stream_decode with
        | none => rfl
        | some sd => simp [hsd] at hdef

/-- C20 at `env_unknown` and `env_suffix`: with `plugin_mp3` registered, plugin
selection returns and `decoder_run` never ends in a `NULL` call; with an `mp3`
plugin that lacks the stream-decode entry, the fallback is a `NULL` call for a
stream whose first MIME lookup returns `plugin_retype`, whose probe rejects and
leaves the stream reporting `audio/z`, so that the second MIME lookup returns
`NULL` before `plugin_x`, registered for `audio/x`, is ever returned. -/
theorem C20_only_default_unchecked_witness :
    ((∃ sel, decoder_select (env_unknown [plugin_ogg, plugin_mp3]) ⟨1⟩ "http://h/live"
        ⟨true, none, 0⟩ world_unknown_selecting = .ok sel) ∧
      ∀ fuel w0, decoder_run (env_unknown [plugin_ogg, plugin_mp3]) fuel w0 ≠
        .error .null_function) ∧
    decoder_select (env_suffix [plugin_retype, plugin_x, plugin_mp3_file_only]) ⟨1⟩
      "http://h/b.ogg" ⟨true, some "audio/x", 0⟩ world_suffix_selecting =
        .error .null_function :=
  ⟨(C20_only_default_unchecked (env_unknown [plugin_ogg, plugin_mp3]) ⟨1⟩ "http://h/live"
      ⟨true, none, 0⟩ world_unknown_selecting).1 rfl,
   (C20_only_default_unchecked (env_suffix [plugin_retype, plugin_x, plugin_mp3_file_only])
      ⟨1⟩ "http://h/b.ogg" ⟨true, some "audio/x", 0⟩ world_suffix_selecting).2.2
      ⟨rfl, ⟨1, ⟨true, some "audio/z", 0⟩, rfl, rfl, rfl⟩, rfl⟩⟩

end Mpd
